import Mathlib

/-!
# Stacked-curves watchface: geometry engine

A shallow embedding of `src/main.c`.  Machine integers are mathematical
integers with the narrowing conversions of the C code written out
(`wrap16` for the `int16_t` fields of `GPoint`, `wrap32` for `int`,
`wrap64` for `int64_t`); a narrowing is written wherever the operand types
of the C expression allow the value to leave the type.  Code that can fault
(division by zero, an array index out of range, a read of a cell never
written) returns `Except Fault`, and a `for` loop is a recursion on the
number of iterations left.  The drawing surface is a log of the lines drawn,
each with the stroke width and colour in force.

The first part holds the definitions: the code of `main.c`, then the
construction the specification describes in words.  The second part holds
the theorems.
-/

namespace StackedCurves

/-! ## Constants of `main.c` -/

/-- The constant `NUM_POINTS`. -/
def NUM_POINTS : Int := 6

/-- The constant `START_BOLD_POINT`. -/
def START_BOLD_POINT : Int := 2

/-- The constant `NUM_BEHIND_ECHOES`. -/
def NUM_BEHIND_ECHOES : Int := 15

/-- The constant `NUM_AHEAD_ECHOES`. -/
def NUM_AHEAD_ECHOES : Int := 15

/-- The constant `FOLLOW_DISTANCE`. -/
def FOLLOW_DISTANCE : Int := 8

/-! ## Machine arithmetic -/

/-- Run-time faults of the C code that the embedding makes explicit. -/
inductive Fault where
  | divByZero
  | outOfBounds
  | uninitialised
  deriving DecidableEq, Repr

deriving instance DecidableEq for Except

/-- Narrowing of an integer to `int16_t` (two's complement). -/
def wrap16 (v : Int) : Int := (v + 32768) % 65536 - 32768

/-- Narrowing of an integer to a 32-bit `int` (two's complement). -/
def wrap32 (v : Int) : Int := (v + 2147483648) % 4294967296 - 2147483648

/-- Narrowing of an integer to `int64_t` (two's complement). -/
def wrap64 (v : Int) : Int :=
  (v + 9223372036854775808) % 18446744073709551616 - 9223372036854775808

/-- C integer division: truncation toward zero, a fault when the divisor is 0. -/
def cdiv (a b : Int) : Except Fault Int :=
  if b = 0 then .error .divByZero else .ok (Int.tdiv a b)

/-- Digit-by-digit integer square root; `fuel` bounds the recursion depth. -/
def isqrtAux : Nat → Nat → Nat
  | 0, _ => 0
  | fuel + 1, n =>
    if n = 0 then 0
    else
      let r := 2 * isqrtAux fuel (n / 4)
      if (r + 1) * (r + 1) ≤ n then r + 1 else r

/-- Modelled from the spec: `isqrt` is declared in `mathutil.h`, which is not among
the sources; the spec calls it the "integer square-root", taken here as the floor
square root of a non-negative argument (and 0 on a negative one). -/
def isqrt (n : Int) : Int := (isqrtAux n.toNat n.toNat : Nat)

/-! ## Points -/

/-- The Pebble `GPoint`: two `int16_t` coordinates. -/
structure GPoint where
  x : Int
  y : Int
  deriving DecidableEq, Repr

/-- The `GPoint(x, y)` constructor macro: both values are stored into `int16_t` fields. -/
def mkGPoint (x y : Int) : GPoint := ⟨wrap16 x, wrap16 y⟩

/-- The value `distance` computed on lines 64-65 and 75-76 from the two arguments. -/
def distance (prev follow : GPoint) : Int :=
  let vector := mkGPoint (follow.x - prev.x) (follow.y - prev.y)
  isqrt (wrap32 (vector.x * vector.x + vector.y * vector.y))

/-- The function `get_follow` (lines 63-72). -/
def get_follow (prev follow : GPoint) : Except Fault GPoint :=
  let vector := mkGPoint (follow.x - prev.x) (follow.y - prev.y)
  let distance := isqrt (wrap32 (vector.x * vector.x + vector.y * vector.y))
  if distance = 0 then .ok follow
  else
    match cdiv (vector.x * FOLLOW_DISTANCE) distance with
    | .error e => .error e
    | .ok qx =>
      let vector : GPoint := { vector with x := wrap16 qx }
      match cdiv (vector.y * FOLLOW_DISTANCE) distance with
      | .error e => .error e
      | .ok qy =>
        let vector : GPoint := { vector with y := wrap16 qy }
        .ok (mkGPoint (follow.x - vector.x) (follow.y - vector.y))

/-- The function `get_unfollow` (lines 74-83). -/
def get_unfollow (prev cur : GPoint) : Except Fault GPoint :=
  let vector := mkGPoint (cur.x - prev.x) (cur.y - prev.y)
  let distance := isqrt (wrap32 (vector.x * vector.x + vector.y * vector.y))
  if distance = 0 then .ok cur
  else
    match cdiv (vector.x * FOLLOW_DISTANCE) distance with
    | .error e => .error e
    | .ok qx =>
      let vector : GPoint := { vector with x := wrap16 qx }
      match cdiv (vector.y * FOLLOW_DISTANCE) distance with
      | .error e => .error e
      | .ok qy =>
        let vector : GPoint := { vector with y := wrap16 qy }
        .ok (mkGPoint (cur.x + vector.x) (cur.y + vector.y))

/-- The point `get_follow` returns, as a total function (its second argument should
the call fault; `get_follow_ok` shows it never does). -/
def followVal (prev follow : GPoint) : GPoint :=
  match get_follow prev follow with
  | .ok r => r
  | .error _ => follow

/-- The point `get_unfollow` returns, as a total function. -/
def unfollowVal (prev cur : GPoint) : GPoint :=
  match get_unfollow prev cur with
  | .ok r => r
  | .error _ => cur

/-! ## Arrays and loops -/

/-- The local array `GPoint all_points[1+NUM_BEHIND_ECHOES+NUM_AHEAD_ECHOES][NUM_POINTS]`.
It is declared without initialiser: a cell is `none` until it is first written. -/
structure Grid where
  cell : Int → Int → Option GPoint

/-- The array `all_points` at its declaration. -/
def Grid.fresh : Grid := ⟨fun _ _ => none⟩

/-- An access `all_points[row][col]` that reads: both indices are checked, and the
cell must have been written. -/
def Grid.read (g : Grid) (row col : Int) : Except Fault GPoint :=
  if 0 ≤ row ∧ row < 1 + NUM_BEHIND_ECHOES + NUM_AHEAD_ECHOES ∧ 0 ≤ col ∧ col < NUM_POINTS then
    match g.cell row col with
    | some v => .ok v
    | none => .error .uninitialised
  else .error .outOfBounds

/-- An assignment `all_points[row][col] = v`. -/
def Grid.write (g : Grid) (row col : Int) (v : GPoint) : Except Fault Grid :=
  if 0 ≤ row ∧ row < 1 + NUM_BEHIND_ECHOES + NUM_AHEAD_ECHOES ∧ 0 ≤ col ∧ col < NUM_POINTS then
    .ok ⟨fun r c => if r = row ∧ c = col then some v else g.cell r c⟩
  else .error .outOfBounds

/-- A read `points[i]` of the parameter `GPoint points[NUM_POINTS]`. -/
def readPoint (points : Nat → GPoint) (i : Int) : Except Fault GPoint :=
  if 0 ≤ i ∧ i < NUM_POINTS then .ok (points i.toNat) else .error .outOfBounds

/-- The call `memcpy(all_points[row], points, sizeof(GPoint)*NUM_POINTS)`. -/
def memcpy_points (g : Grid) (row : Int) (points : Nat → GPoint) : Except Fault Grid :=
  if 0 ≤ row ∧ row < 1 + NUM_BEHIND_ECHOES + NUM_AHEAD_ECHOES then
    .ok ⟨fun r c => if r = row ∧ 0 ≤ c ∧ c < NUM_POINTS then some (points c.toNat) else g.cell r c⟩
  else .error .outOfBounds

/-- The first `n` iterations, from value `v` of the loop variable, of a loop whose
variable goes up by one; a fault in the body ends the loop. -/
def loopFrom {σ : Type} (body : Int → σ → Except Fault σ) : Nat → Int → σ → Except Fault σ
  | 0, _, s => .ok s
  | n + 1, v, s =>
    match body v s with
    | .ok s1 => loopFrom body n (v + 1) s1
    | .error e => .error e

/-- The loop `for (v = lo; v < hi; v++) body`. -/
def forRange {σ : Type} (lo hi : Int) (body : Int → σ → Except Fault σ) (s : σ) :
    Except Fault σ :=
  loopFrom body (hi - lo).toNat lo s

/-! ## Echo generation (lines 85-111) -/

/-- The macro `INDEX_POINTS(pts,i)`: the row `i+NUM_BEHIND_ECHOES` of `all_points`. -/
def INDEX_POINTS (i : Int) : Int := i + NUM_BEHIND_ECHOES

/-- Body of the inner loop of the trailing echoes (lines 97-99). -/
def follow_step (active_echo follow_echo : Int) (p : Int) (g : Grid) : Except Fault Grid := do
  let prev_pt ← g.read active_echo (p - 1)
  let cur_follow_pt ← g.read follow_echo p
  let r ← get_follow prev_pt cur_follow_pt
  g.write active_echo p r

/-- Body of the outer loop of the trailing echoes (lines 93-100). -/
def behind_body (points : Nat → GPoint) (point_limit : Int) (i : Int) (g : Grid) :
    Except Fault Grid := do
  let active_echo := INDEX_POINTS (-i)
  let follow_echo := INDEX_POINTS (-i + 1)
  let first ← readPoint points 0
  let g ← g.write active_echo 0 first
  forRange 1 point_limit (follow_step active_echo follow_echo) g

/-- Body of the inner loop of the leading echoes (lines 107-109). -/
def unfollow_step (active_echo unfollow_echo : Int) (p : Int) (g : Grid) :
    Except Fault Grid := do
  let unfollow_prev_pt ← g.read unfollow_echo (p - 1)
  let unfollow_cur_pt ← g.read unfollow_echo p
  let r ← get_unfollow unfollow_prev_pt unfollow_cur_pt
  g.write active_echo p r

/-- Body of the outer loop of the leading echoes (lines 103-110). -/
def ahead_body (points : Nat → GPoint) (point_limit : Int) (i : Int) (g : Grid) :
    Except Fault Grid := do
  let active_echo := INDEX_POINTS i
  let unfollow_echo := INDEX_POINTS (i - 1)
  let first ← readPoint points 0
  let g ← g.write active_echo 0 first
  forRange 1 point_limit (unfollow_step active_echo unfollow_echo) g

/-- Lines 87-111 of `draw_lines_and_echoes`: the copy of the base chain and the two
echo-building loops.  The result is the array `all_points`. -/
def echo_loops (points : Nat → GPoint) (point_limit : Int) : Except Fault Grid := do
  let g ← memcpy_points Grid.fresh (INDEX_POINTS 0) points
  let g ← forRange 1 (NUM_BEHIND_ECHOES + 1) (behind_body points point_limit) g
  forRange 1 (NUM_AHEAD_ECHOES + 1) (ahead_body points point_limit) g

/-! ## Drawing (lines 113-145) -/

/-- The Pebble colours the file names. -/
inductive GColor where
  | Black | White | LightGray | Purple | Red | ChromeYellow | Green | VividCerulean
  deriving DecidableEq, Repr

/-- One call of `graphics_draw_line`, with the stroke settings in force. -/
structure Line where
  p0 : GPoint
  p1 : GPoint
  width : Int
  color : GColor
  deriving DecidableEq, Repr

/-- The drawing context: the stroke settings and the lines drawn so far, oldest first. -/
structure GContext where
  stroke_width : Int
  stroke_color : GColor
  lines : List Line
  deriving DecidableEq, Repr

/-- The SDK call `graphics_context_set_stroke_width`. -/
def graphics_context_set_stroke_width (ctx : GContext) (w : Int) : GContext :=
  { ctx with stroke_width := w }

/-- The SDK call `graphics_context_set_stroke_color`. -/
def graphics_context_set_stroke_color (ctx : GContext) (c : GColor) : GContext :=
  { ctx with stroke_color := c }

/-- The SDK call `graphics_draw_line`, recorded with the current stroke settings. -/
def graphics_draw_line (ctx : GContext) (p0 p1 : GPoint) : GContext :=
  { ctx with lines := ctx.lines ++ [⟨p0, p1, ctx.stroke_width, ctx.stroke_color⟩] }

/-- The array `line_colors` (lines 113-117); `pbl_color` tells whether `PBL_COLOR` is
defined. -/
def line_colors (pbl_color : Bool) : List GColor :=
  if pbl_color then
    [GColor.Purple, GColor.Red, GColor.ChromeYellow, GColor.Green, GColor.VividCerulean]
  else [GColor.White, GColor.White, GColor.White, GColor.White, GColor.White]

/-- A read `line_colors[i]`. -/
def readColor (pbl_color : Bool) (i : Int) : Except Fault GColor :=
  if 0 ≤ i then
    match (line_colors pbl_color)[i.toNat]? with
    | some c => .ok c
    | none => .error .outOfBounds
  else .error .outOfBounds

/-- Body of the inner echo-drawing loop (lines 123-124). -/
def echo_draw_step (g : Grid) (p : Int) (i : Int) (ctx : GContext) : Except Fault GContext := do
  let cpoints := INDEX_POINTS i
  let a ← g.read cpoints (p - 1)
  let b ← g.read cpoints p
  pure (graphics_draw_line ctx a b)

/-- Body of the outer echo-drawing loop (lines 121-125). -/
def echo_draw_body (pbl_color : Bool) (g : Grid) (p : Int) (ctx : GContext) :
    Except Fault GContext := do
  let c ← readColor pbl_color (p - 1)
  let ctx := graphics_context_set_stroke_color ctx c
  forRange (-NUM_BEHIND_ECHOES) (NUM_AHEAD_ECHOES + 1) (echo_draw_step g p) ctx

/-- Body of the outline loop (line 131). -/
def outline_body (points : Nat → GPoint) (g : Grid) (p : Int) (ctx : GContext) :
    Except Fault GContext := do
  let a ← readPoint points (p - 1)
  let b ← g.read (INDEX_POINTS 0) p
  pure (graphics_draw_line ctx a b)

/-- Body of the overlay loop (lines 135-142). -/
def overlay_body (pbl_color : Bool) (points : Nat → GPoint) (g : Grid) (p : Int)
    (ctx : GContext) : Except Fault GContext := do
  let ctx :=
    if pbl_color then ctx
    else if p ≤ START_BOLD_POINT then graphics_context_set_stroke_width ctx 1
    else graphics_context_set_stroke_width ctx 3
  let c ← readColor pbl_color (p - 1)
  let ctx := graphics_context_set_stroke_color ctx c
  let a ← readPoint points (p - 1)
  let b ← g.read (INDEX_POINTS 0) p
  pure (graphics_draw_line ctx a b)

/-- Lines 113-144 of `draw_lines_and_echoes`: the three drawing passes. -/
def draw_loops (pbl_color : Bool) (points : Nat → GPoint) (point_limit : Int) (g : Grid)
    (ctx : GContext) : Except Fault GContext := do
  let ctx := graphics_context_set_stroke_width ctx 1
  let ctx ← forRange 1 point_limit (echo_draw_body pbl_color g) ctx
  let ctx := graphics_context_set_stroke_width ctx 7
  let ctx := graphics_context_set_stroke_color ctx GColor.Black
  let ctx ← forRange 1 point_limit (outline_body points g) ctx
  let ctx := graphics_context_set_stroke_width ctx 3
  forRange 1 point_limit (overlay_body pbl_color points g) ctx

/-- The function `draw_lines_and_echoes` (lines 86-145). -/
def draw_lines_and_echoes (pbl_color : Bool) (ctx : GContext) (points : Nat → GPoint)
    (point_limit : Int) : Except Fault GContext := do
  let g ← echo_loops points point_limit
  draw_loops pbl_color points point_limit g ctx

/-- The third argument of the call on line 181. -/
def point_limit_of (seconds_precision : Bool) : Int :=
  if seconds_precision then NUM_POINTS else NUM_POINTS - 1

/-! ## Angles (lines 159-164) -/

/-- The Pebble SDK constant `TRIG_MAX_ANGLE` (0x10000), the angle of a full circle. -/
def TRIG_MAX_ANGLE : Int := 65536

/-- The Pebble SDK constant `SECONDS_PER_HOUR`. -/
def SECONDS_PER_HOUR : Int := 3600

/-- The Pebble SDK constant `SECONDS_PER_MINUTE`. -/
def SECONDS_PER_MINUTE : Int := 60

/-- The macro `CLOCK_ANGLE(x,outof)` (line 159) evaluated in a C integer type whose
narrowing is `wrap`: the product, the quotient and the difference are each narrowed. -/
def CLOCK_ANGLE_in (wrap : Int → Int) (x outof : Int) : Except Fault Int := do
  let q ← cdiv (wrap (x * TRIG_MAX_ANGLE)) outof
  let quarter ← cdiv TRIG_MAX_ANGLE 4
  pure (wrap (wrap q - quarter))

/-- The macro `CLOCK_ANGLE(x,outof)` without overflow: no result is narrowed. -/
def CLOCK_ANGLE (x outof : Int) : Except Fault Int := CLOCK_ANGLE_in id x outof

/-- The macro `YEAR_ANGLE(time)` (line 160); `tm_yday` is an `int`. -/
def YEAR_ANGLE (tm_yday : Int) : Except Fault Int := CLOCK_ANGLE_in wrap32 tm_yday 365

/-- The macro `MONTH_ANGLE(time)` (line 161); `tm_yday*12` is computed in `int`. -/
def MONTH_ANGLE (tm_yday : Int) : Except Fault Int :=
  CLOCK_ANGLE_in wrap32 (wrap32 (tm_yday * 12)) 365

/-- The macro `HOUR_ANGLE(x)` (line 162); `time_sec` is an `int64_t`. -/
def HOUR_ANGLE (x : Int) : Except Fault Int := CLOCK_ANGLE_in wrap64 x (SECONDS_PER_HOUR * 12)

/-- The macro `MIN_ANGLE(x)` (line 163). -/
def MIN_ANGLE (x : Int) : Except Fault Int := CLOCK_ANGLE_in wrap64 x SECONDS_PER_HOUR

/-- The macro `SEC_ANGLE(x)` (line 164). -/
def SEC_ANGLE (x : Int) : Except Fault Int := CLOCK_ANGLE_in wrap64 x SECONDS_PER_MINUTE

/-- The angle argument of line 171: `MONTH_ANGLE(last_time) + TRIG_MAX_ANGLE/2`, an `int`
passed as `int32_t`. -/
def month_arg (tm_yday : Int) : Except Fault Int := do
  let a ← MONTH_ANGLE tm_yday
  let half ← cdiv TRIG_MAX_ANGLE 2
  pure (wrap32 (a + half))

/-- The angle argument of line 172: `YEAR_ANGLE(last_time) + TRIG_MAX_ANGLE/2`. -/
def year_arg (tm_yday : Int) : Except Fault Int := do
  let a ← YEAR_ANGLE tm_yday
  let half ← cdiv TRIG_MAX_ANGLE 2
  pure (wrap32 (a + half))

/-- The angle argument of line 174: `HOUR_ANGLE(time_sec)`, an `int64_t` narrowed to the
`int32_t` parameter of `get_angular_point`. -/
def hour_arg (time_sec : Int) : Except Fault Int := do
  let a ← HOUR_ANGLE time_sec
  pure (wrap32 a)

/-- The angle argument of line 175: `MIN_ANGLE(time_sec)` narrowed to `int32_t`. -/
def min_arg (time_sec : Int) : Except Fault Int := do
  let a ← MIN_ANGLE time_sec
  pure (wrap32 a)

/-- The angle argument of line 179: `SEC_ANGLE(time_sec)` narrowed to `int32_t`. -/
def sec_arg (time_sec : Int) : Except Fault Int := do
  let a ← SEC_ANGLE time_sec
  pure (wrap32 a)

/-! ## The base chain and the redraw callback (lines 147-182) -/

/-- The Pebble SDK constant `TRIG_MAX_RATIO` (0xffff), the value of the trig lookups at a
sine or cosine of 1. -/
def TRIG_MAX_RATIO : Int := 65535

/-- The Pebble `GSize`: two `int16_t` extents. -/
structure GSize where
  w : Int
  h : Int
  deriving DecidableEq, Repr

/-- The Pebble `GRect`. -/
structure GRect where
  origin : GPoint
  size : GSize
  deriving DecidableEq, Repr

/-- The function `get_angular_point` (lines 147-150).  The SDK lookups `cos_lookup` and
`sin_lookup` are parameters; both products are computed in `int`. -/
def get_angular_point (cos_lookup sin_lookup : Int → Int) (center : GPoint) (r : Int)
    (angle : Int) : Except Fault GPoint := do
  let dx ← cdiv (wrap32 (r * cos_lookup angle)) TRIG_MAX_RATIO
  let dy ← cdiv (wrap32 (r * sin_lookup angle)) TRIG_MAX_RATIO
  pure (mkGPoint (center.x + dx) (center.y + dy))

/-- The function `max` (lines 152-154). -/
def max (a b : Int) : Int := if a < b then b else a

/-- The function `min` (lines 155-157). -/
def min (a b : Int) : Int := if a < b then a else b

/-- The value `sec_radius` of lines 177-178. -/
def sec_radius (bounds : GRect) : Int := max (Int.tdiv bounds.size.w 8) 0

/-- Lines 166-179 of `draw_update_proc`: the array `points`, from the layer bounds and the
globals `last_time.tm_yday` and `time_sec`.  Divisions by the literals 2, 3, 4, 6 and 8
cannot fault and are written as truncating divisions. -/
def build_points (cos_lookup sin_lookup : Int → Int) (bounds : GRect)
    (tm_yday time_sec : Int) : Except Fault (Nat → GPoint) := do
  let points2 := mkGPoint (Int.tdiv bounds.size.w 2) (Int.tdiv bounds.size.h 2)
  let month ← month_arg tm_yday
  let points1 ← get_angular_point cos_lookup sin_lookup points2 (Int.tdiv bounds.size.w 3) month
  let year ← year_arg tm_yday
  let points0 ← get_angular_point cos_lookup sin_lookup points1
    (bounds.size.h + bounds.size.w) year
  let hour ← hour_arg time_sec
  let points3 ← get_angular_point cos_lookup sin_lookup points2 (Int.tdiv bounds.size.w 4) hour
  let minute ← min_arg time_sec
  let points4 ← get_angular_point cos_lookup sin_lookup points3 (Int.tdiv bounds.size.w 6) minute
  let second ← sec_arg time_sec
  let points5 ← get_angular_point cos_lookup sin_lookup points4 (sec_radius bounds) second
  pure (fun k =>
    match k with
    | 0 => points0
    | 1 => points1
    | 2 => points2
    | 3 => points3
    | 4 => points4
    | _ => points5)

/-- The function `draw_update_proc` (lines 165-182). -/
def draw_update_proc (pbl_color : Bool) (cos_lookup sin_lookup : Int → Int) (bounds : GRect)
    (tm_yday time_sec : Int) (seconds_precision : Bool) (ctx : GContext) :
    Except Fault GContext := do
  let points ← build_points cos_lookup sin_lookup bounds tm_yday time_sec
  draw_lines_and_echoes pbl_color ctx points (point_limit_of seconds_precision)

/-! ## Tick scheduling (lines 7-61, 203-224) -/

/-- The two `TimeUnits` values the file subscribes with. -/
inductive TimeUnits where
  | SECOND_UNIT
  | MINUTE_UNIT
  deriving DecidableEq, Repr

/-- The constant `SECONDS_PRECISION_MAX_COUNTDOWN`. -/
def SECONDS_PRECISION_MAX_COUNTDOWN : Int := 30

/-- What `update_time` reads from the system clock: the day of the year of the local time
and the seconds since the start of the day. -/
structure Clock where
  tm_yday : Int
  seconds_today : Int
  deriving DecidableEq, Repr

/-- The globals of `main.c` (lines 7-10), with a record of the SDK calls made: the units
passed to `tick_timer_service_subscribe`, oldest first, and the number of calls of
`layer_mark_dirty`. -/
structure Globals where
  tm_yday : Int
  time_sec : Int
  seconds_precision : Bool
  seconds_precision_countdown : Int
  subscribed : List TimeUnits
  marked_dirty : Nat
  deriving DecidableEq, Repr

/-- The globals at program start (lines 7-10): `seconds_precision = true`,
`seconds_precision_countdown = 0`, the others zero-initialised. -/
def Globals.start : Globals := ⟨0, 0, true, 0, [], 0⟩

/-- The function `update_time` (lines 24-30). -/
def update_time (clock : Clock) (s : Globals) : Globals :=
  { s with tm_yday := clock.tm_yday, time_sec := clock.seconds_today }

/-- The function `update_graphics` (lines 32-34). -/
def update_graphics (s : Globals) : Globals :=
  { s with marked_dirty := s.marked_dirty + 1 }

/-- The function `schedule_with_precision` (lines 38-46). -/
def schedule_with_precision (should_use_seconds : Bool) (s : Globals) : Globals :=
  let s :=
    if should_use_seconds then
      { s with subscribed := s.subscribed ++ [TimeUnits.SECOND_UNIT],
               seconds_precision_countdown := SECONDS_PRECISION_MAX_COUNTDOWN }
    else
      { s with subscribed := s.subscribed ++ [TimeUnits.MINUTE_UNIT] }
  { s with seconds_precision := should_use_seconds }

/-- The function `tick_handler` (lines 48-57); `clock` is what `update_time` reads. -/
def tick_handler (clock : Clock) (s : Globals) : Globals :=
  let s :=
    if s.seconds_precision then
      let s := { s with seconds_precision_countdown := wrap32 (s.seconds_precision_countdown - 1) }
      if s.seconds_precision_countdown ≤ 0 then schedule_with_precision false s else s
    else s
  update_graphics (update_time clock s)

/-- The function `accel_tap_handler` (lines 59-61). -/
def accel_tap_handler (s : Globals) : Globals :=
  schedule_with_precision true s

/-- The part of `init` (lines 203-224) that touches the globals: `update_time` and
`schedule_with_precision(true)`. -/
def init (clock : Clock) (s : Globals) : Globals :=
  schedule_with_precision true (update_time clock s)

/-- An event delivered by the event loop after `init`. -/
inductive Event where
  | tick (clock : Clock)
  | tap
  deriving DecidableEq, Repr

/-- The handler the event loop calls for an event. -/
def handle (s : Globals) (e : Event) : Globals :=
  match e with
  | .tick clock => tick_handler clock s
  | .tap => accel_tap_handler s

/-- The globals after a sequence of events. -/
def run (events : List Event) (s : Globals) : Globals := events.foldl handle s

/-- The globals after the ticks `clocks`, with no tap in between. -/
def run_ticks (clocks : List Clock) (s : Globals) : Globals :=
  clocks.foldl (fun t clock => tick_handler clock t) s

/-! ## The recursive construction of the specification (§4.3, §4.5)

These definitions follow the words of the specification; the theorems compare them
with the loops above. -/

/-- Spec §4.3, trailing chain: point 0 is the pinned pivot, point `p` is the FOLLOW
transform of the previous point of the same chain and point `p` of the
next-less-trailing chain. -/
def followChain (pivot : GPoint) (lessTrailing : Nat → GPoint) : Nat → GPoint
  | 0 => pivot
  | p + 1 => followVal (followChain pivot lessTrailing p) (lessTrailing (p + 1))

/-- Spec §4.3, leading chain: point 0 is the pinned pivot, point `p` is the UNFOLLOW
transform of points `p-1` and `p` of the next-less-leading chain. -/
def unfollowChain (pivot : GPoint) (lessLeading : Nat → GPoint) : Nat → GPoint
  | 0 => pivot
  | p + 1 => unfollowVal (lessLeading p) (lessLeading (p + 1))

/-- Spec §4.3: the trailing chain of offset `-i`. -/
def trailingChain (points : Nat → GPoint) : Nat → Nat → GPoint
  | 0 => points
  | i + 1 => followChain (points 0) (trailingChain points i)

/-- Spec §4.3: the leading chain of offset `+i`. -/
def leadingChain (points : Nat → GPoint) : Nat → Nat → GPoint
  | 0 => points
  | i + 1 => unfollowChain (points 0) (leadingChain points i)

/-- Spec §3, EchoSet: the chain of offset `i`, for `i` in `-15..15`. -/
def specChain (points : Nat → GPoint) (i : Int) : Nat → GPoint :=
  if i < 0 then trailingChain points (-i).toNat else leadingChain points i.toNat

/-- The array `all_points` as the specification describes it after echo generation:
row `i + 15` holds the chain of offset `i`; the base chain has all six points, an echo
chain point 0 and the points below `point_limit`. -/
def specGrid (points : Nat → GPoint) (point_limit : Int) : Grid :=
  ⟨fun r c =>
    if 0 ≤ r ∧ r < 31 ∧ 0 ≤ c ∧ c < 6 ∧ (r = 15 ∨ c = 0 ∨ c < point_limit) then
      some (specChain points (r - 15) c.toNat)
    else none⟩

/-- The integers `lo, lo+1, ..., lo+n-1`. -/
def upto (lo : Int) (n : Nat) : List Int := (List.range n).map (fun (j : Nat) => lo + (j : Int))

/-- The colour `line_colors[p-1]` of segment `p`. -/
def segmentColor (pbl_color : Bool) (p : Int) : GColor :=
  ((line_colors pbl_color)[(p - 1).toNat]?).getD GColor.White

/-- Spec §4.5: the echo line of segment `p` and offset `i`. -/
def echoLine (pbl_color : Bool) (points : Nat → GPoint) (p i : Int) : Line :=
  ⟨specChain points i (p - 1).toNat, specChain points i p.toNat, 1, segmentColor pbl_color p⟩

/-- Spec §4.5: the outline line of segment `p` of the base chain. -/
def outlineLine (points : Nat → GPoint) (p : Int) : Line :=
  ⟨points (p - 1).toNat, points p.toNat, 7, GColor.Black⟩

/-- Spec §4.4, overlay pass: the stroke width of segment `p`. -/
def overlayWidth (pbl_color : Bool) (p : Int) : Int :=
  if pbl_color then 3 else if p ≤ 2 then 1 else 3

/-- Spec §4.5: the overlay line of segment `p` of the base chain. -/
def overlayLine (pbl_color : Bool) (points : Nat → GPoint) (p : Int) : Line :=
  ⟨points (p - 1).toNat, points p.toNat, overlayWidth pbl_color p, segmentColor pbl_color p⟩

/-- Spec §4.5: the echo lines of segment `p`, offsets `-15..15` ascending. -/
def echoLinesOf (pbl_color : Bool) (points : Nat → GPoint) (p : Int) : List Line :=
  (upto (-15) 31).map (echoLine pbl_color points p)

/-- Spec §4.5: all echo lines, segments `1..n-1` ascending. -/
def echoLines (pbl_color : Bool) (points : Nat → GPoint) (n : Int) : List Line :=
  ((upto 1 (n - 1).toNat).map (echoLinesOf pbl_color points)).flatten

/-- Spec §4.5: the outline pass. -/
def outlineLines (points : Nat → GPoint) (n : Int) : List Line :=
  (upto 1 (n - 1).toNat).map (outlineLine points)

/-- Spec §4.5: the overlay pass. -/
def overlayLines (pbl_color : Bool) (points : Nat → GPoint) (n : Int) : List Line :=
  (upto 1 (n - 1).toNat).map (overlayLine pbl_color points)

/-- Spec §4.5: the whole draw sequence for active point count `n`. -/
def drawSequence (pbl_color : Bool) (points : Nat → GPoint) (n : Int) : List Line :=
  echoLines pbl_color points n ++ outlineLines points n ++ overlayLines pbl_color points n

/-- A base chain on a 144x168 display, used to instantiate the theorems. -/
def samplePoints : Nat → GPoint
  | 0 => ⟨-200, 300⟩
  | 1 => ⟨40, 60⟩
  | 2 => ⟨72, 84⟩
  | 3 => ⟨72, 48⟩
  | 4 => ⟨90, 40⟩
  | _ => ⟨100, 45⟩

/-- A drawing context with nothing drawn yet. -/
def sampleCtx : GContext := ⟨1, GColor.White, []⟩

/-- The base chain of the end-to-end scenario: bounds 144x168, day 0, midnight. -/
def midnightPoints : Nat → GPoint
  | 0 => ⟨72, 444⟩
  | 1 => ⟨72, 132⟩
  | 2 => ⟨72, 84⟩
  | 3 => ⟨72, 48⟩
  | 4 => ⟨72, 24⟩
  | _ => ⟨72, 6⟩

/-- Trig lookups that are exact at the quarter turns and 0 elsewhere, used to instantiate
the theorems. -/
def quarterCos (angle : Int) : Int :=
  if angle % 65536 = 0 then 65535 else if angle % 65536 = 32768 then -65535 else 0

/-- The sine companion of `quarterCos`. -/
def quarterSin (angle : Int) : Int :=
  if angle % 65536 = 16384 then 65535 else if angle % 65536 = 49152 then -65535 else 0

/-- Coordinates small enough that no 16-bit or 32-bit narrowing changes a value. -/
def inRange (p : GPoint) : Prop :=
  -16000 ≤ p.x ∧ p.x ≤ 16000 ∧ -16000 ≤ p.y ∧ p.y ≤ 16000

instance (p : GPoint) : Decidable (inRange p) := by
  unfold inRange; infer_instance

end StackedCurves

namespace StackedCurves

/-! ## Narrowing and the integer square root -/

theorem wrap16_of_fits (v : Int) (h1 : -32768 ≤ v) (h2 : v < 32768) : wrap16 v = v := by
  unfold wrap16; omega

theorem wrap32_of_fits (v : Int) (h1 : -2147483648 ≤ v) (h2 : v < 2147483648) :
    wrap32 v = v := by
  unfold wrap32; omega

theorem wrap64_of_fits (v : Int) (h1 : -9223372036854775808 ≤ v)
    (h2 : v < 9223372036854775808) : wrap64 v = v := by
  unfold wrap64; omega

theorem wrap16_zero : wrap16 0 = 0 := by decide

theorem wrap32_zero : wrap32 0 = 0 := by decide

theorem isqrtAux_floor : ∀ (fuel n : Nat), n ≤ fuel →
    isqrtAux fuel n * isqrtAux fuel n ≤ n ∧ n < (isqrtAux fuel n + 1) * (isqrtAux fuel n + 1) := by
  intro fuel
  induction fuel with
  | zero =>
    intro n hn
    have : n = 0 := by omega
    subst this
    simp [isqrtAux]
  | succ k ih =>
    intro n hn
    unfold isqrtAux
    by_cases h0 : n = 0
    · simp [h0]
    · have hq : n / 4 ≤ k := by omega
      obtain ⟨hlo, hhi⟩ := ih (n / 4) hq
      have h4 : 4 * (n / 4) ≤ n := Nat.mul_div_le n 4
      have h4b : n < 4 * (n / 4) + 4 := by omega
      simp only [h0, if_false]
      generalize isqrtAux k (n / 4) = r at hlo hhi
      by_cases hc : (2 * r + 1) * (2 * r + 1) ≤ n
      · rw [if_pos hc]
        refine ⟨hc, ?_⟩
        nlinarith
      · rw [if_neg hc]
        refine ⟨by nlinarith, by omega⟩

theorem isqrt_nonneg (n : Int) : 0 ≤ isqrt n := by
  unfold isqrt; exact Int.ofNat_nonneg _

theorem isqrt_floor (n : Int) (hn : 0 ≤ n) :
    isqrt n * isqrt n ≤ n ∧ n < (isqrt n + 1) * (isqrt n + 1) := by
  obtain ⟨h1, h2⟩ := isqrtAux_floor n.toNat n.toNat (le_refl _)
  have hn2 : ((n.toNat : Nat) : Int) = n := Int.toNat_of_nonneg hn
  unfold isqrt
  constructor
  · have : ((isqrtAux n.toNat n.toNat * isqrtAux n.toNat n.toNat : Nat) : Int) ≤ (n.toNat : Int) := by
      exact_mod_cast h1
    push_cast at this
    omega
  · have : ((n.toNat : Nat) : Int)
        < (((isqrtAux n.toNat n.toNat + 1) * (isqrtAux n.toNat n.toNat + 1) : Nat) : Int) := by
      exact_mod_cast h2
    push_cast at this
    omega

theorem isqrt_zero : isqrt 0 = 0 := by decide

theorem isqrt_eq_zero_iff (n : Int) (hn : 0 ≤ n) : isqrt n = 0 ↔ n = 0 := by
  constructor
  · intro h
    have := (isqrt_floor n hn).2
    rw [h] at this
    omega
  · intro h
    subst h
    exact isqrt_zero

/-! ## The scaled step of `get_follow` and `get_unfollow` -/

theorem step_core (a b d : Nat) (hlo : d * d ≤ a * a + b * b)
    (hhi : a * a + b * b < (d + 1) * (d + 1)) (hpos : 0 < a * a + b * b) :
    8 * a / d ≤ 8 ∧ 8 * b / d ≤ 8 ∧
      45 ≤ (8 * a / d) * (8 * a / d) + (8 * b / d) * (8 * b / d) := by
  have hd : 0 < d := by
    rcases Nat.eq_zero_or_pos d with h | h
    · subst h; omega
    · exact h
  have ha : a ≤ d := by
    by_contra hc
    have : (d + 1) * (d + 1) ≤ a * a := Nat.mul_le_mul (by omega) (by omega)
    omega
  have hb : b ≤ d := by
    by_contra hc
    have : (d + 1) * (d + 1) ≤ b * b := Nat.mul_le_mul (by omega) (by omega)
    omega
  have hp8 : 8 * a / d ≤ 8 := by
    apply Nat.div_le_of_le_mul; omega
  have hq8 : 8 * b / d ≤ 8 := by
    apply Nat.div_le_of_le_mul; omega
  have hp : 8 * a < d * (8 * a / d + 1) := Nat.lt_mul_div_succ (8 * a) hd
  have hq : 8 * b < d * (8 * b / d + 1) := Nat.lt_mul_div_succ (8 * b) hd
  generalize 8 * a / d = p at hp hp8 ⊢
  generalize 8 * b / d = q at hq hq8 ⊢
  refine ⟨hp8, hq8, ?_⟩
  have hp2 : (8 * a) * (8 * a) < (d * (p + 1)) * (d * (p + 1)) :=
    Nat.mul_self_lt_mul_self hp
  have hq2 : (8 * b) * (8 * b) < (d * (q + 1)) * (d * (q + 1)) :=
    Nat.mul_self_lt_mul_self hq
  have hsum : (d * d) * 64 < (d * d) * ((p + 1) * (p + 1) + (q + 1) * (q + 1)) := by
    nlinarith
  have hK : 64 < (p + 1) * (p + 1) + (q + 1) * (q + 1) := Nat.lt_of_mul_lt_mul_left hsum
  interval_cases p <;> interval_cases q <;> omega

theorem step_bounds (vx vy : Int) (hne : vx ≠ 0 ∨ vy ≠ 0) :
    isqrt (vx * vx + vy * vy) ≠ 0 ∧
    -8 ≤ Int.tdiv (vx * 8) (isqrt (vx * vx + vy * vy)) ∧
    Int.tdiv (vx * 8) (isqrt (vx * vx + vy * vy)) ≤ 8 ∧
    -8 ≤ Int.tdiv (vy * 8) (isqrt (vx * vx + vy * vy)) ∧
    Int.tdiv (vy * 8) (isqrt (vx * vx + vy * vy)) ≤ 8 ∧
    45 ≤ Int.tdiv (vx * 8) (isqrt (vx * vx + vy * vy)) ^ 2
          + Int.tdiv (vy * 8) (isqrt (vx * vx + vy * vy)) ^ 2 ∧
    Int.tdiv (vx * 8) (isqrt (vx * vx + vy * vy)) ^ 2
          + Int.tdiv (vy * 8) (isqrt (vx * vx + vy * vy)) ^ 2 ≤ 128 := by
  have hn : 0 ≤ vx * vx + vy * vy := by nlinarith [mul_self_nonneg vx, mul_self_nonneg vy]
  have hpos : 0 < vx * vx + vy * vy := by
    rcases hne with h | h
    · have := mul_self_pos.mpr h
      nlinarith [mul_self_nonneg vy]
    · have := mul_self_pos.mpr h
      nlinarith [mul_self_nonneg vx]
  obtain ⟨hlo, hhi⟩ := isqrt_floor _ hn
  have hd0 := isqrt_nonneg (vx * vx + vy * vy)
  generalize isqrt (vx * vx + vy * vy) = d at hlo hhi hd0 ⊢
  obtain ⟨dn, rfl⟩ := Int.eq_ofNat_of_zero_le hd0
  have hax : (vx.natAbs * vx.natAbs : Nat) = vx * vx := Int.natAbs_mul_self
  have hay : (vy.natAbs * vy.natAbs : Nat) = vy * vy := Int.natAbs_mul_self
  have hlo2 : dn * dn ≤ vx.natAbs * vx.natAbs + vy.natAbs * vy.natAbs := by
    have : ((dn * dn : Nat) : Int)
        ≤ ((vx.natAbs * vx.natAbs + vy.natAbs * vy.natAbs : Nat) : Int) := by
      push_cast at hax hay ⊢
      rw [hax, hay]; exact hlo
    exact_mod_cast this
  have hhi2 : vx.natAbs * vx.natAbs + vy.natAbs * vy.natAbs < (dn + 1) * (dn + 1) := by
    have : ((vx.natAbs * vx.natAbs + vy.natAbs * vy.natAbs : Nat) : Int)
        < (((dn + 1) * (dn + 1) : Nat) : Int) := by
      push_cast at hax hay ⊢
      rw [hax, hay]; exact hhi
    exact_mod_cast this
  have hpos2 : 0 < vx.natAbs * vx.natAbs + vy.natAbs * vy.natAbs := by
    have : (0 : Int) < ((vx.natAbs * vx.natAbs + vy.natAbs * vy.natAbs : Nat) : Int) := by
      push_cast at hax hay ⊢
      rw [hax, hay]; exact hpos
    exact_mod_cast this
  obtain ⟨hp8, hq8, h45⟩ := step_core _ _ _ hlo2 hhi2 hpos2
  have hnx : (Int.tdiv (vx * 8) (dn : Int)).natAbs = 8 * vx.natAbs / dn := by
    rw [Int.natAbs_tdiv, Int.natAbs_mul, Int.natAbs_ofNat]
    show vx.natAbs * 8 / dn = 8 * vx.natAbs / dn
    rw [Nat.mul_comm]
  have hny : (Int.tdiv (vy * 8) (dn : Int)).natAbs = 8 * vy.natAbs / dn := by
    rw [Int.natAbs_tdiv, Int.natAbs_mul, Int.natAbs_ofNat]
    show vy.natAbs * 8 / dn = 8 * vy.natAbs / dn
    rw [Nat.mul_comm]
  rw [← hnx] at hp8 h45
  rw [← hny] at hq8 h45
  generalize Int.tdiv (vx * 8) (dn : Int) = dx at hp8 h45 ⊢
  generalize Int.tdiv (vy * 8) (dn : Int) = dy at hq8 h45 ⊢
  have hdn : (dn : Int) ≠ 0 := by
    intro h
    rw [h] at hhi
    omega
  have hsx : (dx.natAbs * dx.natAbs : Nat) = dx * dx := Int.natAbs_mul_self
  have hsy : (dy.natAbs * dy.natAbs : Nat) = dy * dy := Int.natAbs_mul_self
  have h45i : (45 : Int) ≤ dx * dx + dy * dy := by
    rw [← hsx, ← hsy]; exact_mod_cast h45
  have hxb : -8 ≤ dx ∧ dx ≤ 8 := by omega
  have hyb : -8 ≤ dy ∧ dy ≤ 8 := by omega
  refine ⟨hdn, hxb.1, hxb.2, hyb.1, hyb.2, ?_, ?_⟩
  · rw [sq, sq]; exact h45i
  · rw [sq, sq]; nlinarith

/-! ## `get_follow` and `get_unfollow` never fault -/

theorem cdiv_of_ne_zero (a b : Int) (hb : b ≠ 0) : cdiv a b = .ok (Int.tdiv a b) := by
  unfold cdiv; rw [if_neg hb]

theorem get_follow_zero (prev follow : GPoint) (h : distance prev follow = 0) :
    get_follow prev follow = .ok follow := by
  unfold distance at h
  unfold get_follow
  simp only [h, if_true]

theorem get_unfollow_zero (prev cur : GPoint) (h : distance prev cur = 0) :
    get_unfollow prev cur = .ok cur := by
  unfold distance at h
  unfold get_unfollow
  simp only [h, if_true]

theorem get_follow_nonzero (prev follow : GPoint) (h : distance prev follow ≠ 0) :
    get_follow prev follow = .ok (mkGPoint
      (follow.x - wrap16 (Int.tdiv ((mkGPoint (follow.x - prev.x) (follow.y - prev.y)).x
        * FOLLOW_DISTANCE) (distance prev follow)))
      (follow.y - wrap16 (Int.tdiv ((mkGPoint (follow.x - prev.x) (follow.y - prev.y)).y
        * FOLLOW_DISTANCE) (distance prev follow)))) := by
  unfold distance at h ⊢
  unfold get_follow
  simp only [h, if_false, cdiv_of_ne_zero _ _ h]

theorem get_unfollow_nonzero (prev cur : GPoint) (h : distance prev cur ≠ 0) :
    get_unfollow prev cur = .ok (mkGPoint
      (cur.x + wrap16 (Int.tdiv ((mkGPoint (cur.x - prev.x) (cur.y - prev.y)).x
        * FOLLOW_DISTANCE) (distance prev cur)))
      (cur.y + wrap16 (Int.tdiv ((mkGPoint (cur.x - prev.x) (cur.y - prev.y)).y
        * FOLLOW_DISTANCE) (distance prev cur)))) := by
  unfold distance at h ⊢
  unfold get_unfollow
  simp only [h, if_false, cdiv_of_ne_zero _ _ h]

theorem get_follow_ok (prev follow : GPoint) :
    get_follow prev follow = .ok (followVal prev follow) := by
  unfold followVal
  by_cases h : distance prev follow = 0
  · rw [get_follow_zero prev follow h]
  · rw [get_follow_nonzero prev follow h]

theorem get_unfollow_ok (prev cur : GPoint) :
    get_unfollow prev cur = .ok (unfollowVal prev cur) := by
  unfold unfollowVal
  by_cases h : distance prev cur = 0
  · rw [get_unfollow_zero prev cur h]
  · rw [get_unfollow_nonzero prev cur h]

/-! ## Within display range no narrowing changes a value -/

theorem distance_inRange (prev follow : GPoint) (hp : inRange prev) (hf : inRange follow) :
    distance prev follow
      = isqrt ((follow.x - prev.x) * (follow.x - prev.x)
          + (follow.y - prev.y) * (follow.y - prev.y)) := by
  obtain ⟨h1, h2, h3, h4⟩ := hp
  obtain ⟨h5, h6, h7, h8⟩ := hf
  unfold distance mkGPoint
  simp only []
  rw [wrap16_of_fits (follow.x - prev.x) (by omega) (by omega),
    wrap16_of_fits (follow.y - prev.y) (by omega) (by omega)]
  rw [wrap32_of_fits]
  · nlinarith [mul_self_nonneg (follow.x - prev.x), mul_self_nonneg (follow.y - prev.y)]
  · have hx : (follow.x - prev.x) * (follow.x - prev.x) ≤ 32000 * 32000 := by
      apply mul_self_le_mul_self_of_le_of_neg_le <;> omega
    have hy : (follow.y - prev.y) * (follow.y - prev.y) ≤ 32000 * 32000 := by
      apply mul_self_le_mul_self_of_le_of_neg_le <;> omega
    omega

theorem distance_eq_zero_iff (prev follow : GPoint) (hp : inRange prev) (hf : inRange follow) :
    distance prev follow = 0 ↔ prev = follow := by
  rw [distance_inRange prev follow hp hf]
  have hn : 0 ≤ (follow.x - prev.x) * (follow.x - prev.x)
      + (follow.y - prev.y) * (follow.y - prev.y) := by
    nlinarith [mul_self_nonneg (follow.x - prev.x), mul_self_nonneg (follow.y - prev.y)]
  rw [isqrt_eq_zero_iff _ hn]
  constructor
  · intro h
    have hx : (follow.x - prev.x) * (follow.x - prev.x) = 0 := by
      nlinarith [mul_self_nonneg (follow.x - prev.x), mul_self_nonneg (follow.y - prev.y)]
    have hy : (follow.y - prev.y) * (follow.y - prev.y) = 0 := by
      nlinarith [mul_self_nonneg (follow.x - prev.x), mul_self_nonneg (follow.y - prev.y)]
    have hx2 : follow.x - prev.x = 0 := mul_self_eq_zero.mp hx
    have hy2 : follow.y - prev.y = 0 := mul_self_eq_zero.mp hy
    cases prev; cases follow
    simp only [GPoint.mk.injEq] at *
    omega
  · intro h
    subst h
    simp

theorem get_follow_inRange (prev follow : GPoint) (hp : inRange prev) (hf : inRange follow)
    (hne : prev ≠ follow) :
    get_follow prev follow = .ok
      ⟨follow.x - Int.tdiv ((follow.x - prev.x) * 8) (isqrt ((follow.x - prev.x)
          * (follow.x - prev.x) + (follow.y - prev.y) * (follow.y - prev.y))),
       follow.y - Int.tdiv ((follow.y - prev.y) * 8) (isqrt ((follow.x - prev.x)
          * (follow.x - prev.x) + (follow.y - prev.y) * (follow.y - prev.y)))⟩ := by
  have hd : distance prev follow ≠ 0 := by
    rw [Ne, distance_eq_zero_iff prev follow hp hf]; exact hne
  rw [get_follow_nonzero prev follow hd, distance_inRange prev follow hp hf]
  have hv : follow.x - prev.x ≠ 0 ∨ follow.y - prev.y ≠ 0 := by
    by_contra hc
    push_neg at hc
    apply hne
    cases prev; cases follow
    simp only [GPoint.mk.injEq] at *
    omega
  obtain ⟨-, hx1, hx2, hy1, hy2, -, -⟩ := step_bounds _ _ hv
  obtain ⟨h1, h2, h3, h4⟩ := hp
  obtain ⟨h5, h6, h7, h8⟩ := hf
  unfold mkGPoint FOLLOW_DISTANCE
  simp only []
  rw [wrap16_of_fits (follow.x - prev.x) (by omega) (by omega),
    wrap16_of_fits (follow.y - prev.y) (by omega) (by omega)]
  generalize Int.tdiv ((follow.x - prev.x) * 8) _ = dx at hx1 hx2 ⊢
  generalize Int.tdiv ((follow.y - prev.y) * 8) _ = dy at hy1 hy2 ⊢
  rw [wrap16_of_fits dx (by omega) (by omega), wrap16_of_fits dy (by omega) (by omega),
    wrap16_of_fits (follow.x - dx) (by omega) (by omega),
    wrap16_of_fits (follow.y - dy) (by omega) (by omega)]

theorem get_unfollow_inRange (prev cur : GPoint) (hp : inRange prev) (hf : inRange cur)
    (hne : prev ≠ cur) :
    get_unfollow prev cur = .ok
      ⟨cur.x + Int.tdiv ((cur.x - prev.x) * 8) (isqrt ((cur.x - prev.x)
          * (cur.x - prev.x) + (cur.y - prev.y) * (cur.y - prev.y))),
       cur.y + Int.tdiv ((cur.y - prev.y) * 8) (isqrt ((cur.x - prev.x)
          * (cur.x - prev.x) + (cur.y - prev.y) * (cur.y - prev.y)))⟩ := by
  have hd : distance prev cur ≠ 0 := by
    rw [Ne, distance_eq_zero_iff prev cur hp hf]; exact hne
  rw [get_unfollow_nonzero prev cur hd, distance_inRange prev cur hp hf]
  have hv : cur.x - prev.x ≠ 0 ∨ cur.y - prev.y ≠ 0 := by
    by_contra hc
    push_neg at hc
    apply hne
    cases prev; cases cur
    simp only [GPoint.mk.injEq] at *
    omega
  obtain ⟨-, hx1, hx2, hy1, hy2, -, -⟩ := step_bounds _ _ hv
  obtain ⟨h1, h2, h3, h4⟩ := hp
  obtain ⟨h5, h6, h7, h8⟩ := hf
  unfold mkGPoint FOLLOW_DISTANCE
  simp only []
  rw [wrap16_of_fits (cur.x - prev.x) (by omega) (by omega),
    wrap16_of_fits (cur.y - prev.y) (by omega) (by omega)]
  generalize Int.tdiv ((cur.x - prev.x) * 8) _ = dx at hx1 hx2 ⊢
  generalize Int.tdiv ((cur.y - prev.y) * 8) _ = dy at hy1 hy2 ⊢
  rw [wrap16_of_fits dx (by omega) (by omega), wrap16_of_fits dy (by omega) (by omega),
    wrap16_of_fits (cur.x + dx) (by omega) (by omega),
    wrap16_of_fits (cur.y + dy) (by omega) (by omega)]

/-! ## Loops -/

theorem loopFrom_inv {σ : Type} (body : Int → σ → Except Fault σ) (I : Int → σ → Prop) :
    ∀ (n : Nat) (v : Int) (s : σ), I v s →
      (∀ k t, v ≤ k → k < v + n → I k t → ∃ t1, body k t = .ok t1 ∧ I (k + 1) t1) →
      ∃ s1, loopFrom body n v s = .ok s1 ∧ I (v + n) s1 := by
  intro n
  induction n with
  | zero =>
    intro v s hI _
    exact ⟨s, rfl, by simpa using hI⟩
  | succ m ih =>
    intro v s hI hstep
    obtain ⟨t1, hb, hI1⟩ := hstep v s (le_refl _) (by push_cast; omega) hI
    obtain ⟨s1, hl, hI2⟩ := ih (v + 1) t1 hI1 (by
      intro k t hk1 hk2 hIk
      exact hstep k t (by omega) (by push_cast; omega) hIk)
    refine ⟨s1, ?_, ?_⟩
    · simp only [loopFrom, hb, hl]
    · have : v + ((m + 1 : Nat) : Int) = v + 1 + (m : Int) := by push_cast; ring
      rw [this]; exact hI2

theorem forRange_inv {σ : Type} (body : Int → σ → Except Fault σ) (I : Int → σ → Prop)
    (lo hi : Int) (s : σ) (hle : lo ≤ hi) (h0 : I lo s)
    (hstep : ∀ k t, lo ≤ k → k < hi → I k t → ∃ t1, body k t = .ok t1 ∧ I (k + 1) t1) :
    ∃ s1, forRange lo hi body s = .ok s1 ∧ I hi s1 := by
  unfold forRange
  have hn : lo + ((hi - lo).toNat : Int) = hi := by omega
  obtain ⟨s1, h1, h2⟩ := loopFrom_inv body I (hi - lo).toNat lo s h0 (by
    intro k t hk1 hk2 hIk
    exact hstep k t hk1 (by omega) hIk)
  exact ⟨s1, h1, by rw [hn] at h2; exact h2⟩

theorem forRange_empty {σ : Type} (body : Int → σ → Except Fault σ) (lo hi : Int) (s : σ)
    (h : hi ≤ lo) : forRange lo hi body s = .ok s := by
  unfold forRange
  have : (hi - lo).toNat = 0 := by omega
  rw [this]; rfl

/-! ## Array accesses -/

theorem Grid.read_ok (g : Grid) (row col : Int) (v : GPoint) (hr : 0 ≤ row ∧ row < 31)
    (hc : 0 ≤ col ∧ col < 6) (hv : g.cell row col = some v) : g.read row col = .ok v := by
  unfold Grid.read NUM_BEHIND_ECHOES NUM_AHEAD_ECHOES NUM_POINTS
  rw [if_pos (by omega), hv]

theorem Grid.write_ok (g : Grid) (row col : Int) (v : GPoint) (hr : 0 ≤ row ∧ row < 31)
    (hc : 0 ≤ col ∧ col < 6) :
    g.write row col v = .ok ⟨fun r c => if r = row ∧ c = col then some v else g.cell r c⟩ := by
  unfold Grid.write NUM_BEHIND_ECHOES NUM_AHEAD_ECHOES NUM_POINTS
  rw [if_pos (by omega)]

theorem readPoint_ok (points : Nat → GPoint) (i : Int) (hi : 0 ≤ i ∧ i < 6) :
    readPoint points i = .ok (points i.toNat) := by
  unfold readPoint NUM_POINTS
  rw [if_pos hi]

theorem ok_bind {α β : Type} (a : α) (f : α → Except Fault β) :
    ((Except.ok a : Except Fault α) >>= f) = f a := rfl

/-! ## The echo-building loops compute the chains of the specification -/

theorem follow_row (a f pl : Int) (hpl : pl ≤ 6) (ha : 0 ≤ a ∧ a < 31) (hf : 0 ≤ f ∧ f < 31)
    (haf : a ≠ f) (g0 : Grid) (pivot : GPoint) (T : Nat → GPoint)
    (h0 : g0.cell a 0 = some pivot)
    (hT : ∀ c, 1 ≤ c → c < pl → g0.cell f c = some (T c.toNat)) :
    ∃ g1, forRange 1 pl (follow_step a f) g0 = .ok g1 ∧
      ∀ r c, g1.cell r c
        = if r = a ∧ 1 ≤ c ∧ c < pl then some (followChain pivot T c.toNat) else g0.cell r c := by
  by_cases hlt : pl ≤ 1
  · refine ⟨g0, forRange_empty _ _ _ _ hlt, ?_⟩
    intro r c
    rw [if_neg (by omega)]
  · have hle : (1 : Int) ≤ pl := by omega
    apply forRange_inv (follow_step a f)
      (fun k g => ∀ r c, g.cell r c
        = if r = a ∧ 1 ≤ c ∧ c < k then some (followChain pivot T c.toNat) else g0.cell r c)
      1 pl g0 hle
    · intro r c
      rw [if_neg (by omega)]
    · intro k t hk1 hk2 hI
      have hprev : t.cell a (k - 1) = some (followChain pivot T (k - 1).toNat) := by
        rw [hI]
        by_cases hk : k = 1
        · subst hk
          rw [if_neg (by omega)]
          simpa [followChain] using h0
        · rw [if_pos (by omega)]
      have hcur : t.cell f k = some (T k.toNat) := by
        rw [hI, if_neg (by omega)]
        exact hT k hk1 hk2
      have hstep : follow_step a f k t = .ok ⟨fun r c =>
          if r = a ∧ c = k then some (followVal (followChain pivot T (k - 1).toNat) (T k.toNat))
          else t.cell r c⟩ := by
        unfold follow_step
        rw [Grid.read_ok t a (k - 1) _ ha (by omega) hprev, ok_bind,
          Grid.read_ok t f k _ hf (by omega) hcur, ok_bind, get_follow_ok, ok_bind,
          Grid.write_ok t a k _ ha (by omega)]
      refine ⟨_, hstep, ?_⟩
      · intro r c
        show (if r = a ∧ c = k then _ else t.cell r c) = _
        have hsucc : k.toNat = (k - 1).toNat + 1 := by omega
        by_cases hrc : r = a ∧ c = k
        · obtain ⟨rfl, rfl⟩ := hrc
          rw [if_pos ⟨rfl, rfl⟩, if_pos (by omega)]
          conv_rhs => rw [hsucc, followChain]
          rw [← hsucc]
        · rw [if_neg hrc, hI]
          by_cases hin : r = a ∧ 1 ≤ c ∧ c < k
          · rw [if_pos hin, if_pos (by omega)]
          · rw [if_neg hin, if_neg (by omega)]


theorem unfollow_row (a u pl : Int) (hpl : pl ≤ 6) (ha : 0 ≤ a ∧ a < 31) (hu : 0 ≤ u ∧ u < 31)
    (hau : a ≠ u) (g0 : Grid) (pivot : GPoint) (S : Nat → GPoint)
    (hS : ∀ c, 0 ≤ c → c < pl → g0.cell u c = some (S c.toNat)) :
    ∃ g1, forRange 1 pl (unfollow_step a u) g0 = .ok g1 ∧
      ∀ r c, g1.cell r c
        = if r = a ∧ 1 ≤ c ∧ c < pl then some (unfollowChain pivot S c.toNat)
          else g0.cell r c := by
  by_cases hlt : pl ≤ 1
  · refine ⟨g0, forRange_empty _ _ _ _ hlt, ?_⟩
    intro r c
    rw [if_neg (by omega)]
  · have hle : (1 : Int) ≤ pl := by omega
    apply forRange_inv (unfollow_step a u)
      (fun k g => ∀ r c, g.cell r c
        = if r = a ∧ 1 ≤ c ∧ c < k then some (unfollowChain pivot S c.toNat)
          else g0.cell r c)
      1 pl g0 hle
    · intro r c
      rw [if_neg (by omega)]
    · intro k t hk1 hk2 hI
      have hprev : t.cell u (k - 1) = some (S (k - 1).toNat) := by
        rw [hI, if_neg (by omega)]
        exact hS (k - 1) (by omega) (by omega)
      have hcur : t.cell u k = some (S k.toNat) := by
        rw [hI, if_neg (by omega)]
        exact hS k (by omega) hk2
      have hstep : unfollow_step a u k t = .ok ⟨fun r c =>
          if r = a ∧ c = k then some (unfollowVal (S (k - 1).toNat) (S k.toNat))
          else t.cell r c⟩ := by
        unfold unfollow_step
        rw [Grid.read_ok t u (k - 1) _ hu (by omega) hprev, ok_bind,
          Grid.read_ok t u k _ hu (by omega) hcur, ok_bind, get_unfollow_ok, ok_bind,
          Grid.write_ok t a k _ ha (by omega)]
      refine ⟨_, hstep, ?_⟩
      · intro r c
        show (if r = a ∧ c = k then _ else t.cell r c) = _
        have hsucc : k.toNat = (k - 1).toNat + 1 := by omega
        by_cases hrc : r = a ∧ c = k
        · obtain ⟨rfl, rfl⟩ := hrc
          rw [if_pos ⟨rfl, rfl⟩, if_pos (by omega)]
          conv_rhs => rw [hsucc, unfollowChain]
          rw [← hsucc]
        · rw [if_neg hrc, hI]
          by_cases hin : r = a ∧ 1 ≤ c ∧ c < k
          · rw [if_pos hin, if_pos (by omega)]
          · rw [if_neg hin, if_neg (by omega)]

theorem specGrid_cell (points : Nat → GPoint) (pl r c : Int) :
    (specGrid points pl).cell r c
      = if 0 ≤ r ∧ r < 31 ∧ 0 ≤ c ∧ c < 6 ∧ (r = 15 ∨ c = 0 ∨ c < pl) then
          some (specChain points (r - 15) c.toNat)
        else none := rfl

theorem specChain_zero (points : Nat → GPoint) : specChain points 0 = points := by
  unfold specChain
  rw [if_neg (by omega)]
  rfl

theorem specChain_behind (points : Nat → GPoint) (i : Int) (hi : 1 ≤ i) :
    specChain points (-i) = followChain (points 0) (specChain points (-i + 1)) := by
  obtain ⟨n, rfl⟩ : ∃ n : Nat, i = (n : Int) + 1 := ⟨(i - 1).toNat, by omega⟩
  unfold specChain
  rw [if_pos (by omega)]
  have h1 : (-(-((n : Int) + 1))).toNat = n + 1 := by omega
  rw [h1]
  by_cases hn : n = 0
  · subst hn
    rw [if_neg (by omega)]
    have h2 : (-((0 : Nat) + 1 : Int) + 1).toNat = 0 := by omega
    rw [h2]
    rfl
  · rw [if_pos (by omega)]
    have h2 : (-(-((n : Int) + 1) + 1)).toNat = n := by omega
    rw [h2]
    rfl

theorem specChain_ahead (points : Nat → GPoint) (i : Int) (hi : 1 ≤ i) :
    specChain points i = unfollowChain (points 0) (specChain points (i - 1)) := by
  obtain ⟨n, rfl⟩ : ∃ n : Nat, i = (n : Int) + 1 := ⟨(i - 1).toNat, by omega⟩
  unfold specChain
  rw [if_neg (by omega), if_neg (by omega)]
  have h1 : ((n : Int) + 1).toNat = n + 1 := by omega
  have h2 : ((n : Int) + 1 - 1).toNat = n := by omega
  rw [h1, h2]
  rfl

theorem followChain_zero (pivot : GPoint) (T : Nat → GPoint) :
    followChain pivot T 0 = pivot := rfl

theorem unfollowChain_zero (pivot : GPoint) (S : Nat → GPoint) :
    unfollowChain pivot S 0 = pivot := rfl

theorem behind_body_step (points : Nat → GPoint) (pl : Int) (hpl : pl ≤ 6) (i : Int)
    (hi : 1 ≤ i ∧ i ≤ 15) (g : Grid)
    (hg : ∀ r c, g.cell r c
      = if 15 - i < r ∧ r ≤ 15 then (specGrid points pl).cell r c else none) :
    ∃ g1, behind_body points pl i g = .ok g1 ∧
      ∀ r c, g1.cell r c
        = if 15 - (i + 1) < r ∧ r ≤ 15 then (specGrid points pl).cell r c else none := by
  have ha : (0 : Int) ≤ -i + 15 ∧ -i + 15 < 31 := by omega
  have hf : (0 : Int) ≤ -i + 1 + 15 ∧ -i + 1 + 15 < 31 := by omega
  obtain ⟨g1, hrun, hcells⟩ := follow_row (-i + 15) (-i + 1 + 15) pl hpl ha hf (by omega)
    ⟨fun r c => if r = -i + 15 ∧ c = 0 then some (points 0) else g.cell r c⟩
    (points 0) (specChain points (-i + 1))
    (by show (if _ then _ else _) = _; rw [if_pos ⟨rfl, rfl⟩])
    (by
      intro c hc1 hc2
      show (if _ then _ else _) = _
      rw [if_neg (by omega), hg, if_pos (by omega), specGrid_cell, if_pos (by omega)]
      congr 2
      omega)
  refine ⟨g1, ?_, ?_⟩
  · unfold behind_body INDEX_POINTS NUM_BEHIND_ECHOES
    rw [readPoint_ok points 0 (by omega), ok_bind, Grid.write_ok g _ 0 _ ha (by omega), ok_bind]
    exact hrun
  · intro r c
    rw [hcells]
    by_cases hr : r = -i + 15
    · subst hr
      have hR : 15 - (i + 1) < -i + 15 ∧ -i + 15 ≤ 15 := by omega
      rw [if_pos hR, specGrid_cell]
      have hch : specChain points (-i + 15 - 15) = followChain (points 0)
          (specChain points (-i + 1)) := by
        have : -i + 15 - 15 = -i := by omega
        rw [this]; exact specChain_behind points i hi.1
      rw [hch]
      by_cases hc : 1 ≤ c ∧ c < pl
      · have hS : 0 ≤ -i + 15 ∧ -i + 15 < 31 ∧ 0 ≤ c ∧ c < 6
            ∧ (-i + 15 = 15 ∨ c = 0 ∨ c < pl) := by omega
        rw [if_pos ⟨rfl, hc⟩, if_pos hS]
      · have hL : ¬ (-i + 15 = -i + 15 ∧ 1 ≤ c ∧ c < pl) := by tauto
        rw [if_neg hL]
        show (if -i + 15 = -i + 15 ∧ c = 0 then some (points 0) else g.cell (-i + 15) c) = _
        by_cases hc0 : c = 0
        · subst hc0
          have hS : 0 ≤ -i + 15 ∧ -i + 15 < 31 ∧ (0 : Int) ≤ 0 ∧ (0 : Int) < 6
              ∧ (-i + 15 = 15 ∨ (0 : Int) = 0 ∨ 0 < pl) := by omega
          rw [if_pos ⟨rfl, rfl⟩, if_pos hS]
          rfl
        · have hL2 : ¬ (-i + 15 = -i + 15 ∧ c = 0) := by tauto
          have hG : ¬ (15 - i < -i + 15 ∧ -i + 15 ≤ 15) := by omega
          have hS : ¬ (0 ≤ -i + 15 ∧ -i + 15 < 31 ∧ 0 ≤ c ∧ c < 6
              ∧ (-i + 15 = 15 ∨ c = 0 ∨ c < pl)) := by omega
          rw [if_neg hL2, hg, if_neg hG, if_neg hS]
    · have hL : ¬ (r = -i + 15 ∧ 1 ≤ c ∧ c < pl) := by tauto
      rw [if_neg hL]
      show (if r = -i + 15 ∧ c = 0 then some (points 0) else g.cell r c) = _
      have hL2 : ¬ (r = -i + 15 ∧ c = 0) := by tauto
      rw [if_neg hL2, hg]
      by_cases hin : 15 - i < r ∧ r ≤ 15
      · have hR : 15 - (i + 1) < r ∧ r ≤ 15 := by omega
        rw [if_pos hin, if_pos hR]
      · have hR : ¬ (15 - (i + 1) < r ∧ r ≤ 15) := by omega
        rw [if_neg hin, if_neg hR]


theorem ahead_body_step (points : Nat → GPoint) (pl : Int) (hpl : pl ≤ 6) (i : Int)
    (hi : 1 ≤ i ∧ i ≤ 15) (g : Grid)
    (hg : ∀ r c, g.cell r c
      = if 0 ≤ r ∧ r < 15 + i then (specGrid points pl).cell r c else none) :
    ∃ g1, ahead_body points pl i g = .ok g1 ∧
      ∀ r c, g1.cell r c
        = if 0 ≤ r ∧ r < 15 + (i + 1) then (specGrid points pl).cell r c else none := by
  have ha : (0 : Int) ≤ i + 15 ∧ i + 15 < 31 := by omega
  have hu : (0 : Int) ≤ i - 1 + 15 ∧ i - 1 + 15 < 31 := by omega
  obtain ⟨g1, hrun, hcells⟩ := unfollow_row (i + 15) (i - 1 + 15) pl hpl ha hu (by omega)
    ⟨fun r c => if r = i + 15 ∧ c = 0 then some (points 0) else g.cell r c⟩
    (points 0) (specChain points (i - 1))
    (by
      intro c hc1 hc2
      show (if i - 1 + 15 = i + 15 ∧ c = 0 then some (points 0) else g.cell (i - 1 + 15) c) = _
      have h1 : ¬ (i - 1 + 15 = i + 15 ∧ c = 0) := by omega
      have h2 : 0 ≤ i - 1 + 15 ∧ i - 1 + 15 < 15 + i := by omega
      have h3 : 0 ≤ i - 1 + 15 ∧ i - 1 + 15 < 31 ∧ 0 ≤ c ∧ c < 6
          ∧ (i - 1 + 15 = 15 ∨ c = 0 ∨ c < pl) := by omega
      rw [if_neg h1, hg, if_pos h2, specGrid_cell, if_pos h3]
      congr 2
      omega)
  refine ⟨g1, ?_, ?_⟩
  · unfold ahead_body INDEX_POINTS NUM_BEHIND_ECHOES
    rw [readPoint_ok points 0 (by omega), ok_bind, Grid.write_ok g _ 0 _ ha (by omega), ok_bind]
    exact hrun
  · intro r c
    rw [hcells]
    by_cases hr : r = i + 15
    · subst hr
      have hR : 0 ≤ i + 15 ∧ i + 15 < 15 + (i + 1) := by omega
      rw [if_pos hR, specGrid_cell]
      have hch : specChain points (i + 15 - 15) = unfollowChain (points 0)
          (specChain points (i - 1)) := by
        have : i + 15 - 15 = i := by omega
        rw [this]; exact specChain_ahead points i hi.1
      rw [hch]
      by_cases hc : 1 ≤ c ∧ c < pl
      · have hS : 0 ≤ i + 15 ∧ i + 15 < 31 ∧ 0 ≤ c ∧ c < 6
            ∧ (i + 15 = 15 ∨ c = 0 ∨ c < pl) := by omega
        rw [if_pos ⟨rfl, hc⟩, if_pos hS]
      · have hL : ¬ (i + 15 = i + 15 ∧ 1 ≤ c ∧ c < pl) := by tauto
        rw [if_neg hL]
        show (if i + 15 = i + 15 ∧ c = 0 then some (points 0) else g.cell (i + 15) c) = _
        by_cases hc0 : c = 0
        · subst hc0
          have hS : 0 ≤ i + 15 ∧ i + 15 < 31 ∧ (0 : Int) ≤ 0 ∧ (0 : Int) < 6
              ∧ (i + 15 = 15 ∨ (0 : Int) = 0 ∨ 0 < pl) := by omega
          rw [if_pos ⟨rfl, rfl⟩, if_pos hS]
          rfl
        · have hL2 : ¬ (i + 15 = i + 15 ∧ c = 0) := by tauto
          have hG : ¬ (0 ≤ i + 15 ∧ i + 15 < 15 + i) := by omega
          have hS : ¬ (0 ≤ i + 15 ∧ i + 15 < 31 ∧ 0 ≤ c ∧ c < 6
              ∧ (i + 15 = 15 ∨ c = 0 ∨ c < pl)) := by omega
          rw [if_neg hL2, hg, if_neg hG, if_neg hS]
    · have hL : ¬ (r = i + 15 ∧ 1 ≤ c ∧ c < pl) := by tauto
      rw [if_neg hL]
      show (if r = i + 15 ∧ c = 0 then some (points 0) else g.cell r c) = _
      have hL2 : ¬ (r = i + 15 ∧ c = 0) := by tauto
      rw [if_neg hL2, hg]
      by_cases hin : 0 ≤ r ∧ r < 15 + i
      · have hR : 0 ≤ r ∧ r < 15 + (i + 1) := by omega
        rw [if_pos hin, if_pos hR]
      · have hR : ¬ (0 ≤ r ∧ r < 15 + (i + 1)) := by omega
        rw [if_neg hin, if_neg hR]

theorem memcpy_points_ok (points : Nat → GPoint) (pl : Int) :
    ∃ g, memcpy_points Grid.fresh (INDEX_POINTS 0) points = .ok g ∧
      ∀ r c, g.cell r c
        = if 15 - 1 < r ∧ r ≤ 15 then (specGrid points pl).cell r c else none := by
  refine ⟨⟨fun r c => if r = 15 ∧ 0 ≤ c ∧ c < 6 then some (points c.toNat)
      else Grid.fresh.cell r c⟩, ?_, ?_⟩
  · unfold memcpy_points INDEX_POINTS NUM_BEHIND_ECHOES NUM_AHEAD_ECHOES NUM_POINTS
    rw [if_pos (by omega)]
    rfl
  · intro r c
    show (if r = 15 ∧ 0 ≤ c ∧ c < 6 then some (points c.toNat) else none) = _
    by_cases hr : r = 15
    · subst hr
      have hR : (15 : Int) - 1 < 15 ∧ (15 : Int) ≤ 15 := by omega
      rw [if_pos hR, specGrid_cell]
      by_cases hc : 0 ≤ c ∧ c < 6
      · have h1 : (15 : Int) = 15 ∧ 0 ≤ c ∧ c < 6 := ⟨rfl, hc⟩
        have h2 : (0 : Int) ≤ 15 ∧ (15 : Int) < 31 ∧ 0 ≤ c ∧ c < 6
            ∧ ((15 : Int) = 15 ∨ c = 0 ∨ c < pl) := by omega
        rw [if_pos h1, if_pos h2]
        have : (15 : Int) - 15 = 0 := by omega
        rw [this, specChain_zero]
      · have h1 : ¬ ((15 : Int) = 15 ∧ 0 ≤ c ∧ c < 6) := by tauto
        have h2 : ¬ ((0 : Int) ≤ 15 ∧ (15 : Int) < 31 ∧ 0 ≤ c ∧ c < 6
            ∧ ((15 : Int) = 15 ∨ c = 0 ∨ c < pl)) := by omega
        rw [if_neg h1, if_neg h2]
    · have h1 : ¬ (r = 15 ∧ 0 ≤ c ∧ c < 6) := by tauto
      have h2 : ¬ (15 - 1 < r ∧ r ≤ 15) := by omega
      rw [if_neg h1, if_neg h2]

theorem Grid.ext_cell (g h : Grid) (hc : ∀ r c, g.cell r c = h.cell r c) : g = h := by
  cases g; cases h
  congr
  funext r c
  exact hc r c

theorem echo_loops_eq (points : Nat → GPoint) (pl : Int) (hpl : pl ≤ 6) :
    echo_loops points pl = .ok (specGrid points pl) := by
  obtain ⟨g0, h0, hc0⟩ := memcpy_points_ok points pl
  obtain ⟨g1, h1, hc1⟩ := forRange_inv (behind_body points pl)
    (fun i g => ∀ r c, g.cell r c
      = if 15 - i < r ∧ r ≤ 15 then (specGrid points pl).cell r c else none)
    1 (NUM_BEHIND_ECHOES + 1) g0 (by unfold NUM_BEHIND_ECHOES; omega) hc0
    (by
      intro k t hk1 hk2 hI
      unfold NUM_BEHIND_ECHOES at hk2
      exact behind_body_step points pl hpl k (by omega) t hI)
  obtain ⟨g2, h2, hc2⟩ := forRange_inv (ahead_body points pl)
    (fun i g => ∀ r c, g.cell r c
      = if 0 ≤ r ∧ r < 15 + i then (specGrid points pl).cell r c else none)
    1 (NUM_AHEAD_ECHOES + 1) g1 (by unfold NUM_AHEAD_ECHOES; omega)
    (by
      intro r c
      rw [hc1]
      unfold NUM_BEHIND_ECHOES
      by_cases h : 0 ≤ r ∧ r < 15 + 1
      · have h3 : 15 - (15 + 1) < r ∧ r ≤ 15 := by omega
        rw [if_pos h, if_pos h3]
      · have h3 : ¬ (15 - (15 + 1) < r ∧ r ≤ 15) := by omega
        rw [if_neg h, if_neg h3])
    (by
      intro k t hk1 hk2 hI
      unfold NUM_AHEAD_ECHOES at hk2
      exact ahead_body_step points pl hpl k (by omega) t hI)
  have hfinal : g2 = specGrid points pl := by
    apply Grid.ext_cell
    intro r c
    rw [hc2]
    unfold NUM_AHEAD_ECHOES
    by_cases h : 0 ≤ r ∧ r < 15 + (15 + 1)
    · rw [if_pos h]
    · rw [if_neg h, specGrid_cell]
      have h3 : ¬ (0 ≤ r ∧ r < 31 ∧ 0 ≤ c ∧ c < 6 ∧ (r = 15 ∨ c = 0 ∨ c < pl)) := by omega
      rw [if_neg h3]
  unfold echo_loops
  rw [h0, ok_bind, h1, ok_bind, h2, hfinal]


/-! ## The drawing passes produce the draw sequence of the specification -/

theorem upto_succ (lo : Int) (n : Nat) : upto lo (n + 1) = upto lo n ++ [lo + (n : Int)] := by
  unfold upto
  rw [List.range_succ, List.map_append]
  rfl

theorem upto_length (lo : Int) (n : Nat) : (upto lo n).length = n := by
  unfold upto
  rw [List.length_map, List.length_range]

theorem upto_next (lo k : Int) (hk : lo ≤ k) :
    upto lo (k + 1 - lo).toNat = upto lo (k - lo).toNat ++ [k] := by
  have h1 : (k + 1 - lo).toNat = (k - lo).toNat + 1 := by omega
  have h2 : lo + ((k - lo).toNat : Int) = k := by omega
  rw [h1, upto_succ, h2]

theorem specGrid_read (points : Nat → GPoint) (n i c : Int) (hi : -15 ≤ i ∧ i ≤ 15)
    (hc : 0 ≤ c ∧ c < 6) (hcn : i = 0 ∨ c = 0 ∨ c < n) :
    (specGrid points n).read (INDEX_POINTS i) c = .ok (specChain points i c.toNat) := by
  unfold INDEX_POINTS NUM_BEHIND_ECHOES
  apply Grid.read_ok _ _ _ _ (by omega) hc
  have h : 0 ≤ i + 15 ∧ i + 15 < 31 ∧ 0 ≤ c ∧ c < 6 ∧ (i + 15 = 15 ∨ c = 0 ∨ c < n) := by omega
  rw [specGrid_cell, if_pos h]
  have : i + 15 - 15 = i := by omega
  rw [this]

theorem echo_draw_step_eq (points : Nat → GPoint) (n p i : Int) (hn : n ≤ 6)
    (hp : 1 ≤ p ∧ p < n) (hi : -15 ≤ i ∧ i ≤ 15) (ctx : GContext) :
    echo_draw_step (specGrid points n) p i ctx
      = .ok ⟨ctx.stroke_width, ctx.stroke_color, ctx.lines ++
          [⟨specChain points i (p - 1).toNat, specChain points i p.toNat,
            ctx.stroke_width, ctx.stroke_color⟩]⟩ := by
  unfold echo_draw_step
  dsimp only
  rw [specGrid_read points n i (p - 1) hi (by omega) (by omega), ok_bind,
    specGrid_read points n i p hi (by omega) (by omega), ok_bind]
  rfl

theorem echo_draw_row (points : Nat → GPoint) (n p : Int) (hn : n ≤ 6)
    (hp : 1 ≤ p ∧ p < n) (ctx : GContext) :
    forRange (-NUM_BEHIND_ECHOES) (NUM_AHEAD_ECHOES + 1) (echo_draw_step (specGrid points n) p) ctx
      = .ok ⟨ctx.stroke_width, ctx.stroke_color, ctx.lines ++
          (upto (-15) 31).map (fun i => ⟨specChain points i (p - 1).toNat,
            specChain points i p.toNat, ctx.stroke_width, ctx.stroke_color⟩)⟩ := by
  obtain ⟨c1, hrun, hI⟩ := forRange_inv (echo_draw_step (specGrid points n) p)
    (fun k c => c = ⟨ctx.stroke_width, ctx.stroke_color, ctx.lines ++
          (upto (-15) (k - (-15)).toNat).map (fun i => ⟨specChain points i (p - 1).toNat,
            specChain points i p.toNat, ctx.stroke_width, ctx.stroke_color⟩)⟩)
    (-NUM_BEHIND_ECHOES) (NUM_AHEAD_ECHOES + 1) ctx
    (by unfold NUM_BEHIND_ECHOES NUM_AHEAD_ECHOES; omega)
    (by
      unfold NUM_BEHIND_ECHOES
      dsimp only
      have : ((-15 : Int) - (-15)).toNat = 0 := by omega
      rw [this]
      simp [upto])
    (by
      intro k t hk1 hk2 hI
      unfold NUM_BEHIND_ECHOES at hk1
      unfold NUM_AHEAD_ECHOES at hk2
      dsimp only at hI ⊢
      subst hI
      refine ⟨_, echo_draw_step_eq points n p k hn hp (by omega) _, ?_⟩
      dsimp only
      rw [upto_next (-15) k hk1, List.map_append, List.append_assoc]
      rfl)
  rw [hrun, hI]
  unfold NUM_AHEAD_ECHOES
  have : ((15 : Int) + 1 - (-15)).toNat = 31 := by omega
  rw [this]

theorem readColor_ok (pbl_color : Bool) (p : Int) (hp : 1 ≤ p ∧ p ≤ 5) :
    readColor pbl_color (p - 1) = .ok (segmentColor pbl_color p) := by
  unfold readColor segmentColor
  rw [if_pos (by omega)]
  obtain ⟨k, hk, hk5⟩ : ∃ k : Nat, (p - 1).toNat = k ∧ k < 5 := ⟨(p - 1).toNat, rfl, by omega⟩
  rw [hk]
  cases pbl_color <;> interval_cases k <;> rfl

theorem echo_draw_body_eq (pbl_color : Bool) (points : Nat → GPoint) (n p : Int) (hn : n ≤ 6)
    (hp : 1 ≤ p ∧ p < n) (lines : List Line) (col : GColor) :
    echo_draw_body pbl_color (specGrid points n) p ⟨1, col, lines⟩
      = .ok ⟨1, segmentColor pbl_color p, lines ++ echoLinesOf pbl_color points p⟩ := by
  unfold echo_draw_body
  rw [readColor_ok pbl_color p (by omega), ok_bind]
  exact echo_draw_row points n p hn hp _

theorem echo_draw_pass (pbl_color : Bool) (points : Nat → GPoint) (n : Int) (hn : n ≤ 6)
    (lines : List Line) (col : GColor) :
    ∃ col1, forRange 1 n (echo_draw_body pbl_color (specGrid points n)) ⟨1, col, lines⟩
      = .ok ⟨1, col1, lines ++ echoLines pbl_color points n⟩ := by
  by_cases hlt : n ≤ 1
  · refine ⟨col, ?_⟩
    rw [forRange_empty _ _ _ _ hlt]
    unfold echoLines
    have : (n - 1).toNat = 0 := by omega
    rw [this]
    simp [upto]
  · obtain ⟨c1, hrun, col1, hI⟩ := forRange_inv (echo_draw_body pbl_color (specGrid points n))
      (fun k c => ∃ col1, c = ⟨1, col1, lines ++
        ((upto 1 (k - 1).toNat).map (echoLinesOf pbl_color points)).flatten⟩)
      1 n ⟨1, col, lines⟩ (by omega)
      (by
        refine ⟨col, ?_⟩
        have : ((1 : Int) - 1).toNat = 0 := by omega
        rw [this]
        simp [upto])
      (by
        intro k t hk1 hk2 hI
        obtain ⟨col1, rfl⟩ := hI
        refine ⟨_, echo_draw_body_eq pbl_color points n k hn ⟨hk1, hk2⟩ _ _,
          segmentColor pbl_color k, ?_⟩
        rw [upto_next 1 k hk1, List.map_append, List.flatten_append, List.append_assoc]
        simp)
    exact ⟨col1, by rw [hrun, hI]; rfl⟩


theorem outline_body_eq (points : Nat → GPoint) (n p : Int) (hn : n ≤ 6)
    (hp : 1 ≤ p ∧ p < n) (lines : List Line) :
    outline_body points (specGrid points n) p ⟨7, GColor.Black, lines⟩
      = .ok ⟨7, GColor.Black, lines ++ [outlineLine points p]⟩ := by
  unfold outline_body
  rw [readPoint_ok points (p - 1) (by omega), ok_bind,
    specGrid_read points n 0 p (by omega) (by omega) (by omega), ok_bind, specChain_zero]
  rfl

theorem outline_pass (points : Nat → GPoint) (n : Int) (hn : n ≤ 6) (lines : List Line) :
    forRange 1 n (outline_body points (specGrid points n)) ⟨7, GColor.Black, lines⟩
      = .ok ⟨7, GColor.Black, lines ++ outlineLines points n⟩ := by
  by_cases hlt : n ≤ 1
  · rw [forRange_empty _ _ _ _ hlt]
    unfold outlineLines
    have : (n - 1).toNat = 0 := by omega
    rw [this]
    simp [upto]
  · obtain ⟨c1, hrun, hI⟩ := forRange_inv (outline_body points (specGrid points n))
      (fun k c => c = ⟨7, GColor.Black, lines ++ (upto 1 (k - 1).toNat).map (outlineLine points)⟩)
      1 n ⟨7, GColor.Black, lines⟩ (by omega)
      (by
        dsimp only
        have : ((1 : Int) - 1).toNat = 0 := by omega
        rw [this]
        simp [upto])
      (by
        intro k t hk1 hk2 hI
        dsimp only at hI ⊢
        subst hI
        refine ⟨_, outline_body_eq points n k hn ⟨hk1, hk2⟩ _, ?_⟩
        rw [upto_next 1 k hk1, List.map_append, List.append_assoc]
        rfl)
    rw [hrun, hI]
    rfl

theorem overlay_body_eq (pbl_color : Bool) (points : Nat → GPoint) (n p : Int) (hn : n ≤ 6)
    (hp : 1 ≤ p ∧ p < n) (w : Int) (col : GColor) (lines : List Line)
    (hw : pbl_color = true → w = 3) :
    overlay_body pbl_color points (specGrid points n) p ⟨w, col, lines⟩
      = .ok ⟨overlayWidth pbl_color p, segmentColor pbl_color p,
          lines ++ [overlayLine pbl_color points p]⟩ := by
  unfold overlay_body
  dsimp only
  rw [readColor_ok pbl_color p (by omega), ok_bind,
    readPoint_ok points (p - 1) (by omega), ok_bind,
    specGrid_read points n 0 p (by omega) (by omega) (by omega), ok_bind, specChain_zero]
  cases pbl_color
  · by_cases h2 : p ≤ 2
    · simp [graphics_draw_line, graphics_context_set_stroke_color,
        graphics_context_set_stroke_width, overlayLine, overlayWidth, START_BOLD_POINT, h2,
        pure, Except.pure]
    · simp [graphics_draw_line, graphics_context_set_stroke_color,
        graphics_context_set_stroke_width, overlayLine, overlayWidth, START_BOLD_POINT, h2,
        pure, Except.pure]
  · have := hw rfl
    subst this
    simp [graphics_draw_line, graphics_context_set_stroke_color, overlayLine, overlayWidth,
      pure, Except.pure]

theorem overlay_pass (pbl_color : Bool) (points : Nat → GPoint) (n : Int) (hn : n ≤ 6)
    (col : GColor) (lines : List Line) :
    ∃ w1 col1, forRange 1 n (overlay_body pbl_color points (specGrid points n)) ⟨3, col, lines⟩
      = .ok ⟨w1, col1, lines ++ overlayLines pbl_color points n⟩ := by
  by_cases hlt : n ≤ 1
  · refine ⟨3, col, ?_⟩
    rw [forRange_empty _ _ _ _ hlt]
    unfold overlayLines
    have : (n - 1).toNat = 0 := by omega
    rw [this]
    simp [upto]
  · obtain ⟨c1, hrun, w1, col1, hI, -⟩ := forRange_inv
      (overlay_body pbl_color points (specGrid points n))
      (fun k c => ∃ w1 col1, c = ⟨w1, col1, lines ++
        (upto 1 (k - 1).toNat).map (overlayLine pbl_color points)⟩ ∧ (pbl_color = true → w1 = 3))
      1 n ⟨3, col, lines⟩ (by omega)
      (by
        refine ⟨3, col, ?_, fun _ => rfl⟩
        have : ((1 : Int) - 1).toNat = 0 := by omega
        rw [this]
        simp [upto])
      (by
        intro k t hk1 hk2 hI
        obtain ⟨w1, col1, rfl, hw⟩ := hI
        refine ⟨_, overlay_body_eq pbl_color points n k hn ⟨hk1, hk2⟩ _ _ _ hw,
          overlayWidth pbl_color k, segmentColor pbl_color k, ?_, ?_⟩
        · rw [upto_next 1 k hk1, List.map_append, List.append_assoc]
          rfl
        · intro h
          subst h
          rfl)
    exact ⟨w1, col1, by rw [hrun, hI]; rfl⟩

theorem draw_loops_eq (pbl_color : Bool) (points : Nat → GPoint) (n : Int) (hn : n ≤ 6)
    (ctx : GContext) :
    ∃ c, draw_loops pbl_color points n (specGrid points n) ctx = .ok c ∧
      c.lines = ctx.lines ++ drawSequence pbl_color points n := by
  obtain ⟨col1, h1⟩ := echo_draw_pass pbl_color points n hn ctx.lines ctx.stroke_color
  have h2 := outline_pass points n hn (ctx.lines ++ echoLines pbl_color points n)
  obtain ⟨w3, col3, h3⟩ := overlay_pass pbl_color points n hn GColor.Black
    (ctx.lines ++ echoLines pbl_color points n ++ outlineLines points n)
  refine ⟨⟨w3, col3, ctx.lines ++ echoLines pbl_color points n ++ outlineLines points n
    ++ overlayLines pbl_color points n⟩, ?_, ?_⟩
  · unfold draw_loops
    dsimp only [graphics_context_set_stroke_width, graphics_context_set_stroke_color]
    rw [h1, ok_bind]
    dsimp only
    rw [h2, ok_bind]
    dsimp only
    exact h3
  · unfold drawSequence
    simp [List.append_assoc]

theorem draw_lines_and_echoes_eq (pbl_color : Bool) (ctx : GContext) (points : Nat → GPoint)
    (n : Int) (hn : n ≤ 6) :
    ∃ c, draw_lines_and_echoes pbl_color ctx points n = .ok c ∧
      c.lines = ctx.lines ++ drawSequence pbl_color points n := by
  unfold draw_lines_and_echoes
  rw [echo_loops_eq points n hn, ok_bind]
  exact draw_loops_eq pbl_color points n hn ctx


/-! ## The claims -/

theorem specChain_point_zero (points : Nat → GPoint) (i : Int) :
    specChain points i 0 = points 0 := by
  unfold specChain
  by_cases h : i < 0
  · rw [if_pos h]
    cases (-i).toNat <;> rfl
  · rw [if_neg h]
    cases i.toNat <;> rfl

/-- C1 (pivot invariant): for every base chain of 6 points and `point_limit` 5 or 6, the
copy of the base chain and the two echo-building loops of `draw_lines_and_echoes` end
without fault, and point 0 of each of the 31 chains (offsets -15..15) then equals
point 0 of the base chain. -/
theorem pivot_invariant (points : Nat → GPoint) (point_limit : Int)
    (hpl : point_limit = 5 ∨ point_limit = 6) :
    ∃ g, echo_loops points point_limit = .ok g ∧
      ∀ i : Int, -15 ≤ i → i ≤ 15 → g.cell (INDEX_POINTS i) 0 = some (points 0) := by
  refine ⟨specGrid points point_limit, echo_loops_eq points point_limit (by omega), ?_⟩
  intro i h1 h2
  unfold INDEX_POINTS NUM_BEHIND_ECHOES
  have h : 0 ≤ i + 15 ∧ i + 15 < 31 ∧ (0 : Int) ≤ 0 ∧ (0 : Int) < 6
      ∧ (i + 15 = 15 ∨ (0 : Int) = 0 ∨ 0 < point_limit) := by omega
  rw [specGrid_cell, if_pos h]
  exact congrArg some (specChain_point_zero points _)

/-- Witness of C1: the pivot invariant at the sample chain with `point_limit` 5. -/
theorem pivot_invariant_witness :
    ((5 : Int) = 5 ∨ (5 : Int) = 6) ∧
    ∃ g, echo_loops samplePoints 5 = .ok g ∧
      ∀ i : Int, -15 ≤ i → i ≤ 15 → g.cell (INDEX_POINTS i) 0 = some (samplePoints 0) :=
  ⟨Or.inl rfl, pivot_invariant samplePoints 5 (Or.inl rfl)⟩

theorem distance_self (q : GPoint) : distance q q = 0 := by
  unfold distance mkGPoint
  simp only [sub_self, wrap16_zero, mul_zero, add_zero, wrap32_zero, isqrt_zero]

/-- C2 (zero vector): for every point `q`, `get_follow q q` and `get_unfollow q q` return
`q`; and whenever the computed distance of two points is 0, both functions return their
second argument, although a division by that distance would fault: the division is not
reached. -/
theorem zero_vector_returns_second (q prev p : GPoint) :
    get_follow q q = .ok q ∧ get_unfollow q q = .ok q ∧
    (distance prev p = 0 →
      get_follow prev p = .ok p ∧ get_unfollow prev p = .ok p ∧
      ∀ a : Int, cdiv a (distance prev p) = .error .divByZero) := by
  refine ⟨get_follow_zero q q (distance_self q), get_unfollow_zero q q (distance_self q), ?_⟩
  intro h
  refine ⟨get_follow_zero prev p h, get_unfollow_zero prev p h, ?_⟩
  intro a
  rw [h]
  rfl

/-- Witness of C2: the zero-vector case at the display centre. -/
theorem zero_vector_returns_second_witness :
    distance ⟨72, 84⟩ ⟨72, 84⟩ = 0 ∧
    get_follow ⟨72, 84⟩ ⟨72, 84⟩ = .ok ⟨72, 84⟩ ∧
    get_unfollow ⟨72, 84⟩ ⟨72, 84⟩ = .ok ⟨72, 84⟩ :=
  ⟨by decide,
   ((zero_vector_returns_second ⟨0, 0⟩ ⟨72, 84⟩ ⟨72, 84⟩).2.2 (by decide)).1,
   ((zero_vector_returns_second ⟨0, 0⟩ ⟨72, 84⟩ ⟨72, 84⟩).2.2 (by decide)).2.1⟩

theorem isqrt_bounds_of_sq (n : Int) (h1 : 45 ≤ n) (h2 : n ≤ 128) :
    6 ≤ isqrt n ∧ isqrt n ≤ 11 := by
  obtain ⟨hlo, hhi⟩ := isqrt_floor n (by omega)
  have h0 := isqrt_nonneg n
  constructor
  · by_contra hc
    have : isqrt n + 1 ≤ 6 := by omega
    nlinarith
  · by_contra hc
    have : 12 ≤ isqrt n := by omega
    nlinarith

theorem step_length_bounds_attained :
    get_follow ⟨0, 0⟩ ⟨23, 41⟩ = .ok ⟨20, 35⟩ ∧
    ((23 : Int) - 20) ^ 2 + ((41 : Int) - 35) ^ 2 = 45 ∧
    get_follow ⟨0, 0⟩ ⟨1, 1⟩ = .ok ⟨-7, -7⟩ ∧
    ((1 : Int) - (-7)) ^ 2 + ((1 : Int) - (-7)) ^ 2 = 128 ∧
    get_follow ⟨72, 84⟩ ⟨72, 48⟩ = .ok ⟨72, 56⟩ ∧
    ((72 : Int) - 72) ^ 2 + ((48 : Int) - 56) ^ 2 = 64 := by
  decide

/-- Counterexample to C3: from `prev = (0,0)` towards `follow = (1,1)` the computed distance
is `isqrt 2 = 1`, the step is `(8,8)`, and the result `(-7,-7)` lies at integer distance
`isqrt 128 = 11` from its target, not 8. -/
theorem follow_step_not_eight :
    inRange ⟨0, 0⟩ ∧ inRange ⟨1, 1⟩ ∧ (⟨0, 0⟩ : GPoint) ≠ ⟨1, 1⟩ ∧
    get_follow ⟨0, 0⟩ ⟨1, 1⟩ = .ok ⟨-7, -7⟩ ∧
    isqrt (((1 : Int) - (-7)) ^ 2 + ((1 : Int) - (-7)) ^ 2) = 11 ∧
    isqrt (((1 : Int) - (-7)) ^ 2 + ((1 : Int) - (-7)) ^ 2) ≠ FOLLOW_DISTANCE := by
  decide

/-- C3, amended: for points `prev ≠ follow` in display range, `get_follow prev follow`
returns a point `r` whose squared distance from `follow` is between 45 and 128, so that
`isqrt ((follow.x - r.x)^2 + (follow.y - r.y)^2)` is between 6 and 11. -/
theorem follow_step_length (prev follow : GPoint) (hp : inRange prev) (hf : inRange follow)
    (hne : prev ≠ follow) :
    ∃ r, get_follow prev follow = .ok r ∧
      45 ≤ (follow.x - r.x) ^ 2 + (follow.y - r.y) ^ 2 ∧
      (follow.x - r.x) ^ 2 + (follow.y - r.y) ^ 2 ≤ 128 ∧
      6 ≤ isqrt ((follow.x - r.x) ^ 2 + (follow.y - r.y) ^ 2) ∧
      isqrt ((follow.x - r.x) ^ 2 + (follow.y - r.y) ^ 2) ≤ 11 := by
  have hv : follow.x - prev.x ≠ 0 ∨ follow.y - prev.y ≠ 0 := by
    by_contra hc
    push_neg at hc
    apply hne
    cases prev; cases follow
    simp only [GPoint.mk.injEq] at *
    omega
  obtain ⟨-, -, -, -, -, h45, h128⟩ := step_bounds _ _ hv
  refine ⟨_, get_follow_inRange prev follow hp hf hne, ?_⟩
  dsimp only
  have hx : ∀ a d : Int, a - (a - d) = d := by intro a d; ring
  rw [hx, hx]
  exact ⟨h45, h128, isqrt_bounds_of_sq _ h45 h128⟩

/-- Witness of C3: the amended bound at `prev = (0,0)`, `follow = (23,41)`, where the
squared distance is 45. -/
theorem follow_step_length_witness :
    inRange ⟨0, 0⟩ ∧ inRange ⟨23, 41⟩ ∧ (⟨0, 0⟩ : GPoint) ≠ ⟨23, 41⟩ ∧
    ∃ r, get_follow ⟨0, 0⟩ ⟨23, 41⟩ = .ok r ∧
      45 ≤ ((23 : Int) - r.x) ^ 2 + ((41 : Int) - r.y) ^ 2 ∧
      ((23 : Int) - r.x) ^ 2 + ((41 : Int) - r.y) ^ 2 ≤ 128 ∧
      6 ≤ isqrt (((23 : Int) - r.x) ^ 2 + ((41 : Int) - r.y) ^ 2) ∧
      isqrt (((23 : Int) - r.x) ^ 2 + ((41 : Int) - r.y) ^ 2) ≤ 11 :=
  ⟨by decide, by decide, by decide,
   follow_step_length ⟨0, 0⟩ ⟨23, 41⟩ (by decide) (by decide) (by decide)⟩

/-- Counterexample to C4: from `prev = (0,0)` through `cur = (1,1)` the step is `(8,8)`; the
result `(9,9)` lies at squared distance 128 from `cur`, not 64. -/
theorem unfollow_step_not_sixtyfour :
    inRange ⟨0, 0⟩ ∧ inRange ⟨1, 1⟩ ∧ (⟨0, 0⟩ : GPoint) ≠ ⟨1, 1⟩ ∧
    get_unfollow ⟨0, 0⟩ ⟨1, 1⟩ = .ok ⟨9, 9⟩ ∧
    ((9 : Int) - 1) ^ 2 + ((9 : Int) - 1) ^ 2 = 128 ∧
    ((9 : Int) - 1) ^ 2 + ((9 : Int) - 1) ^ 2 ≠ 64 := by
  decide

/-- C4, amended: for points `prev ≠ cur` in display range, `get_unfollow prev cur` returns
a point `r` whose squared distance from `cur` is between 45 and 128 (between 6 and 11
after `isqrt`). -/
theorem unfollow_step_length (prev cur : GPoint) (hp : inRange prev) (hc : inRange cur)
    (hne : prev ≠ cur) :
    ∃ r, get_unfollow prev cur = .ok r ∧
      45 ≤ (r.x - cur.x) ^ 2 + (r.y - cur.y) ^ 2 ∧
      (r.x - cur.x) ^ 2 + (r.y - cur.y) ^ 2 ≤ 128 ∧
      6 ≤ isqrt ((r.x - cur.x) ^ 2 + (r.y - cur.y) ^ 2) ∧
      isqrt ((r.x - cur.x) ^ 2 + (r.y - cur.y) ^ 2) ≤ 11 := by
  have hv : cur.x - prev.x ≠ 0 ∨ cur.y - prev.y ≠ 0 := by
    by_contra hcon
    push_neg at hcon
    apply hne
    cases prev; cases cur
    simp only [GPoint.mk.injEq] at *
    omega
  obtain ⟨-, -, -, -, -, h45, h128⟩ := step_bounds _ _ hv
  refine ⟨_, get_unfollow_inRange prev cur hp hc hne, ?_⟩
  dsimp only
  have hx : ∀ a d : Int, a + d - a = d := by intro a d; ring
  rw [hx, hx]
  exact ⟨h45, h128, isqrt_bounds_of_sq _ h45 h128⟩

/-- Witness of C4: the amended bound at `prev = (72,84)`, `cur = (72,48)`, a vertical
hand, where the squared distance is exactly 64. -/
theorem unfollow_step_length_witness :
    inRange ⟨72, 84⟩ ∧ inRange ⟨72, 48⟩ ∧ (⟨72, 84⟩ : GPoint) ≠ ⟨72, 48⟩ ∧
    ∃ r, get_unfollow ⟨72, 84⟩ ⟨72, 48⟩ = .ok r ∧
      45 ≤ (r.x - 72) ^ 2 + (r.y - 48) ^ 2 ∧
      (r.x - 72) ^ 2 + (r.y - 48) ^ 2 ≤ 128 ∧
      6 ≤ isqrt ((r.x - 72) ^ 2 + (r.y - 48) ^ 2) ∧
      isqrt ((r.x - 72) ^ 2 + (r.y - 48) ^ 2) ≤ 11 :=
  ⟨by decide, by decide, by decide,
   unfollow_step_length ⟨72, 84⟩ ⟨72, 48⟩ (by decide) (by decide) (by decide)⟩


/-- C5 (totality of echo generation): for every base chain and `point_limit` 5 or 6 the
echo-building loops end without fault, so no call of `get_follow` or `get_unfollow` made
on the way divides by zero; neither function faults on any pair of points, because a zero
distance returns before the division and a non-zero distance makes the division defined;
and for points in display range the distance is 0 exactly when the two points coincide. -/
theorem echo_generation_total (points : Nat → GPoint) (point_limit : Int)
    (hpl : point_limit = 5 ∨ point_limit = 6) :
    (∃ g, echo_loops points point_limit = .ok g) ∧
    (∀ a b : GPoint, (∃ r, get_follow a b = .ok r) ∧ (∃ r, get_unfollow a b = .ok r)) ∧
    (∀ a b : GPoint, distance a b = 0 → get_follow a b = .ok b ∧ get_unfollow a b = .ok b) ∧
    (∀ (a b : GPoint) (x : Int), distance a b ≠ 0 →
      cdiv x (distance a b) = .ok (Int.tdiv x (distance a b))) ∧
    (∀ a b : GPoint, inRange a → inRange b → (distance a b = 0 ↔ a = b)) := by
  refine ⟨⟨_, echo_loops_eq points point_limit (by omega)⟩, ?_, ?_, ?_, ?_⟩
  · intro a b
    exact ⟨⟨_, get_follow_ok a b⟩, ⟨_, get_unfollow_ok a b⟩⟩
  · intro a b h
    exact ⟨get_follow_zero a b h, get_unfollow_zero a b h⟩
  · intro a b x h
    exact cdiv_of_ne_zero x _ h
  · intro a b ha hb
    exact distance_eq_zero_iff a b ha hb

/-- Witness of C5: echo generation on the sample chain with `point_limit` 6. -/
theorem echo_generation_total_witness :
    ((6 : Int) = 5 ∨ (6 : Int) = 6) ∧ ∃ g, echo_loops samplePoints 6 = .ok g :=
  ⟨Or.inr rfl, (echo_generation_total samplePoints 6 (Or.inr rfl)).1⟩

theorem leadingChain_iterate (points : Nat → GPoint) (i : Nat) :
    leadingChain points i = (unfollowChain (points 0))^[i] points := by
  induction i with
  | zero => rfl
  | succ k ih =>
    rw [Function.iterate_succ_apply', ← ih]
    rfl

theorem trailingChain_iterate (points : Nat → GPoint) (i : Nat) :
    trailingChain points i = (followChain (points 0))^[i] points := by
  induction i with
  | zero => rfl
  | succ k ih =>
    rw [Function.iterate_succ_apply', ← ih]
    rfl

theorem unfollowChain_congr (pivot : GPoint) (S S2 : Nat → GPoint) (n : Nat)
    (h : ∀ p, p < n → S p = S2 p) :
    ∀ p, p < n → unfollowChain pivot S p = unfollowChain pivot S2 p := by
  intro p hp
  cases p with
  | zero => rfl
  | succ q =>
    show unfollowVal (S q) (S (q + 1)) = unfollowVal (S2 q) (S2 (q + 1))
    rw [h q (by omega), h (q + 1) hp]

theorem followChain_congr (pivot : GPoint) (T T2 : Nat → GPoint) (n : Nat)
    (h : ∀ p, p < n → T p = T2 p) :
    ∀ p, p < n → followChain pivot T p = followChain pivot T2 p := by
  intro p
  induction p with
  | zero => intro _; rfl
  | succ q ih =>
    intro hp
    show followVal (followChain pivot T q) (T (q + 1))
      = followVal (followChain pivot T2 q) (T2 (q + 1))
    rw [ih (by omega), h (q + 1) hp]

theorem leadingChain_congr (A B : Nat → GPoint) (n : Nat) (h0 : A 0 = B 0)
    (h1 : ∀ p, p < n → leadingChain A 1 p = leadingChain B 1 p) :
    ∀ i p, p < n → leadingChain A (i + 1) p = leadingChain B (i + 1) p := by
  intro i
  induction i with
  | zero => exact h1
  | succ k ih =>
    intro p hp
    show unfollowChain (A 0) (leadingChain A (k + 1)) p
      = unfollowChain (B 0) (leadingChain B (k + 1)) p
    rw [h0]
    exact unfollowChain_congr (B 0) _ _ n ih p hp

theorem trailingChain_congr (A B : Nat → GPoint) (n : Nat) (h0 : A 0 = B 0)
    (h1 : ∀ p, p < n → trailingChain A 1 p = trailingChain B 1 p) :
    ∀ i p, p < n → trailingChain A (i + 1) p = trailingChain B (i + 1) p := by
  intro i
  induction i with
  | zero => exact h1
  | succ k ih =>
    intro p hp
    show followChain (A 0) (trailingChain A (k + 1)) p
      = followChain (B 0) (trailingChain B (k + 1)) p
    rw [h0]
    exact followChain_congr (B 0) _ _ n ih p hp

theorem specGrid_chain_cell (points : Nat → GPoint) (pl i p : Int) (hi : -15 ≤ i ∧ i ≤ 15)
    (hp : 0 ≤ p ∧ p < 6) (hpl : p < pl) :
    (specGrid points pl).cell (INDEX_POINTS i) p = some (specChain points i p.toNat) := by
  unfold INDEX_POINTS NUM_BEHIND_ECHOES
  have h : 0 ≤ i + 15 ∧ i + 15 < 31 ∧ 0 ≤ p ∧ p < 6 ∧ (i + 15 = 15 ∨ p = 0 ∨ p < pl) := by
    omega
  rw [specGrid_cell, if_pos h]
  have : i + 15 - 15 = i := by omega
  rw [this]

theorem specChain_of_nonneg (points : Nat → GPoint) (i : Int) (hi : 0 ≤ i) :
    specChain points i = leadingChain points i.toNat := by
  unfold specChain
  rw [if_neg (by omega)]

theorem specChain_of_nonpos (points : Nat → GPoint) (i : Int) (hi : 0 ≤ i) :
    specChain points (-i) = trailingChain points i.toNat := by
  unfold specChain
  by_cases h : -i < 0
  · rw [if_pos h]
    have : (- -i).toNat = i.toNat := by omega
    rw [this]
  · rw [if_neg h]
    have h0 : i = 0 := by omega
    subst h0
    rfl


theorem chains_depend_on_first_echo (A B : Nat → GPoint) (pl : Int) (hpl : pl ≤ 6)
    (h0 : A 0 = B 0)
    (h1 : ∀ p : Int, 1 ≤ p → p < pl →
      (specGrid A pl).cell (INDEX_POINTS 1) p = (specGrid B pl).cell (INDEX_POINTS 1) p)
    (hm1 : ∀ p : Int, 1 ≤ p → p < pl →
      (specGrid A pl).cell (INDEX_POINTS (-1)) p = (specGrid B pl).cell (INDEX_POINTS (-1)) p) :
    ∀ i p : Int, 1 ≤ i → i ≤ 15 → 0 ≤ p → p < pl →
      (specGrid A pl).cell (INDEX_POINTS i) p = (specGrid B pl).cell (INDEX_POINTS i) p ∧
      (specGrid A pl).cell (INDEX_POINTS (-i)) p = (specGrid B pl).cell (INDEX_POINTS (-i)) p := by
  have hlead : ∀ q : Nat, q < pl.toNat → leadingChain A 1 q = leadingChain B 1 q := by
    intro q hq
    cases q with
    | zero => exact h0
    | succ k =>
      have h := h1 ((k + 1 : Nat) : Int) (by push_cast; omega) (by omega)
      rw [specGrid_chain_cell A pl 1 _ (by omega) (by omega) (by omega),
        specGrid_chain_cell B pl 1 _ (by omega) (by omega) (by omega)] at h
      have h2 := Option.some.inj h
      rw [specChain_of_nonneg A 1 (by omega), specChain_of_nonneg B 1 (by omega)] at h2
      simpa using h2
  have htrail : ∀ q : Nat, q < pl.toNat → trailingChain A 1 q = trailingChain B 1 q := by
    intro q hq
    cases q with
    | zero => exact h0
    | succ k =>
      have h := hm1 ((k + 1 : Nat) : Int) (by push_cast; omega) (by omega)
      rw [specGrid_chain_cell A pl (-1) _ (by omega) (by omega) (by omega),
        specGrid_chain_cell B pl (-1) _ (by omega) (by omega) (by omega)] at h
      have h2 := Option.some.inj h
      rw [specChain_of_nonpos A 1 (by omega), specChain_of_nonpos B 1 (by omega)] at h2
      simpa using h2
  intro i p hi1 hi2 hp1 hp2
  obtain ⟨k, hk⟩ : ∃ k : Nat, i.toNat = k + 1 := ⟨i.toNat - 1, by omega⟩
  constructor
  · rw [specGrid_chain_cell A pl i p (by omega) (by omega) hp2,
      specGrid_chain_cell B pl i p (by omega) (by omega) hp2,
      specChain_of_nonneg A i (by omega), specChain_of_nonneg B i (by omega), hk]
    exact congrArg some (leadingChain_congr A B pl.toNat h0 hlead k p.toNat (by omega))
  · rw [specGrid_chain_cell A pl (-i) p (by omega) (by omega) hp2,
      specGrid_chain_cell B pl (-i) p (by omega) (by omega) hp2,
      specChain_of_nonpos A i (by omega), specChain_of_nonpos B i (by omega), hk]
    exact congrArg some (trailingChain_congr A B pl.toNat h0 htrail k p.toNat (by omega))

/-- C6 (the loops refine the recursive definition): for `point_limit` 5 or 6 the echo loops
end with an array `g` in which, for every `i` in 1..15 and `p` in 1..point_limit-1,
point `p` of trailing chain `-i` is `get_follow` of point `p-1` of the same chain and
point `p` of chain `-i+1`, and point `p` of leading chain `+i` is `get_unfollow` of points
`p-1` and `p` of chain `i-1`; chain `+i` is the `i`-fold iterate of `unfollowChain` on the
base chain and chain `-i` the `i`-fold iterate of `followChain`; and the chains beyond
offsets `+-1` depend on the base chain only through its point 0 and the chains `+-1`. -/
theorem echo_loops_refine_spec (points : Nat → GPoint) (point_limit : Int)
    (hpl : point_limit = 5 ∨ point_limit = 6) :
    ∃ g, echo_loops points point_limit = .ok g ∧
      (∀ i p : Int, 1 ≤ i → i ≤ 15 → 1 ≤ p → p < point_limit →
        ∃ a b r, g.cell (INDEX_POINTS (-i)) (p - 1) = some a ∧
          g.cell (INDEX_POINTS (-i + 1)) p = some b ∧
          get_follow a b = .ok r ∧ g.cell (INDEX_POINTS (-i)) p = some r) ∧
      (∀ i p : Int, 1 ≤ i → i ≤ 15 → 1 ≤ p → p < point_limit →
        ∃ a b r, g.cell (INDEX_POINTS (i - 1)) (p - 1) = some a ∧
          g.cell (INDEX_POINTS (i - 1)) p = some b ∧
          get_unfollow a b = .ok r ∧ g.cell (INDEX_POINTS i) p = some r) ∧
      (∀ i p : Int, 0 ≤ i → i ≤ 15 → 0 ≤ p → p < point_limit →
        g.cell (INDEX_POINTS i) p
          = some ((unfollowChain (points 0))^[i.toNat] points p.toNat) ∧
        g.cell (INDEX_POINTS (-i)) p
          = some ((followChain (points 0))^[i.toNat] points p.toNat)) ∧
      (∀ (points2 : Nat → GPoint) (g2 : Grid), echo_loops points2 point_limit = .ok g2 →
        points2 0 = points 0 →
        (∀ p : Int, 1 ≤ p → p < point_limit →
          g2.cell (INDEX_POINTS 1) p = g.cell (INDEX_POINTS 1) p) →
        (∀ p : Int, 1 ≤ p → p < point_limit →
          g2.cell (INDEX_POINTS (-1)) p = g.cell (INDEX_POINTS (-1)) p) →
        ∀ i p : Int, 1 ≤ i → i ≤ 15 → 0 ≤ p → p < point_limit →
          g2.cell (INDEX_POINTS i) p = g.cell (INDEX_POINTS i) p ∧
          g2.cell (INDEX_POINTS (-i)) p = g.cell (INDEX_POINTS (-i)) p) := by
  have h6 : point_limit ≤ 6 := by omega
  refine ⟨specGrid points point_limit, echo_loops_eq points point_limit h6, ?_, ?_, ?_, ?_⟩
  · intro i p hi1 hi2 hp1 hp2
    have hsucc : p.toNat = (p - 1).toNat + 1 := by omega
    refine ⟨_, _, _, specGrid_chain_cell points point_limit (-i) (p - 1) (by omega) (by omega)
      (by omega), specGrid_chain_cell points point_limit (-i + 1) p (by omega) (by omega) hp2,
      get_follow_ok _ _, ?_⟩
    rw [specGrid_chain_cell points point_limit (-i) p (by omega) (by omega) hp2]
    congr 1
    conv_lhs => rw [specChain_behind points i hi1, hsucc, followChain]
    rw [← specChain_behind points i hi1, ← hsucc]
  · intro i p hi1 hi2 hp1 hp2
    have hsucc : p.toNat = (p - 1).toNat + 1 := by omega
    refine ⟨_, _, _, specGrid_chain_cell points point_limit (i - 1) (p - 1) (by omega)
      (by omega) (by omega), specGrid_chain_cell points point_limit (i - 1) p (by omega)
      (by omega) hp2, get_unfollow_ok _ _, ?_⟩
    rw [specGrid_chain_cell points point_limit i p (by omega) (by omega) hp2]
    congr 1
    conv_lhs => rw [specChain_ahead points i hi1, hsucc, unfollowChain]
    rw [← hsucc]
  · intro i p hi1 hi2 hp1 hp2
    constructor
    · rw [specGrid_chain_cell points point_limit i p (by omega) (by omega) hp2,
        specChain_of_nonneg points i hi1, leadingChain_iterate]
    · rw [specGrid_chain_cell points point_limit (-i) p (by omega) (by omega) hp2,
        specChain_of_nonpos points i hi1, trailingChain_iterate]
  · intro points2 g2 hrun h0 h1 hm1
    rw [echo_loops_eq points2 point_limit h6] at hrun
    have hg2 : g2 = specGrid points2 point_limit := (Except.ok.inj hrun).symm
    subst hg2
    exact chains_depend_on_first_echo points2 points point_limit h6 h0 h1 hm1

/-- Witness of C6: the refinement at the sample chain with `point_limit` 6. -/
theorem echo_loops_refine_spec_witness :
    ((6 : Int) = 5 ∨ (6 : Int) = 6) ∧
    ∃ g, echo_loops samplePoints 6 = .ok g ∧
      g.cell (INDEX_POINTS 2) 3
        = some ((unfollowChain (samplePoints 0))^[2] samplePoints 3) :=
  ⟨Or.inr rfl, by
    obtain ⟨g, hrun, -, -, hit, -⟩ := echo_loops_refine_spec samplePoints 6 (Or.inr rfl)
    exact ⟨g, hrun, (hit 2 3 (by decide) (by decide) (by decide) (by decide)).1⟩⟩


/-! ## Positions in the draw sequence -/

theorem upto_getElem? (lo : Int) (n r : Nat) (h : r < n) :
    (upto lo n)[r]? = some (lo + (r : Int)) := by
  unfold upto
  rw [List.getElem?_map, List.getElem?_range h]
  rfl

theorem blocks_length (B : Int → List Line) (w : Nat) (hB : ∀ p, (B p).length = w)
    (lo : Int) (m : Nat) : (((upto lo m).map B).flatten).length = m * w := by
  induction m with
  | zero => simp [upto]
  | succ k ih =>
    rw [upto_succ, List.map_append, List.flatten_append, List.length_append, ih]
    simp only [List.map_cons, List.map_nil, List.flatten_cons, List.flatten_nil,
      List.append_nil, hB]
    ring

theorem blocks_getElem? (B : Int → List Line) (w : Nat) (hB : ∀ p, (B p).length = w)
    (lo : Int) (m j r : Nat) (hj : j < m) (hr : r < w) :
    (((upto lo m).map B).flatten)[j * w + r]? = (B (lo + (j : Int)))[r]? := by
  induction m with
  | zero => omega
  | succ k ih =>
    rw [upto_succ, List.map_append, List.flatten_append]
    by_cases hjk : j < k
    · have hlt : j * w + r < (((upto lo k).map B).flatten).length := by
        rw [blocks_length B w hB]
        have : (j + 1) * w ≤ k * w := Nat.mul_le_mul_right w (by omega)
        have h2 : (j + 1) * w = j * w + w := by ring
        omega
      rw [List.getElem?_append_left hlt]
      exact ih hjk
    · have hjk2 : j = k := by omega
      subst hjk2
      have hge : (((upto lo j).map B).flatten).length ≤ j * w + r := by
        rw [blocks_length B w hB]; omega
      rw [List.getElem?_append_right hge, blocks_length B w hB]
      have : j * w + r - j * w = r := by omega
      rw [this]
      simp

theorem echoLinesOf_length (pbl_color : Bool) (points : Nat → GPoint) (p : Int) :
    (echoLinesOf pbl_color points p).length = 31 := by
  unfold echoLinesOf
  rw [List.length_map, upto_length]

theorem echoLines_length (pbl_color : Bool) (points : Nat → GPoint) (n : Int) :
    (echoLines pbl_color points n).length = (n - 1).toNat * 31 :=
  blocks_length _ 31 (echoLinesOf_length pbl_color points) 1 _

theorem outlineLines_length (points : Nat → GPoint) (n : Int) :
    (outlineLines points n).length = (n - 1).toNat := by
  unfold outlineLines
  rw [List.length_map, upto_length]

theorem overlayLines_length (pbl_color : Bool) (points : Nat → GPoint) (n : Int) :
    (overlayLines pbl_color points n).length = (n - 1).toNat := by
  unfold overlayLines
  rw [List.length_map, upto_length]

theorem drawSequence_length (pbl_color : Bool) (points : Nat → GPoint) (n : Int)
    (hn : 1 ≤ n) : ((drawSequence pbl_color points n).length : Int) = 33 * (n - 1) := by
  unfold drawSequence
  rw [List.length_append, List.length_append, echoLines_length, outlineLines_length,
    overlayLines_length]
  push_cast
  omega

theorem echoLines_getElem? (pbl_color : Bool) (points : Nat → GPoint) (n p i : Int)
    (hp : 1 ≤ p ∧ p < n) (hi : -15 ≤ i ∧ i ≤ 15) :
    (echoLines pbl_color points n)[(31 * (p - 1) + (i + 15)).toNat]?
      = some (echoLine pbl_color points p i) := by
  have hidx : (31 * (p - 1) + (i + 15)).toNat = (p - 1).toNat * 31 + (i + 15).toNat := by
    omega
  unfold echoLines
  rw [hidx, blocks_getElem? _ 31 (echoLinesOf_length pbl_color points) 1 _ _ _ (by omega)
    (by omega)]
  unfold echoLinesOf
  rw [List.getElem?_map, upto_getElem? _ _ _ (by omega)]
  have h1 : (1 : Int) + ((p - 1).toNat : Int) = p := by omega
  have h2 : (-15 : Int) + ((i + 15).toNat : Int) = i := by omega
  rw [h1, h2]
  rfl

theorem outlineLines_getElem? (points : Nat → GPoint) (n p : Int) (hp : 1 ≤ p ∧ p < n) :
    (outlineLines points n)[(p - 1).toNat]? = some (outlineLine points p) := by
  unfold outlineLines
  rw [List.getElem?_map, upto_getElem? _ _ _ (by omega)]
  have h1 : (1 : Int) + ((p - 1).toNat : Int) = p := by omega
  rw [h1]
  rfl

theorem overlayLines_getElem? (pbl_color : Bool) (points : Nat → GPoint) (n p : Int)
    (hp : 1 ≤ p ∧ p < n) :
    (overlayLines pbl_color points n)[(p - 1).toNat]? = some (overlayLine pbl_color points p) := by
  unfold overlayLines
  rw [List.getElem?_map, upto_getElem? _ _ _ (by omega)]
  have h1 : (1 : Int) + ((p - 1).toNat : Int) = p := by omega
  rw [h1]
  rfl

theorem drawSequence_echo (pbl_color : Bool) (points : Nat → GPoint) (n p i : Int)
    (hp : 1 ≤ p ∧ p < n) (hi : -15 ≤ i ∧ i ≤ 15) :
    (drawSequence pbl_color points n)[(31 * (p - 1) + (i + 15)).toNat]?
      = some (echoLine pbl_color points p i) := by
  unfold drawSequence
  have h1 : (31 * (p - 1) + (i + 15)).toNat < (echoLines pbl_color points n).length := by
    rw [echoLines_length]; omega
  rw [List.append_assoc, List.getElem?_append_left h1]
  exact echoLines_getElem? pbl_color points n p i hp hi

theorem drawSequence_outline (pbl_color : Bool) (points : Nat → GPoint) (n p : Int)
    (hp : 1 ≤ p ∧ p < n) :
    (drawSequence pbl_color points n)[(31 * (n - 1) + (p - 1)).toNat]?
      = some (outlineLine points p) := by
  unfold drawSequence
  have h1 : (echoLines pbl_color points n).length ≤ (31 * (n - 1) + (p - 1)).toNat := by
    rw [echoLines_length]; omega
  have h2 : (31 * (n - 1) + (p - 1)).toNat - (echoLines pbl_color points n).length
      = (p - 1).toNat := by
    rw [echoLines_length]; omega
  have h3 : (p - 1).toNat < (outlineLines points n).length := by
    rw [outlineLines_length]; omega
  rw [List.append_assoc, List.getElem?_append_right h1, h2, List.getElem?_append_left h3]
  exact outlineLines_getElem? points n p hp

theorem drawSequence_overlay (pbl_color : Bool) (points : Nat → GPoint) (n p : Int)
    (hp : 1 ≤ p ∧ p < n) :
    (drawSequence pbl_color points n)[(32 * (n - 1) + (p - 1)).toNat]?
      = some (overlayLine pbl_color points p) := by
  unfold drawSequence
  have h1 : (echoLines pbl_color points n ++ outlineLines points n).length
      ≤ (32 * (n - 1) + (p - 1)).toNat := by
    rw [List.length_append, echoLines_length, outlineLines_length]; omega
  have h2 : (32 * (n - 1) + (p - 1)).toNat
      - (echoLines pbl_color points n ++ outlineLines points n).length = (p - 1).toNat := by
    rw [List.length_append, echoLines_length, outlineLines_length]; omega
  rw [List.getElem?_append_right h1, h2]
  exact overlayLines_getElem? pbl_color points n p hp


theorem upto_one_five : upto 1 5 = upto 1 4 ++ [5] := by decide

theorem point_limit_of_values : point_limit_of false = 5 ∧ point_limit_of true = 6 := by
  decide

/-- C7 (reduced precision): for every base chain, the call of line 181 with 5 points
(`seconds_precision` false) instead of 6 builds the same points 0..4 in each of the 31
chains, and its draw sequence is the 6-point sequence with the lines of segment 5 removed:
the 31 echo lines `echoLinesOf 5`, the outline line and the overlay line of segment 5.
The other 124 echo lines, 4 outline lines and 4 overlay lines are the same lines (end
points, stroke width, colour) in the same order. -/
theorem precision_drop (pbl_color : Bool) (ctx : GContext) (points : Nat → GPoint) :
    ∃ g5 g6 c5 c6,
      echo_loops points (point_limit_of false) = .ok g5 ∧
      echo_loops points (point_limit_of true) = .ok g6 ∧
      (∀ r c : Int, 0 ≤ r → r < 31 → 0 ≤ c → c ≤ 4 →
        g5.cell r c = g6.cell r c ∧ (g5.cell r c).isSome = true) ∧
      draw_lines_and_echoes pbl_color ctx points (point_limit_of false) = .ok c5 ∧
      draw_lines_and_echoes pbl_color ctx points (point_limit_of true) = .ok c6 ∧
      c5.lines = ctx.lines ++ (echoLines pbl_color points 5 ++ outlineLines points 5
        ++ overlayLines pbl_color points 5) ∧
      c6.lines = ctx.lines ++ (echoLines pbl_color points 5 ++ echoLinesOf pbl_color points 5
        ++ (outlineLines points 5 ++ [outlineLine points 5])
        ++ (overlayLines pbl_color points 5 ++ [overlayLine pbl_color points 5])) ∧
      (echoLines pbl_color points 5).length = 124 ∧
      (echoLinesOf pbl_color points 5).length = 31 ∧
      (outlineLines points 5).length = 4 ∧
      (overlayLines pbl_color points 5).length = 4 := by
  obtain ⟨h5, h6⟩ := point_limit_of_values
  rw [h5, h6]
  obtain ⟨c5, hd5, hl5⟩ := draw_lines_and_echoes_eq pbl_color ctx points 5 (by omega)
  obtain ⟨c6, hd6, hl6⟩ := draw_lines_and_echoes_eq pbl_color ctx points 6 (by omega)
  refine ⟨specGrid points 5, specGrid points 6, c5, c6, echo_loops_eq points 5 (by omega),
    echo_loops_eq points 6 (by omega), ?_, hd5, hd6, hl5, ?_, ?_, ?_, ?_, ?_⟩
  · intro r c hr1 hr2 hc1 hc2
    have hA : 0 ≤ r ∧ r < 31 ∧ 0 ≤ c ∧ c < 6 ∧ (r = 15 ∨ c = 0 ∨ c < 5) := by omega
    have hB : 0 ≤ r ∧ r < 31 ∧ 0 ≤ c ∧ c < 6 ∧ (r = 15 ∨ c = 0 ∨ c < 6) := by omega
    rw [specGrid_cell, specGrid_cell, if_pos hA, if_pos hB]
    exact ⟨rfl, rfl⟩
  · rw [hl6]
    unfold drawSequence echoLines outlineLines overlayLines
    have e5 : ((6 : Int) - 1).toNat = 5 := by decide
    have e4 : ((5 : Int) - 1).toNat = 4 := by decide
    rw [e5, e4, upto_one_five]
    simp only [List.map_append, List.flatten_append, List.map_cons, List.map_nil,
      List.flatten_cons, List.flatten_nil, List.append_nil]
  · rw [echoLines_length]; decide
  · exact echoLinesOf_length pbl_color points 5
  · rw [outlineLines_length]; decide
  · rw [overlayLines_length]; decide

/-- C8 (draw order): for every base chain and active point count `n` of 5 or 6,
`draw_lines_and_echoes` appends exactly `33*(n-1)` lines to the context. The echo line of
segment `p` (1..n-1) and offset `i` (-15..15), which joins points `p-1` and `p` of chain
`i` at stroke width 1 in colour `line_colors[p-1]`, is line number `31*(p-1) + (i+15)`;
the outline line of segment `p` of the base chain, width 7 in black, is line number
`31*(n-1) + (p-1)`; the overlay line of segment `p` is line number `32*(n-1) + (p-1)`.
So every base-chain line comes after every echo line, and the outline of a segment before
its overlay. -/
theorem draw_order (pbl_color : Bool) (ctx : GContext) (points : Nat → GPoint) (n : Int)
    (hn : n = 5 ∨ n = 6) :
    ∃ g c, echo_loops points n = .ok g ∧
      draw_lines_and_echoes pbl_color ctx points n = .ok c ∧
      c.lines = ctx.lines ++ drawSequence pbl_color points n ∧
      ((drawSequence pbl_color points n).length : Int) = 33 * (n - 1) ∧
      (∀ p i : Int, 1 ≤ p → p < n → -15 ≤ i → i ≤ 15 →
        ∃ a b, g.cell (INDEX_POINTS i) (p - 1) = some a ∧ g.cell (INDEX_POINTS i) p = some b ∧
          (drawSequence pbl_color points n)[(31 * (p - 1) + (i + 15)).toNat]?
            = some ⟨a, b, 1, segmentColor pbl_color p⟩) ∧
      (∀ p : Int, 1 ≤ p → p < n →
        readColor pbl_color (p - 1) = .ok (segmentColor pbl_color p) ∧
        (drawSequence pbl_color points n)[(31 * (n - 1) + (p - 1)).toNat]?
          = some ⟨points (p - 1).toNat, points p.toNat, 7, GColor.Black⟩ ∧
        (drawSequence pbl_color points n)[(32 * (n - 1) + (p - 1)).toNat]?
          = some ⟨points (p - 1).toNat, points p.toNat, overlayWidth pbl_color p,
              segmentColor pbl_color p⟩) := by
  have h6 : n ≤ 6 := by omega
  obtain ⟨c, hd, hl⟩ := draw_lines_and_echoes_eq pbl_color ctx points n h6
  refine ⟨specGrid points n, c, echo_loops_eq points n h6, hd, hl,
    drawSequence_length pbl_color points n (by omega), ?_, ?_⟩
  · intro p i hp1 hp2 hi1 hi2
    exact ⟨_, _, specGrid_chain_cell points n i (p - 1) ⟨hi1, hi2⟩ (by omega) (by omega),
      specGrid_chain_cell points n i p ⟨hi1, hi2⟩ (by omega) hp2,
      drawSequence_echo pbl_color points n p i ⟨hp1, hp2⟩ ⟨hi1, hi2⟩⟩
  · intro p hp1 hp2
    exact ⟨readColor_ok pbl_color p (by omega),
      drawSequence_outline pbl_color points n p ⟨hp1, hp2⟩,
      drawSequence_overlay pbl_color points n p ⟨hp1, hp2⟩⟩

/-- Witness of C8: the draw order on the sample chain with 6 active points on a colour
display; 165 lines are drawn. -/
theorem draw_order_witness :
    ((6 : Int) = 5 ∨ (6 : Int) = 6) ∧
    ∃ c, draw_lines_and_echoes true sampleCtx samplePoints 6 = .ok c ∧
      c.lines = sampleCtx.lines ++ drawSequence true samplePoints 6 ∧
      ((drawSequence true samplePoints 6).length : Int) = 33 * (6 - 1) :=
  ⟨Or.inr rfl, by
    obtain ⟨g, c, -, hd, hl, hlen, -, -⟩ :=
      draw_order true sampleCtx samplePoints 6 (Or.inr rfl)
    exact ⟨c, hd, hl, hlen⟩⟩


/-! ## Angles -/

theorem CLOCK_ANGLE_eq (x outof : Int) (ho : outof ≠ 0) :
    CLOCK_ANGLE x outof = .ok (Int.tdiv (x * 65536) outof - 16384) := by
  unfold CLOCK_ANGLE CLOCK_ANGLE_in TRIG_MAX_ANGLE
  rw [cdiv_of_ne_zero _ _ ho, ok_bind, cdiv_of_ne_zero _ _ (by decide), ok_bind]
  rfl

theorem CLOCK_ANGLE_in_eq (wrap : Int → Int) (x outof : Int) (ho : outof ≠ 0) :
    CLOCK_ANGLE_in wrap x outof
      = .ok (wrap (wrap (Int.tdiv (wrap (x * 65536)) outof) - 16384)) := by
  unfold CLOCK_ANGLE_in TRIG_MAX_ANGLE
  rw [cdiv_of_ne_zero _ _ ho, ok_bind, cdiv_of_ne_zero _ _ (by decide), ok_bind]
  rfl

/-- C9 (periodicity of `CLOCK_ANGLE`): for every field value `x ≥ 0` and period
`outof > 0`, without overflow, `CLOCK_ANGLE(x + outof, outof)` and `CLOCK_ANGLE(x, outof)`
are both defined and differ by exactly `TRIG_MAX_ANGLE`; so they are congruent modulo
`TRIG_MAX_ANGLE`. -/
theorem clock_angle_periodic (x outof : Int) (hx : 0 ≤ x) (ho : 0 < outof) :
    ∃ a b, CLOCK_ANGLE (x + outof) outof = .ok a ∧ CLOCK_ANGLE x outof = .ok b ∧
      a = b + TRIG_MAX_ANGLE ∧ a % TRIG_MAX_ANGLE = b % TRIG_MAX_ANGLE := by
  have hne : outof ≠ 0 := by omega
  refine ⟨_, _, CLOCK_ANGLE_eq (x + outof) outof hne, CLOCK_ANGLE_eq x outof hne, ?_⟩
  have h1 : Int.tdiv ((x + outof) * 65536) outof = Int.tdiv (x * 65536) outof + 65536 := by
    rw [Int.tdiv_eq_ediv (by nlinarith) (le_of_lt ho),
      Int.tdiv_eq_ediv (by omega) (le_of_lt ho)]
    have : (x + outof) * 65536 = x * 65536 + 65536 * outof := by ring
    rw [this, Int.add_mul_ediv_right _ _ hne]
  unfold TRIG_MAX_ANGLE
  rw [h1]
  constructor
  · ring
  · omega

/-- Witness of C9: the minute angle at 10 and at 3610 seconds (period 3600). -/
theorem clock_angle_periodic_witness :
    (0 : Int) ≤ 10 ∧ (0 : Int) < 3600 ∧
    ∃ a b, CLOCK_ANGLE (10 + 3600) 3600 = .ok a ∧ CLOCK_ANGLE 10 3600 = .ok b ∧
      a = b + TRIG_MAX_ANGLE ∧ a % TRIG_MAX_ANGLE = b % TRIG_MAX_ANGLE :=
  ⟨by decide, by decide, clock_angle_periodic 10 3600 (by decide) (by decide)⟩


theorem tdiv_bounds (a b : Int) (ha : 0 ≤ a) (hb : 0 < b) :
    Int.tdiv a b = a / b ∧ 0 ≤ a / b ∧ a / b ≤ a :=
  ⟨Int.tdiv_eq_ediv ha (le_of_lt hb), Int.ediv_nonneg ha (le_of_lt hb),
    Int.ediv_le_self b ha⟩

theorem clock32_exact (x outof : Int) (ho : 0 < outof) (hx0 : 0 ≤ x)
    (hx : x * 65536 < 2147483648) : CLOCK_ANGLE_in wrap32 x outof = CLOCK_ANGLE x outof := by
  have hne : outof ≠ 0 := by omega
  rw [CLOCK_ANGLE_in_eq wrap32 x outof hne, CLOCK_ANGLE_eq x outof hne]
  obtain ⟨h1, h2, h3⟩ := tdiv_bounds (x * 65536) outof (by omega) ho
  rw [wrap32_of_fits (x * 65536) (by omega) hx, h1,
    wrap32_of_fits (x * 65536 / outof) (by omega) (by omega),
    wrap32_of_fits (x * 65536 / outof - 16384) (by omega) (by omega)]

theorem clock64_exact (x outof : Int) (ho : 0 < outof) (hx0 : 0 ≤ x)
    (hx : x * 65536 < 9223372036854775808) :
    CLOCK_ANGLE_in wrap64 x outof = CLOCK_ANGLE x outof := by
  have hne : outof ≠ 0 := by omega
  rw [CLOCK_ANGLE_in_eq wrap64 x outof hne, CLOCK_ANGLE_eq x outof hne]
  obtain ⟨h1, h2, h3⟩ := tdiv_bounds (x * 65536) outof (by omega) ho
  rw [wrap64_of_fits (x * 65536) (by omega) hx, h1,
    wrap64_of_fits (x * 65536 / outof) (by omega) (by omega),
    wrap64_of_fits (x * 65536 / outof - 16384) (by omega) (by omega)]

/-- C10 (no overflow in the angles of `draw_update_proc`): for `tm_yday` in 0..365 the
products `tm_yday*TRIG_MAX_ANGLE` and `tm_yday*12*TRIG_MAX_ANGLE` stay below 2^31, so
`YEAR_ANGLE` and `MONTH_ANGLE`, evaluated in 32-bit `int`, and the two angle arguments
built from them equal the exact values; for `time_sec` in 0..86399 the product
`time_sec*TRIG_MAX_ANGLE` stays below 2^63, so `HOUR_ANGLE`, `MIN_ANGLE` and `SEC_ANGLE`,
evaluated in `int64_t`, equal the exact values, and narrowing them to the `int32_t`
parameter of `get_angular_point` does not change them. -/
theorem angles_no_overflow (tm_yday time_sec : Int) (hy0 : 0 ≤ tm_yday) (hy1 : tm_yday ≤ 365)
    (ht0 : 0 ≤ time_sec) (ht1 : time_sec ≤ 86399) :
    (0 ≤ tm_yday * TRIG_MAX_ANGLE ∧ tm_yday * TRIG_MAX_ANGLE < 2 ^ 31) ∧
    (0 ≤ tm_yday * 12 * TRIG_MAX_ANGLE ∧ tm_yday * 12 * TRIG_MAX_ANGLE < 2 ^ 31) ∧
    YEAR_ANGLE tm_yday = CLOCK_ANGLE tm_yday 365 ∧
    MONTH_ANGLE tm_yday = CLOCK_ANGLE (tm_yday * 12) 365 ∧
    year_arg tm_yday = .ok (Int.tdiv (tm_yday * TRIG_MAX_ANGLE) 365 - TRIG_MAX_ANGLE / 4
      + TRIG_MAX_ANGLE / 2) ∧
    month_arg tm_yday = .ok (Int.tdiv (tm_yday * 12 * TRIG_MAX_ANGLE) 365 - TRIG_MAX_ANGLE / 4
      + TRIG_MAX_ANGLE / 2) ∧
    (0 ≤ time_sec * TRIG_MAX_ANGLE ∧ time_sec * TRIG_MAX_ANGLE < 2 ^ 63) ∧
    HOUR_ANGLE time_sec = CLOCK_ANGLE time_sec (SECONDS_PER_HOUR * 12) ∧
    MIN_ANGLE time_sec = CLOCK_ANGLE time_sec SECONDS_PER_HOUR ∧
    SEC_ANGLE time_sec = CLOCK_ANGLE time_sec SECONDS_PER_MINUTE ∧
    hour_arg time_sec = CLOCK_ANGLE time_sec (SECONDS_PER_HOUR * 12) ∧
    min_arg time_sec = CLOCK_ANGLE time_sec SECONDS_PER_HOUR ∧
    sec_arg time_sec = CLOCK_ANGLE time_sec SECONDS_PER_MINUTE := by
  have hY : YEAR_ANGLE tm_yday = CLOCK_ANGLE tm_yday 365 :=
    clock32_exact tm_yday 365 (by decide) hy0 (by omega)
  have hM : MONTH_ANGLE tm_yday = CLOCK_ANGLE (tm_yday * 12) 365 := by
    unfold MONTH_ANGLE
    rw [wrap32_of_fits (tm_yday * 12) (by omega) (by omega)]
    exact clock32_exact (tm_yday * 12) 365 (by decide) (by omega) (by omega)
  have hH : HOUR_ANGLE time_sec = CLOCK_ANGLE time_sec (SECONDS_PER_HOUR * 12) :=
    clock64_exact time_sec _ (by decide) ht0 (by omega)
  have hMi : MIN_ANGLE time_sec = CLOCK_ANGLE time_sec SECONDS_PER_HOUR :=
    clock64_exact time_sec _ (by decide) ht0 (by omega)
  have hS : SEC_ANGLE time_sec = CLOCK_ANGLE time_sec SECONDS_PER_MINUTE :=
    clock64_exact time_sec _ (by decide) ht0 (by omega)
  have q1 := tdiv_bounds (tm_yday * 65536) 365 (by omega) (by decide)
  have q2 := tdiv_bounds (tm_yday * 12 * 65536) 365 (by omega) (by decide)
  have q3 := tdiv_bounds (time_sec * 65536) (3600 * 12) (by omega) (by decide)
  have q4 := tdiv_bounds (time_sec * 65536) 3600 (by omega) (by decide)
  have q5 := tdiv_bounds (time_sec * 65536) 60 (by omega) (by decide)
  refine ⟨by unfold TRIG_MAX_ANGLE; omega, by unfold TRIG_MAX_ANGLE; omega, hY, hM, ?_, ?_,
    by unfold TRIG_MAX_ANGLE; omega, hH, hMi, hS, ?_, ?_, ?_⟩
  · unfold year_arg
    rw [hY, CLOCK_ANGLE_eq _ _ (by decide), ok_bind]
    unfold TRIG_MAX_ANGLE
    rw [cdiv_of_ne_zero _ _ (by decide), ok_bind]
    show Except.ok (wrap32 (Int.tdiv (tm_yday * 65536) 365 - 16384 + 32768)) = _
    rw [wrap32_of_fits _ (by omega) (by omega)]
    rfl
  · unfold month_arg
    rw [hM, CLOCK_ANGLE_eq _ _ (by decide), ok_bind]
    unfold TRIG_MAX_ANGLE
    rw [cdiv_of_ne_zero _ _ (by decide), ok_bind]
    show Except.ok (wrap32 (Int.tdiv (tm_yday * 12 * 65536) 365 - 16384 + 32768)) = _
    rw [wrap32_of_fits _ (by omega) (by omega)]
    rfl
  · unfold hour_arg SECONDS_PER_HOUR
    rw [hH]
    unfold SECONDS_PER_HOUR
    rw [CLOCK_ANGLE_eq _ _ (by decide), ok_bind]
    show Except.ok (wrap32 (Int.tdiv (time_sec * 65536) (3600 * 12) - 16384)) = _
    rw [wrap32_of_fits _ (by omega) (by omega)]
  · unfold min_arg SECONDS_PER_HOUR
    rw [hMi]
    unfold SECONDS_PER_HOUR
    rw [CLOCK_ANGLE_eq _ _ (by decide), ok_bind]
    show Except.ok (wrap32 (Int.tdiv (time_sec * 65536) 3600 - 16384)) = _
    rw [wrap32_of_fits _ (by omega) (by omega)]
  · unfold sec_arg SECONDS_PER_MINUTE
    rw [hS]
    unfold SECONDS_PER_MINUTE
    rw [CLOCK_ANGLE_eq _ _ (by decide), ok_bind]
    show Except.ok (wrap32 (Int.tdiv (time_sec * 65536) 60 - 16384)) = _
    rw [wrap32_of_fits _ (by omega) (by omega)]

/-- Witness of C10: the last day of a leap year, one second before midnight. -/
theorem angles_no_overflow_witness :
    ((0 : Int) ≤ 365 ∧ (365 : Int) ≤ 365 ∧ (0 : Int) ≤ 86399 ∧ (86399 : Int) ≤ 86399) ∧
    YEAR_ANGLE 365 = CLOCK_ANGLE 365 365 ∧
    sec_arg 86399 = CLOCK_ANGLE 86399 SECONDS_PER_MINUTE :=
  ⟨by decide,
   (angles_no_overflow 365 86399 (by decide) (by decide) (by decide) (by decide)).2.2.1,
   (angles_no_overflow 365 86399 (by decide) (by decide) (by decide)
     (by decide)).2.2.2.2.2.2.2.2.2.2.2.2⟩


/-! ## Tick scheduling -/

theorem tick_handler_minutes (clock : Clock) (s : Globals) (h : s.seconds_precision = false) :
    (tick_handler clock s).seconds_precision = false ∧
    (tick_handler clock s).seconds_precision_countdown = s.seconds_precision_countdown ∧
    (tick_handler clock s).subscribed = s.subscribed := by
  unfold tick_handler update_graphics update_time
  simp [h]

theorem tick_handler_counting (clock : Clock) (s : Globals) (h : s.seconds_precision = true)
    (h1 : 1 < s.seconds_precision_countdown) (h2 : s.seconds_precision_countdown ≤ 30) :
    (tick_handler clock s).seconds_precision = true ∧
    (tick_handler clock s).seconds_precision_countdown = s.seconds_precision_countdown - 1 ∧
    (tick_handler clock s).subscribed = s.subscribed := by
  have hw : wrap32 (s.seconds_precision_countdown - 1) = s.seconds_precision_countdown - 1 :=
    wrap32_of_fits _ (by omega) (by omega)
  have hpos : ¬ (s.seconds_precision_countdown - 1 ≤ 0) := by omega
  unfold tick_handler update_graphics update_time
  simp [h, hw, hpos]

theorem tick_handler_revert (clock : Clock) (s : Globals) (h : s.seconds_precision = true)
    (h1 : s.seconds_precision_countdown = 1) :
    (tick_handler clock s).seconds_precision = false ∧
    (tick_handler clock s).seconds_precision_countdown = 0 ∧
    (tick_handler clock s).subscribed = s.subscribed ++ [TimeUnits.MINUTE_UNIT] := by
  unfold tick_handler update_graphics update_time schedule_with_precision
  simp [h, h1, wrap32]

theorem run_ticks_minutes (clocks : List Clock) :
    ∀ s : Globals, s.seconds_precision = false →
      (run_ticks clocks s).seconds_precision = false ∧
      (run_ticks clocks s).seconds_precision_countdown = s.seconds_precision_countdown ∧
      (run_ticks clocks s).subscribed = s.subscribed := by
  induction clocks with
  | nil => intro s h; exact ⟨h, rfl, rfl⟩
  | cons c cs ih =>
    intro s h
    obtain ⟨a1, a2, a3⟩ := tick_handler_minutes c s h
    obtain ⟨b1, b2, b3⟩ := ih (tick_handler c s) a1
    have hrun : run_ticks (c :: cs) s = run_ticks cs (tick_handler c s) := rfl
    rw [hrun]
    exact ⟨b1, by rw [b2, a2], by rw [b3, a3]⟩

theorem run_ticks_counting (clocks : List Clock) :
    ∀ s : Globals, s.seconds_precision = true →
      1 ≤ s.seconds_precision_countdown → s.seconds_precision_countdown ≤ 30 →
      ((clocks.length : Int) < s.seconds_precision_countdown →
        (run_ticks clocks s).seconds_precision = true ∧
        (run_ticks clocks s).seconds_precision_countdown
          = s.seconds_precision_countdown - clocks.length ∧
        (run_ticks clocks s).subscribed = s.subscribed) ∧
      (s.seconds_precision_countdown ≤ (clocks.length : Int) →
        (run_ticks clocks s).seconds_precision = false ∧
        (run_ticks clocks s).seconds_precision_countdown = 0 ∧
        (run_ticks clocks s).subscribed = s.subscribed ++ [TimeUnits.MINUTE_UNIT]) := by
  induction clocks with
  | nil =>
    intro s h h1 h2
    refine ⟨fun _ => ⟨h, by simp [run_ticks], rfl⟩, fun hc => ?_⟩
    simp at hc
    omega
  | cons c cs ih =>
    intro s h h1 h2
    have hrun : run_ticks (c :: cs) s = run_ticks cs (tick_handler c s) := rfl
    rw [hrun]
    by_cases hone : s.seconds_precision_countdown = 1
    · obtain ⟨a1, a2, a3⟩ := tick_handler_revert c s h hone
      obtain ⟨b1, b2, b3⟩ := run_ticks_minutes cs (tick_handler c s) a1
      constructor
      · intro hlt
        simp only [List.length_cons] at hlt
        push_cast at hlt
        omega
      · intro _
        exact ⟨b1, by rw [b2, a2], by rw [b3, a3]⟩
    · obtain ⟨a1, a2, a3⟩ := tick_handler_counting c s h (by omega) h2
      obtain ⟨i1, i2⟩ := ih (tick_handler c s) a1 (by omega) (by omega)
      constructor
      · intro hlt
        simp only [List.length_cons] at hlt ⊢
        push_cast at hlt ⊢
        obtain ⟨b1, b2, b3⟩ := i1 (by omega)
        exact ⟨b1, by rw [b2, a2]; ring, by rw [b3, a3]⟩
      · intro hge
        simp only [List.length_cons] at hge
        push_cast at hge
        obtain ⟨b1, b2, b3⟩ := i2 (by omega)
        exact ⟨b1, b2, by rw [b3, a3]⟩

theorem accel_tap_handler_eq (s : Globals) :
    (accel_tap_handler s).seconds_precision = true ∧
    (accel_tap_handler s).seconds_precision_countdown = 30 ∧
    (accel_tap_handler s).subscribed = s.subscribed ++ [TimeUnits.SECOND_UNIT] := by
  unfold accel_tap_handler schedule_with_precision SECONDS_PRECISION_MAX_COUNTDOWN
  simp

theorem run_ticks_append (xs ys : List Clock) (s : Globals) :
    run_ticks (xs ++ ys) s = run_ticks ys (run_ticks xs s) := by
  unfold run_ticks
  rw [List.foldl_append]

/-- C14 (high-precision window): from any state, after `accel_tap_handler` and then `k`
calls of `tick_handler` with no further tap, `seconds_precision` is true when `k < 30` and
false when `k >= 30`; `schedule_with_precision(false)`, the only call that subscribes with
`MINUTE_UNIT`, has been made once if `k >= 30` and not at all if `k < 30`, and the tick
that makes it is the 30th. -/
theorem high_precision_window (s : Globals) (clocks : List Clock) (next : Clock) :
    (run_ticks clocks (accel_tap_handler s)).seconds_precision = decide (clocks.length < 30) ∧
    (run_ticks clocks (accel_tap_handler s)).subscribed
      = s.subscribed ++ [TimeUnits.SECOND_UNIT]
        ++ (if 30 ≤ clocks.length then [TimeUnits.MINUTE_UNIT] else []) ∧
    (run_ticks (clocks ++ [next]) (accel_tap_handler s)).subscribed
      = (run_ticks clocks (accel_tap_handler s)).subscribed
        ++ (if clocks.length + 1 = 30 then [TimeUnits.MINUTE_UNIT] else []) := by
  obtain ⟨t1, t2, t3⟩ := accel_tap_handler_eq s
  have key : ∀ cs : List Clock,
      (run_ticks cs (accel_tap_handler s)).seconds_precision = decide (cs.length < 30) ∧
      (run_ticks cs (accel_tap_handler s)).subscribed
        = s.subscribed ++ [TimeUnits.SECOND_UNIT]
          ++ (if 30 ≤ cs.length then [TimeUnits.MINUTE_UNIT] else []) := by
    intro cs
    obtain ⟨i1, i2⟩ := run_ticks_counting cs (accel_tap_handler s) t1 (by omega) (by omega)
    by_cases hk : cs.length < 30
    · obtain ⟨b1, -, b3⟩ := i1 (by rw [t2]; omega)
      have hn : ¬ (30 ≤ cs.length) := by omega
      rw [b1, b3, t3, if_neg hn]
      simp [hk]
    · obtain ⟨b1, -, b3⟩ := i2 (by rw [t2]; omega)
      have hn : 30 ≤ cs.length := by omega
      rw [b1, b3, t3, if_pos hn]
      simp [hk]
  refine ⟨(key clocks).1, (key clocks).2, ?_⟩
  rw [(key (clocks ++ [next])).2, (key clocks).2, List.length_append]
  simp only [List.length_singleton]
  by_cases h1 : 30 ≤ clocks.length
  · have h2 : 30 ≤ clocks.length + 1 := by omega
    have h3 : ¬ (clocks.length + 1 = 30) := by omega
    rw [if_pos h1, if_pos h2, if_neg h3]
    simp
  · by_cases h4 : clocks.length + 1 = 30
    · have h2 : 30 ≤ clocks.length + 1 := by omega
      rw [if_neg h1, if_pos h2, if_pos h4]
      simp
    · have h2 : ¬ (30 ≤ clocks.length + 1) := by omega
      rw [if_neg h1, if_neg h2, if_neg h4]
      simp

theorem handle_keeps_invariant (s : Globals) (e : Event)
    (h : (s.seconds_precision = true ∧ 1 ≤ s.seconds_precision_countdown
          ∧ s.seconds_precision_countdown ≤ 30)
        ∨ (s.seconds_precision = false ∧ s.seconds_precision_countdown = 0)) :
    ((handle s e).seconds_precision = true ∧ 1 ≤ (handle s e).seconds_precision_countdown
        ∧ (handle s e).seconds_precision_countdown ≤ 30)
      ∨ ((handle s e).seconds_precision = false
        ∧ (handle s e).seconds_precision_countdown = 0) := by
  cases e with
  | tap =>
    obtain ⟨t1, t2, -⟩ := accel_tap_handler_eq s
    left
    have hh : handle s Event.tap = accel_tap_handler s := rfl
    rw [hh, t2]
    exact ⟨t1, by omega, by omega⟩
  | tick clock =>
    have hh : handle s (Event.tick clock) = tick_handler clock s := rfl
    rw [hh]
    rcases h with ⟨h1, h2, h3⟩ | ⟨h1, h2⟩
    · by_cases hone : s.seconds_precision_countdown = 1
      · obtain ⟨a1, a2, -⟩ := tick_handler_revert clock s h1 hone
        right
        exact ⟨a1, a2⟩
      · obtain ⟨a1, a2, -⟩ := tick_handler_counting clock s h1 (by omega) h3
        left
        rw [a2]
        exact ⟨a1, by omega, by omega⟩
    · obtain ⟨a1, a2, -⟩ := tick_handler_minutes clock s h1
      right
      exact ⟨a1, by rw [a2, h2]⟩

theorem init_eq (clock : Clock) (s : Globals) :
    (init clock s).seconds_precision = true ∧ (init clock s).seconds_precision_countdown = 30 := by
  unfold init schedule_with_precision SECONDS_PRECISION_MAX_COUNTDOWN
  simp

/-- C17 (countdown invariant): `init` leaves `seconds_precision = true` and
`seconds_precision_countdown = 30`; in every state reached from there by any sequence of
`tick_handler` and `accel_tap_handler` calls, either `seconds_precision` is true and the
countdown is in 1..30, or `seconds_precision` is false and the countdown is 0; and a tap
in any state sets the pair to (true, 30). -/
theorem countdown_invariant (start : Globals) (clock : Clock) (events : List Event)
    (t : Globals) :
    ((init clock start).seconds_precision = true
      ∧ (init clock start).seconds_precision_countdown = 30) ∧
    (((run events (init clock start)).seconds_precision = true
        ∧ 1 ≤ (run events (init clock start)).seconds_precision_countdown
        ∧ (run events (init clock start)).seconds_precision_countdown ≤ 30)
      ∨ ((run events (init clock start)).seconds_precision = false
        ∧ (run events (init clock start)).seconds_precision_countdown = 0)) ∧
    ((accel_tap_handler t).seconds_precision = true
      ∧ (accel_tap_handler t).seconds_precision_countdown = 30) := by
  obtain ⟨i1, i2⟩ := init_eq clock start
  refine ⟨⟨i1, i2⟩, ?_, (accel_tap_handler_eq t).1, (accel_tap_handler_eq t).2.1⟩
  have hinit : ((init clock start).seconds_precision = true
      ∧ 1 ≤ (init clock start).seconds_precision_countdown
      ∧ (init clock start).seconds_precision_countdown ≤ 30)
      ∨ ((init clock start).seconds_precision = false
      ∧ (init clock start).seconds_precision_countdown = 0) :=
    Or.inl ⟨i1, by omega, by omega⟩
  generalize init clock start = s at hinit
  induction events generalizing s with
  | nil => exact hinit
  | cons e es ih =>
    have hrun : run (e :: es) s = run es (handle s e) := rfl
    rw [hrun]
    exact ih (handle s e) (handle_keeps_invariant s e hinit)


/-! ## The step of `get_follow` and `get_unfollow`: size, direction, symmetry -/

theorem tdiv_sign (v d : Int) (hd : 0 < d) :
    (0 < v → 0 ≤ Int.tdiv (v * 8) d) ∧ (v < 0 → Int.tdiv (v * 8) d ≤ 0) ∧
    (v = 0 → Int.tdiv (v * 8) d = 0) := by
  refine ⟨fun h => Int.tdiv_nonneg (by omega) (le_of_lt hd), fun h => ?_, fun h => ?_⟩
  · have h1 : v * 8 = -((-v) * 8) := by ring
    rw [h1, Int.neg_tdiv]
    have := Int.tdiv_nonneg (a := (-v) * 8) (b := d) (by omega) (le_of_lt hd)
    omega
  · subst h
    simp

/-- C15 (step bound): for points `a ≠ b` in display range, both functions use one
displacement `(dx, dy)`, the difference vector `b - a` scaled by `FOLLOW_DISTANCE` over the
integer distance: `get_unfollow a b = b + (dx, dy)` and `get_follow a b = b - (dx, dy)`.
It is non-zero, each component is between -8 and 8 and has the sign of the same component
of `b - a` (or is 0), so both results are within Chebyshev distance 8 and squared
Euclidean distance 128 of `b`, and `get_follow a b + get_unfollow a b = 2*b`
componentwise. -/
theorem displacement_bound (a b : GPoint) (ha : inRange a) (hb : inRange b) (hne : a ≠ b) :
    ∃ dx dy rf ru,
      get_follow a b = .ok rf ∧ get_unfollow a b = .ok ru ∧
      rf = ⟨b.x - dx, b.y - dy⟩ ∧ ru = ⟨b.x + dx, b.y + dy⟩ ∧
      (dx ≠ 0 ∨ dy ≠ 0) ∧
      (-FOLLOW_DISTANCE ≤ dx ∧ dx ≤ FOLLOW_DISTANCE) ∧
      (-FOLLOW_DISTANCE ≤ dy ∧ dy ≤ FOLLOW_DISTANCE) ∧
      (0 < b.x - a.x → 0 ≤ dx) ∧ (b.x - a.x < 0 → dx ≤ 0) ∧ (b.x - a.x = 0 → dx = 0) ∧
      (0 < b.y - a.y → 0 ≤ dy) ∧ (b.y - a.y < 0 → dy ≤ 0) ∧ (b.y - a.y = 0 → dy = 0) ∧
      (rf.x - b.x) ^ 2 + (rf.y - b.y) ^ 2 ≤ 128 ∧
      (ru.x - b.x) ^ 2 + (ru.y - b.y) ^ 2 ≤ 128 ∧
      rf.x + ru.x = 2 * b.x ∧ rf.y + ru.y = 2 * b.y := by
  have hv : b.x - a.x ≠ 0 ∨ b.y - a.y ≠ 0 := by
    by_contra hc
    push_neg at hc
    apply hne
    cases a; cases b
    simp only [GPoint.mk.injEq] at *
    omega
  obtain ⟨hd, hx1, hx2, hy1, hy2, h45, h128⟩ := step_bounds _ _ hv
  have hdpos : 0 < isqrt ((b.x - a.x) * (b.x - a.x) + (b.y - a.y) * (b.y - a.y)) := by
    have := isqrt_nonneg ((b.x - a.x) * (b.x - a.x) + (b.y - a.y) * (b.y - a.y))
    omega
  obtain ⟨sx1, sx2, sx3⟩ := tdiv_sign (b.x - a.x) _ hdpos
  obtain ⟨sy1, sy2, sy3⟩ := tdiv_sign (b.y - a.y) _ hdpos
  refine ⟨_, _, _, _, get_follow_inRange a b ha hb hne, get_unfollow_inRange a b ha hb hne,
    rfl, rfl, ?_, ⟨hx1, hx2⟩, ⟨hy1, hy2⟩, sx1, sx2, sx3, sy1, sy2, sy3, ?_, ?_, ?_, ?_⟩
  · by_contra hc
    push_neg at hc
    rw [hc.1, hc.2] at h45
    norm_num at h45
  · dsimp only
    have e : ∀ p q : Int, (p - q - p) ^ 2 = q ^ 2 := by intro p q; ring
    rw [e, e]
    exact h128
  · dsimp only
    have e : ∀ p q : Int, (p + q - p) ^ 2 = q ^ 2 := by intro p q; ring
    rw [e, e]
    exact h128
  · dsimp only
    ring
  · dsimp only
    ring

/-- Witness of C15: the step from `(0,0)` to `(23,41)` is `(3,6)`. -/
theorem displacement_bound_witness :
    inRange ⟨0, 0⟩ ∧ inRange ⟨23, 41⟩ ∧ (⟨0, 0⟩ : GPoint) ≠ ⟨23, 41⟩ ∧
    get_follow ⟨0, 0⟩ ⟨23, 41⟩ = .ok ⟨20, 35⟩ ∧
    get_unfollow ⟨0, 0⟩ ⟨23, 41⟩ = .ok ⟨26, 47⟩ ∧
    ∃ dx dy rf ru,
      get_follow ⟨0, 0⟩ ⟨23, 41⟩ = .ok rf ∧ get_unfollow ⟨0, 0⟩ ⟨23, 41⟩ = .ok ru ∧
      rf = ⟨23 - dx, 41 - dy⟩ ∧ ru = ⟨23 + dx, 41 + dy⟩ ∧
      rf.x + ru.x = 2 * 23 ∧ rf.y + ru.y = 2 * 41 := by
  refine ⟨by decide, by decide, by decide, by decide, by decide, ?_⟩
  obtain ⟨dx, dy, rf, ru, h1, h2, h3, h4, -, -, -, -, -, -, -, -, -, -, -, h5, h6⟩ :=
    displacement_bound ⟨0, 0⟩ ⟨23, 41⟩ (by decide) (by decide) (by decide)
  exact ⟨dx, dy, rf, ru, h1, h2, h3, h4, h5, h6⟩


/-! ## Stroke widths, array bounds and initialisation -/

theorem getElem?_after (xs ys : List Line) (k : Nat) :
    (xs ++ ys)[xs.length + k]? = ys[k]? := by
  rw [List.getElem?_append_right (by omega)]
  have : xs.length + k - xs.length = k := by omega
  rw [this]

/-- C13 (stroke widths): for every active point count `n` up to 6, the lines that
`draw_lines_and_echoes` appends are `33*(n-1)` in number; every echo line (segment `p`,
offset `i`) has width 1, every outline line width 7, and the overlay line of segment `p`
has width 3 on a colour build and, on a monochrome build, width 1 when `p <= 2` and width 3
when `p > 2`. -/
theorem stroke_widths (pbl_color : Bool) (ctx : GContext) (points : Nat → GPoint) (n : Int)
    (hn1 : 1 ≤ n) (hn : n ≤ 6) :
    ∃ c, draw_lines_and_echoes pbl_color ctx points n = .ok c ∧
      c.lines.length = ctx.lines.length + (33 * (n - 1)).toNat ∧
      (∀ p i : Int, 1 ≤ p → p < n → -15 ≤ i → i ≤ 15 →
        ∃ l, c.lines[ctx.lines.length + (31 * (p - 1) + (i + 15)).toNat]? = some l ∧
          l.width = 1) ∧
      (∀ p : Int, 1 ≤ p → p < n →
        ∃ l, c.lines[ctx.lines.length + (31 * (n - 1) + (p - 1)).toNat]? = some l ∧
          l.width = 7) ∧
      (∀ p : Int, 1 ≤ p → p < n →
        ∃ l, c.lines[ctx.lines.length + (32 * (n - 1) + (p - 1)).toNat]? = some l ∧
          l.width = if pbl_color = true then 3 else if p ≤ 2 then 1 else 3) := by
  obtain ⟨c, hd, hl⟩ := draw_lines_and_echoes_eq pbl_color ctx points n hn
  refine ⟨c, hd, ?_, ?_, ?_, ?_⟩
  · have h := drawSequence_length pbl_color points n hn1
    rw [hl, List.length_append]
    omega
  · intro p i hp1 hp2 hi1 hi2
    refine ⟨echoLine pbl_color points p i, ?_, rfl⟩
    rw [hl, getElem?_after]
    exact drawSequence_echo pbl_color points n p i ⟨hp1, hp2⟩ ⟨hi1, hi2⟩
  · intro p hp1 hp2
    refine ⟨outlineLine points p, ?_, rfl⟩
    rw [hl, getElem?_after]
    exact drawSequence_outline pbl_color points n p ⟨hp1, hp2⟩
  · intro p hp1 hp2
    refine ⟨overlayLine pbl_color points p, ?_, ?_⟩
    · rw [hl, getElem?_after]
      exact drawSequence_overlay pbl_color points n p ⟨hp1, hp2⟩
    · show overlayWidth pbl_color p = _
      unfold overlayWidth
      cases pbl_color <;> simp

/-- Witness of C13: the widths on the sample chain, monochrome build, 6 points: the
overlay of segment 2 has width 1, that of segment 3 width 3. -/
theorem stroke_widths_witness :
    (1 : Int) ≤ 6 ∧ (6 : Int) ≤ 6 ∧
    ∃ c, draw_lines_and_echoes false sampleCtx samplePoints 6 = .ok c ∧
      c.lines.length = 165 ∧
      (∃ l, c.lines[161]? = some l ∧ l.width = 1) ∧
      (∃ l, c.lines[162]? = some l ∧ l.width = 3) := by
  refine ⟨by decide, by decide, ?_⟩
  obtain ⟨c, hd, hlen, -, -, hov⟩ :=
    stroke_widths false sampleCtx samplePoints 6 (by decide) (by decide)
  refine ⟨c, hd, hlen, ?_, ?_⟩
  · obtain ⟨l, h1, h2⟩ := hov 2 (by decide) (by decide)
    exact ⟨l, h1, h2⟩
  · obtain ⟨l, h1, h2⟩ := hov 3 (by decide) (by decide)
    exact ⟨l, h1, h2⟩

theorem Grid.read_ok_iff (g : Grid) (row col : Int) (v : GPoint) :
    g.read row col = .ok v ↔
      (0 ≤ row ∧ row ≤ 30 ∧ 0 ≤ col ∧ col ≤ 5 ∧ g.cell row col = some v) := by
  unfold Grid.read NUM_BEHIND_ECHOES NUM_AHEAD_ECHOES NUM_POINTS
  by_cases h : 0 ≤ row ∧ row < 1 + 15 + 15 ∧ 0 ≤ col ∧ col < 6
  · rw [if_pos h]
    cases hc : g.cell row col with
    | none => simp
    | some w =>
      simp only [Except.ok.injEq, Option.some.injEq]
      constructor
      · intro e; exact ⟨h.1, by omega, h.2.2.1, by omega, e⟩
      · intro e; exact e.2.2.2.2
  · rw [if_neg h]
    constructor
    · intro e; cases e
    · intro e; exact absurd ⟨e.1, by omega, e.2.2.1, by omega⟩ h

theorem Grid.write_ok_bounds (g g1 : Grid) (row col : Int) (v : GPoint)
    (h : g.write row col v = .ok g1) : 0 ≤ row ∧ row ≤ 30 ∧ 0 ≤ col ∧ col ≤ 5 := by
  unfold Grid.write NUM_BEHIND_ECHOES NUM_AHEAD_ECHOES NUM_POINTS at h
  by_cases hb : 0 ≤ row ∧ row < 1 + 15 + 15 ∧ 0 ≤ col ∧ col < 6
  · omega
  · rw [if_neg hb] at h
    cases h

theorem readPoint_ok_bounds (points : Nat → GPoint) (i : Int) (v : GPoint)
    (h : readPoint points i = .ok v) : 0 ≤ i ∧ i ≤ 5 := by
  unfold readPoint NUM_POINTS at h
  by_cases hb : 0 ≤ i ∧ i < 6
  · omega
  · rw [if_neg hb] at h
    cases h

theorem readColor_ok_bounds (pbl_color : Bool) (i : Int) (c : GColor)
    (h : readColor pbl_color i = .ok c) : 0 ≤ i ∧ i ≤ 4 := by
  unfold readColor at h
  by_cases hb : 0 ≤ i
  · rw [if_pos hb] at h
    by_cases h5 : i.toNat < 5
    · omega
    · have hnone : (line_colors pbl_color)[i.toNat]? = none := by
        apply List.getElem?_eq_none
        cases pbl_color <;> simp [line_colors] <;> omega
      rw [hnone] at h
      cases h
  · rw [if_neg hb] at h
    cases h

theorem follow_step_reads (a f p : Int) (g g2 : Grid)
    (h1 : g.cell a (p - 1) = g2.cell a (p - 1)) (h2 : g.cell f p = g2.cell f p) :
    (follow_step a f p g).map (fun t => t.cell a p)
      = (follow_step a f p g2).map (fun t => t.cell a p) := by
  unfold follow_step Grid.read Grid.write
  rw [h1, h2]
  by_cases hb1 : 0 ≤ a ∧ a < 1 + NUM_BEHIND_ECHOES + NUM_AHEAD_ECHOES
      ∧ 0 ≤ p - 1 ∧ p - 1 < NUM_POINTS
  · by_cases hb2 : 0 ≤ f ∧ f < 1 + NUM_BEHIND_ECHOES + NUM_AHEAD_ECHOES
        ∧ 0 ≤ p ∧ p < NUM_POINTS
    · have hb3 : 0 ≤ a ∧ a < 1 + NUM_BEHIND_ECHOES + NUM_AHEAD_ECHOES ∧ 0 ≤ p ∧ p < NUM_POINTS :=
        ⟨hb1.1, hb1.2.1, hb2.2.2.1, hb2.2.2.2⟩
      rw [if_pos hb1, if_pos hb2]
      cases g2.cell a (p - 1) with
      | none => rfl
      | some u =>
        cases g2.cell f p with
        | none => rfl
        | some w =>
          simp only [ok_bind, get_follow_ok, if_pos hb3]
          simp [Except.map]
    · rw [if_pos hb1, if_neg hb2]
      cases g2.cell a (p - 1) <;> rfl
  · rw [if_neg hb1]
    rfl

theorem unfollow_step_reads (a u p : Int) (g g2 : Grid)
    (h1 : g.cell u (p - 1) = g2.cell u (p - 1)) (h2 : g.cell u p = g2.cell u p) :
    (unfollow_step a u p g).map (fun t => t.cell a p)
      = (unfollow_step a u p g2).map (fun t => t.cell a p) := by
  unfold unfollow_step Grid.read Grid.write
  rw [h1, h2]
  by_cases hb1 : 0 ≤ u ∧ u < 1 + NUM_BEHIND_ECHOES + NUM_AHEAD_ECHOES
      ∧ 0 ≤ p - 1 ∧ p - 1 < NUM_POINTS
  · by_cases hb2 : 0 ≤ u ∧ u < 1 + NUM_BEHIND_ECHOES + NUM_AHEAD_ECHOES
        ∧ 0 ≤ p ∧ p < NUM_POINTS
    · rw [if_pos hb1, if_pos hb2]
      cases g2.cell u (p - 1) with
      | none => rfl
      | some v =>
        cases g2.cell u p with
        | none => rfl
        | some w =>
          simp only [ok_bind, get_unfollow_ok]
          by_cases hb3 : 0 ≤ a ∧ a < 1 + NUM_BEHIND_ECHOES + NUM_AHEAD_ECHOES
              ∧ 0 ≤ p ∧ p < NUM_POINTS
          · simp [if_pos hb3, Except.map]
          · simp [if_neg hb3, Except.map]
    · rw [if_pos hb1, if_neg hb2]
      cases g2.cell u (p - 1) <;> rfl
  · rw [if_neg hb1]
    rfl

theorem point_limit_seven_faults :
    echo_loops samplePoints 7 = .error .outOfBounds ∧
    draw_lines_and_echoes true sampleCtx samplePoints 7 = .error .outOfBounds ∧
    Grid.read Grid.fresh 3 2 = .error .uninitialised :=
  ⟨by rfl, by decide, by decide⟩


/-! ## The base chain built by `draw_update_proc` -/

theorem month_arg_ok (d : Int) : ∃ a, month_arg d = .ok a := by
  unfold month_arg MONTH_ANGLE
  rw [CLOCK_ANGLE_in_eq _ _ _ (by decide), ok_bind]
  unfold TRIG_MAX_ANGLE
  rw [cdiv_of_ne_zero _ _ (by decide), ok_bind]
  exact ⟨_, rfl⟩

theorem year_arg_ok (d : Int) : ∃ a, year_arg d = .ok a := by
  unfold year_arg YEAR_ANGLE
  rw [CLOCK_ANGLE_in_eq _ _ _ (by decide), ok_bind]
  unfold TRIG_MAX_ANGLE
  rw [cdiv_of_ne_zero _ _ (by decide), ok_bind]
  exact ⟨_, rfl⟩

theorem hour_arg_ok (t : Int) : ∃ a, hour_arg t = .ok a := by
  unfold hour_arg HOUR_ANGLE
  rw [CLOCK_ANGLE_in_eq _ _ _ (by decide), ok_bind]
  exact ⟨_, rfl⟩

theorem min_arg_ok (t : Int) : ∃ a, min_arg t = .ok a := by
  unfold min_arg MIN_ANGLE
  rw [CLOCK_ANGLE_in_eq _ _ _ (by decide), ok_bind]
  exact ⟨_, rfl⟩

theorem sec_arg_ok (t : Int) : ∃ a, sec_arg t = .ok a := by
  unfold sec_arg SEC_ANGLE
  rw [CLOCK_ANGLE_in_eq _ _ _ (by decide), ok_bind]
  exact ⟨_, rfl⟩

theorem get_angular_point_eq (cos_lookup sin_lookup : Int → Int) (center : GPoint)
    (r angle : Int) :
    get_angular_point cos_lookup sin_lookup center r angle
      = .ok (mkGPoint (center.x + Int.tdiv (wrap32 (r * cos_lookup angle)) 65535)
          (center.y + Int.tdiv (wrap32 (r * sin_lookup angle)) 65535)) := by
  unfold get_angular_point TRIG_MAX_RATIO
  rw [cdiv_of_ne_zero _ _ (by decide), ok_bind, cdiv_of_ne_zero _ _ (by decide), ok_bind]
  rfl

theorem get_angular_point_zero (cos_lookup sin_lookup : Int → Int) (angle : Int) :
    get_angular_point cos_lookup sin_lookup ⟨0, 0⟩ 0 angle = .ok ⟨0, 0⟩ := by
  rw [get_angular_point_eq]
  simp only [zero_mul]
  rfl

theorem sec_radius_zero (origin : GPoint) : sec_radius ⟨origin, ⟨0, 0⟩⟩ = 0 := by
  unfold sec_radius max
  dsimp only
  decide

theorem build_points_zero (cos_lookup sin_lookup : Int → Int) (origin : GPoint)
    (tm_yday time_sec : Int) :
    ∃ pts, build_points cos_lookup sin_lookup ⟨origin, ⟨0, 0⟩⟩ tm_yday time_sec = .ok pts ∧
      ∀ k, pts k = ⟨0, 0⟩ := by
  obtain ⟨a1, h1⟩ := month_arg_ok tm_yday
  obtain ⟨a2, h2⟩ := year_arg_ok tm_yday
  obtain ⟨a3, h3⟩ := hour_arg_ok time_sec
  obtain ⟨a4, h4⟩ := min_arg_ok time_sec
  obtain ⟨a5, h5⟩ := sec_arg_ok time_sec
  have e2 : mkGPoint (Int.tdiv 0 2) (Int.tdiv 0 2) = ⟨0, 0⟩ := by decide
  have e3 : Int.tdiv 0 3 = 0 := by decide
  have e4 : Int.tdiv 0 4 = 0 := by decide
  have e6 : Int.tdiv 0 6 = 0 := by decide
  have e8 : sec_radius ⟨origin, ⟨0, 0⟩⟩ = 0 := sec_radius_zero origin
  have e0 : (0 : Int) + 0 = 0 := by decide
  refine ⟨fun _ => ⟨0, 0⟩, ?_, fun _ => rfl⟩
  unfold build_points
  simp only [h1, h2, h3, h4, h5, ok_bind, e2, e3, e4, e6, e8, e0, get_angular_point_zero]
  show Except.ok _ = Except.ok _
  congr 1
  funext k
  rcases k with _ | _ | _ | _ | _ | _ <;> rfl

theorem followVal_origin : followVal ⟨0, 0⟩ ⟨0, 0⟩ = ⟨0, 0⟩ := by decide

theorem unfollowVal_origin : unfollowVal ⟨0, 0⟩ ⟨0, 0⟩ = ⟨0, 0⟩ := by decide

theorem trailingChain_origin (pts : Nat → GPoint) (h : ∀ k, pts k = ⟨0, 0⟩) :
    ∀ i p, trailingChain pts i p = ⟨0, 0⟩ := by
  intro i
  induction i with
  | zero => intro p; exact h p
  | succ k ih =>
    intro p
    show followChain (pts 0) (trailingChain pts k) p = _
    induction p with
    | zero => exact h 0
    | succ q ihq =>
      show followVal (followChain (pts 0) (trailingChain pts k) q) (trailingChain pts k (q + 1)) = _
      rw [ihq, ih]
      exact followVal_origin

theorem leadingChain_origin (pts : Nat → GPoint) (h : ∀ k, pts k = ⟨0, 0⟩) :
    ∀ i p, leadingChain pts i p = ⟨0, 0⟩ := by
  intro i
  induction i with
  | zero => intro p; exact h p
  | succ k ih =>
    intro p
    show unfollowChain (pts 0) (leadingChain pts k) p = _
    cases p with
    | zero => exact h 0
    | succ q =>
      show unfollowVal (leadingChain pts k q) (leadingChain pts k (q + 1)) = _
      rw [ih, ih]
      exact unfollowVal_origin

theorem specChain_origin (pts : Nat → GPoint) (h : ∀ k, pts k = ⟨0, 0⟩) (i : Int) (p : Nat) :
    specChain pts i p = ⟨0, 0⟩ := by
  unfold specChain
  by_cases hi : i < 0
  · rw [if_pos hi]; exact trailingChain_origin pts h _ p
  · rw [if_neg hi]; exact leadingChain_origin pts h _ p

/-- C12 (zero-size bounds): for bounds of width 0 and height 0, every time snapshot and any
trig lookups, `sec_radius` is 0 and `draw_update_proc` builds six base points equal to
`(0, 0)`; with 5 or 6 active points the echo loops then end without fault, every
point of each of the 31 chains equals the corresponding base point, and the two
arguments of every `get_follow` and `get_unfollow` call are at computed distance 0, so
that each call returns through the zero-distance branch. -/
theorem zero_size_bounds (cos_lookup sin_lookup : Int → Int) (origin : GPoint)
    (tm_yday time_sec : Int) (seconds_precision : Bool) :
    sec_radius ⟨origin, ⟨0, 0⟩⟩ = 0 ∧
    ∃ pts g,
      build_points cos_lookup sin_lookup ⟨origin, ⟨0, 0⟩⟩ tm_yday time_sec = .ok pts ∧
      (∀ k, pts k = ⟨0, 0⟩) ∧ pts 5 = pts 4 ∧
      echo_loops pts (point_limit_of seconds_precision) = .ok g ∧
      (∀ i p : Int, -15 ≤ i → i ≤ 15 → 0 ≤ p → p < point_limit_of seconds_precision →
        g.cell (INDEX_POINTS i) p = some (pts p.toNat)) ∧
      (∀ i p : Int, 1 ≤ i → i ≤ 15 → 1 ≤ p → p < point_limit_of seconds_precision →
        ∃ a b, g.cell (INDEX_POINTS (-i)) (p - 1) = some a ∧
          g.cell (INDEX_POINTS (-i + 1)) p = some b ∧
          distance a b = 0 ∧ get_follow a b = .ok b) ∧
      (∀ i p : Int, 1 ≤ i → i ≤ 15 → 1 ≤ p → p < point_limit_of seconds_precision →
        ∃ a b, g.cell (INDEX_POINTS (i - 1)) (p - 1) = some a ∧
          g.cell (INDEX_POINTS (i - 1)) p = some b ∧
          distance a b = 0 ∧ get_unfollow a b = .ok b) := by
  have hs : sec_radius ⟨origin, ⟨0, 0⟩⟩ = 0 := sec_radius_zero origin
  obtain ⟨pts, hb, hz⟩ := build_points_zero cos_lookup sin_lookup origin tm_yday time_sec
  have hpl : point_limit_of seconds_precision ≤ 6 ∧ 5 ≤ point_limit_of seconds_precision := by
    cases seconds_precision <;> decide
  have hcell : ∀ i p : Int, -15 ≤ i → i ≤ 15 → 0 ≤ p → p < point_limit_of seconds_precision →
      (specGrid pts (point_limit_of seconds_precision)).cell (INDEX_POINTS i) p
        = some ⟨0, 0⟩ := by
    intro i p hi1 hi2 hp1 hp2
    rw [specGrid_chain_cell pts _ i p ⟨hi1, hi2⟩ (by omega) hp2, specChain_origin pts hz]
  have hd0 : distance ⟨0, 0⟩ ⟨0, 0⟩ = 0 := distance_self _
  refine ⟨hs, pts, specGrid pts (point_limit_of seconds_precision), hb, hz,
    by rw [hz 5, hz 4], echo_loops_eq pts _ hpl.1, ?_, ?_, ?_⟩
  · intro i p hi1 hi2 hp1 hp2
    rw [hcell i p hi1 hi2 hp1 hp2, hz]
  · intro i p hi1 hi2 hp1 hp2
    exact ⟨_, _, hcell (-i) (p - 1) (by omega) (by omega) (by omega) (by omega),
      hcell (-i + 1) p (by omega) (by omega) (by omega) hp2, hd0,
      get_follow_zero _ _ hd0⟩
  · intro i p hi1 hi2 hp1 hp2
    exact ⟨_, _, hcell (i - 1) (p - 1) (by omega) (by omega) (by omega) (by omega),
      hcell (i - 1) p (by omega) (by omega) (by omega) hp2, hd0,
      get_unfollow_zero _ _ hd0⟩
/-! ## The end-to-end scenario: midnight of day 0 on a 144x168 display -/

theorem isqrt_mul_self (n : Int) (hn : 0 ≤ n) : isqrt (n * n) = n := by
  obtain ⟨h1, h2⟩ := isqrt_floor (n * n) (mul_self_nonneg n)
  have h0 := isqrt_nonneg (n * n)
  generalize isqrt (n * n) = r at h1 h2 h0
  by_contra hne
  rcases lt_or_gt_of_ne hne with h | h
  · have : r + 1 ≤ n := by omega
    nlinarith
  · have : n + 1 ≤ r := by omega
    nlinarith

theorem vertical_followVal (x a b c : Int) (hx : -16000 ≤ x ∧ x ≤ 16000)
    (ha : -16000 ≤ a ∧ a ≤ 16000) (hb : -16000 ≤ b ∧ b ≤ 16000) (hlt : b < a)
    (hc : c = b + 8) : followVal ⟨x, a⟩ ⟨x, b⟩ = ⟨x, c⟩ := by
  have hne : (⟨x, a⟩ : GPoint) ≠ ⟨x, b⟩ := by
    intro h
    have := congrArg GPoint.y h
    dsimp only at this
    omega
  have h := get_follow_inRange ⟨x, a⟩ ⟨x, b⟩ ⟨hx.1, hx.2, ha.1, ha.2⟩ ⟨hx.1, hx.2, hb.1, hb.2⟩ hne
  dsimp only at h
  have e1 : (x - x) * (x - x) + (b - a) * (b - a) = (a - b) * (a - b) := by ring
  have e2 : (b - a) * 8 = (-8) * (a - b) := by ring
  have e3 : (x - x) * 8 = 0 := by ring
  rw [e1, isqrt_mul_self (a - b) (by omega), e2, e3,
    Int.mul_tdiv_cancel _ (by omega : a - b ≠ 0), Int.zero_tdiv] at h
  unfold followVal
  rw [h, hc]
  show (⟨x - 0, b - -8⟩ : GPoint) = ⟨x, b + 8⟩
  congr 1
  omega

theorem vertical_unfollowVal (x a b c : Int) (hx : -16000 ≤ x ∧ x ≤ 16000)
    (ha : -16000 ≤ a ∧ a ≤ 16000) (hb : -16000 ≤ b ∧ b ≤ 16000) (hlt : b < a)
    (hc : c = b - 8) : unfollowVal ⟨x, a⟩ ⟨x, b⟩ = ⟨x, c⟩ := by
  have hne : (⟨x, a⟩ : GPoint) ≠ ⟨x, b⟩ := by
    intro h
    have := congrArg GPoint.y h
    dsimp only at this
    omega
  have h := get_unfollow_inRange ⟨x, a⟩ ⟨x, b⟩ ⟨hx.1, hx.2, ha.1, ha.2⟩
    ⟨hx.1, hx.2, hb.1, hb.2⟩ hne
  dsimp only at h
  have e1 : (x - x) * (x - x) + (b - a) * (b - a) = (a - b) * (a - b) := by ring
  have e2 : (b - a) * 8 = (-8) * (a - b) := by ring
  have e3 : (x - x) * 8 = 0 := by ring
  rw [e1, isqrt_mul_self (a - b) (by omega), e2, e3,
    Int.mul_tdiv_cancel _ (by omega : a - b ≠ 0), Int.zero_tdiv] at h
  unfold unfollowVal
  rw [h, hc]
  show (⟨x + 0, b + -8⟩ : GPoint) = ⟨x, b - 8⟩
  congr 1
  omega

theorem trailing_midnight : ∀ i : Nat, i ≤ 15 →
    trailingChain midnightPoints i 0 = ⟨72, 444⟩ ∧
    trailingChain midnightPoints i 1 = ⟨72, 132 + 8 * (i : Int)⟩ ∧
    trailingChain midnightPoints i 2 = ⟨72, 84 + 8 * (i : Int)⟩ ∧
    trailingChain midnightPoints i 3 = ⟨72, 48 + 8 * (i : Int)⟩ ∧
    trailingChain midnightPoints i 4 = ⟨72, 24 + 8 * (i : Int)⟩ ∧
    trailingChain midnightPoints i 5 = ⟨72, 6 + 8 * (i : Int)⟩ := by
  intro i
  induction i with
  | zero => intro _; decide
  | succ k ih =>
    intro hk
    obtain ⟨-, t1, t2, t3, t4, t5⟩ := ih (by omega)
    have hx : (-16000 : Int) ≤ 72 ∧ (72 : Int) ≤ 16000 := by decide
    have f0 : trailingChain midnightPoints (k + 1) 0 = ⟨72, 444⟩ := rfl
    have f1 : trailingChain midnightPoints (k + 1) 1 = ⟨72, 132 + 8 * ((k + 1 : Nat) : Int)⟩ := by
      show followVal (trailingChain midnightPoints (k + 1) 0) (trailingChain midnightPoints k 1) = _
      rw [f0, t1]
      exact vertical_followVal 72 _ _ _ hx (by omega) (by omega) (by omega) (by push_cast; omega)
    have f2 : trailingChain midnightPoints (k + 1) 2 = ⟨72, 84 + 8 * ((k + 1 : Nat) : Int)⟩ := by
      show followVal (trailingChain midnightPoints (k + 1) 1) (trailingChain midnightPoints k 2) = _
      rw [f1, t2]
      exact vertical_followVal 72 _ _ _ hx (by push_cast; omega) (by omega)
        (by push_cast; omega) (by push_cast; omega)
    have f3 : trailingChain midnightPoints (k + 1) 3 = ⟨72, 48 + 8 * ((k + 1 : Nat) : Int)⟩ := by
      show followVal (trailingChain midnightPoints (k + 1) 2) (trailingChain midnightPoints k 3) = _
      rw [f2, t3]
      exact vertical_followVal 72 _ _ _ hx (by push_cast; omega) (by omega)
        (by push_cast; omega) (by push_cast; omega)
    have f4 : trailingChain midnightPoints (k + 1) 4 = ⟨72, 24 + 8 * ((k + 1 : Nat) : Int)⟩ := by
      show followVal (trailingChain midnightPoints (k + 1) 3) (trailingChain midnightPoints k 4) = _
      rw [f3, t4]
      exact vertical_followVal 72 _ _ _ hx (by push_cast; omega) (by omega)
        (by push_cast; omega) (by push_cast; omega)
    have f5 : trailingChain midnightPoints (k + 1) 5 = ⟨72, 6 + 8 * ((k + 1 : Nat) : Int)⟩ := by
      show followVal (trailingChain midnightPoints (k + 1) 4) (trailingChain midnightPoints k 5) = _
      rw [f4, t5]
      exact vertical_followVal 72 _ _ _ hx (by push_cast; omega) (by omega)
        (by push_cast; omega) (by push_cast; omega)
    exact ⟨f0, f1, f2, f3, f4, f5⟩

theorem leading_midnight : ∀ i : Nat, i ≤ 15 →
    leadingChain midnightPoints i 0 = ⟨72, 444⟩ ∧
    leadingChain midnightPoints i 1 = ⟨72, 132 - 8 * (i : Int)⟩ ∧
    leadingChain midnightPoints i 2 = ⟨72, 84 - 8 * (i : Int)⟩ ∧
    leadingChain midnightPoints i 3 = ⟨72, 48 - 8 * (i : Int)⟩ ∧
    leadingChain midnightPoints i 4 = ⟨72, 24 - 8 * (i : Int)⟩ ∧
    leadingChain midnightPoints i 5 = ⟨72, 6 - 8 * (i : Int)⟩ := by
  intro i
  induction i with
  | zero => intro _; decide
  | succ k ih =>
    intro hk
    obtain ⟨t0, t1, t2, t3, t4, t5⟩ := ih (by omega)
    have hx : (-16000 : Int) ≤ 72 ∧ (72 : Int) ≤ 16000 := by decide
    have f0 : leadingChain midnightPoints (k + 1) 0 = ⟨72, 444⟩ := rfl
    have f1 : leadingChain midnightPoints (k + 1) 1 = ⟨72, 132 - 8 * ((k + 1 : Nat) : Int)⟩ := by
      show unfollowVal (leadingChain midnightPoints k 0) (leadingChain midnightPoints k 1) = _
      rw [t0, t1]
      exact vertical_unfollowVal 72 _ _ _ hx (by omega) (by omega) (by omega)
        (by push_cast; omega)
    have f2 : leadingChain midnightPoints (k + 1) 2 = ⟨72, 84 - 8 * ((k + 1 : Nat) : Int)⟩ := by
      show unfollowVal (leadingChain midnightPoints k 1) (leadingChain midnightPoints k 2) = _
      rw [t1, t2]
      exact vertical_unfollowVal 72 _ _ _ hx (by omega) (by omega) (by omega)
        (by push_cast; omega)
    have f3 : leadingChain midnightPoints (k + 1) 3 = ⟨72, 48 - 8 * ((k + 1 : Nat) : Int)⟩ := by
      show unfollowVal (leadingChain midnightPoints k 2) (leadingChain midnightPoints k 3) = _
      rw [t2, t3]
      exact vertical_unfollowVal 72 _ _ _ hx (by omega) (by omega) (by omega)
        (by push_cast; omega)
    have f4 : leadingChain midnightPoints (k + 1) 4 = ⟨72, 24 - 8 * ((k + 1 : Nat) : Int)⟩ := by
      show unfollowVal (leadingChain midnightPoints k 3) (leadingChain midnightPoints k 4) = _
      rw [t3, t4]
      exact vertical_unfollowVal 72 _ _ _ hx (by omega) (by omega) (by omega)
        (by push_cast; omega)
    have f5 : leadingChain midnightPoints (k + 1) 5 = ⟨72, 6 - 8 * ((k + 1 : Nat) : Int)⟩ := by
      show unfollowVal (leadingChain midnightPoints k 4) (leadingChain midnightPoints k 5) = _
      rw [t4, t5]
      exact vertical_unfollowVal 72 _ _ _ hx (by omega) (by omega) (by omega)
        (by push_cast; omega)
    exact ⟨f0, f1, f2, f3, f4, f5⟩

theorem specChain_midnight (i : Int) (hi : -15 ≤ i ∧ i ≤ 15) :
    specChain midnightPoints i 1 = ⟨72, 132 - 8 * i⟩ ∧
    specChain midnightPoints i 2 = ⟨72, 84 - 8 * i⟩ ∧
    specChain midnightPoints i 3 = ⟨72, 48 - 8 * i⟩ := by
  unfold specChain
  by_cases h : i < 0
  · rw [if_pos h]
    obtain ⟨-, t1, t2, t3, -, -⟩ := trailing_midnight (-i).toNat (by omega)
    have e : ((-i).toNat : Int) = -i := by omega
    rw [t1, t2, t3, e]
    refine ⟨?_, ?_, ?_⟩ <;> congr 1 <;> omega
  · rw [if_neg h]
    obtain ⟨-, t1, t2, t3, -, -⟩ := leading_midnight i.toNat (by omega)
    have e : (i.toNat : Int) = i := by omega
    rw [t1, t2, t3, e]
    exact ⟨rfl, rfl, rfl⟩

theorem build_points_midnight (cos_lookup sin_lookup : Int → Int) (origin : GPoint)
    (hc1 : cos_lookup 16384 = 0) (hs1 : sin_lookup 16384 = TRIG_MAX_RATIO)
    (hc2 : cos_lookup (-16384) = 0) (hs2 : sin_lookup (-16384) = - TRIG_MAX_RATIO) :
    build_points cos_lookup sin_lookup ⟨origin, ⟨144, 168⟩⟩ 0 0 = .ok midnightPoints := by
  have h1 : month_arg 0 = .ok 16384 := by decide
  have h2 : year_arg 0 = .ok 16384 := by decide
  have h3 : hour_arg 0 = .ok (-16384) := by decide
  have h4 : min_arg 0 = .ok (-16384) := by decide
  have h5 : sec_arg 0 = .ok (-16384) := by decide
  unfold build_points
  simp only [h1, h2, h3, h4, h5, ok_bind, get_angular_point_eq, hc1, hs1, hc2, hs2]
  rfl


/-! ## Every read of `all_points` finds a cell written earlier -/

theorem specChain_follow_rec (points : Nat → GPoint) (i p : Int) (hi : 1 ≤ i) (hp : 1 ≤ p) :
    specChain points (-i) p.toNat
      = followVal (specChain points (-i) (p - 1).toNat) (specChain points (-i + 1) p.toNat) := by
  have hsucc : p.toNat = (p - 1).toNat + 1 := by omega
  conv_lhs => rw [specChain_behind points i hi, hsucc, followChain]
  rw [← specChain_behind points i hi, ← hsucc]

theorem specChain_unfollow_rec (points : Nat → GPoint) (i p : Int) (hi : 1 ≤ i) (hp : 1 ≤ p) :
    specChain points i p.toNat
      = unfollowVal (specChain points (i - 1) (p - 1).toNat)
          (specChain points (i - 1) p.toNat) := by
  have hsucc : p.toNat = (p - 1).toNat + 1 := by omega
  conv_lhs => rw [specChain_ahead points i hi, hsucc, unfollowChain]
  rw [← hsucc]

theorem drawSequence_length_nat (pbl_color : Bool) (points : Nat → GPoint) (n : Int) :
    (drawSequence pbl_color points n).length = 33 * (n - 1).toNat := by
  unfold drawSequence
  rw [List.length_append, List.length_append, echoLines_length, outlineLines_length,
    overlayLines_length]
  omega

/-- C16 (bounds and initialisation): in the model every access to `all_points`, `points`
and `line_colors` is checked: it faults unless the chain index is in 0..30, the point index
in 0..5, the colour index in 0..4 and, for a read of `all_points`, the cell was written
earlier in the call (the array starts with no cell written).  For every `point_limit` up
to 6, so for each of 1..6, the echo loops and the whole of `draw_lines_and_echoes` end
without fault and draw `33*(point_limit-1)` lines.  Every read they make succeeds: the
trailing loop reads point `p-1` of its own chain and point `p` of the chain one step
closer to the base, the leading loop reads points `p-1` and `p` of the chain one step
closer to the base, the echo pass reads points `p-1` and `p` of every chain and
`line_colors[p-1]`, the outline and overlay passes read `points[p-1]` and point `p` of the
base chain; the values read are the ones the results are built from.  The cell an
inner-loop step writes depends only on the two cells it reads. -/
theorem accesses_in_range_and_initialised (pbl_color : Bool) (ctx : GContext)
    (points : Nat → GPoint) (point_limit : Int) (h6 : point_limit ≤ 6) :
    (∃ g c, echo_loops points point_limit = .ok g ∧
      draw_lines_and_echoes pbl_color ctx points point_limit = .ok c ∧
      c.lines.length = ctx.lines.length + 33 * (point_limit - 1).toNat ∧
      (∀ i : Int, -15 ≤ i → i ≤ 15 → 0 ≤ INDEX_POINTS i ∧ INDEX_POINTS i ≤ 30) ∧
      (∀ i p : Int, 1 ≤ i → i ≤ 15 → 1 ≤ p → p < point_limit →
        ∃ a b r, g.read (INDEX_POINTS (-i)) (p - 1) = .ok a ∧
          g.read (INDEX_POINTS (-i + 1)) p = .ok b ∧
          get_follow a b = .ok r ∧ g.read (INDEX_POINTS (-i)) p = .ok r) ∧
      (∀ i p : Int, 1 ≤ i → i ≤ 15 → 1 ≤ p → p < point_limit →
        ∃ a b r, g.read (INDEX_POINTS (i - 1)) (p - 1) = .ok a ∧
          g.read (INDEX_POINTS (i - 1)) p = .ok b ∧
          get_unfollow a b = .ok r ∧ g.read (INDEX_POINTS i) p = .ok r) ∧
      (∀ p i : Int, 1 ≤ p → p < point_limit → -15 ≤ i → i ≤ 15 →
        ∃ a b col, g.read (INDEX_POINTS i) (p - 1) = .ok a ∧
          g.read (INDEX_POINTS i) p = .ok b ∧
          readColor pbl_color (p - 1) = .ok col ∧
          c.lines[ctx.lines.length + (31 * (p - 1) + (i + 15)).toNat]?
            = some ⟨a, b, 1, col⟩) ∧
      (∀ p : Int, 1 ≤ p → p < point_limit →
        ∃ a b l1 l2, readPoint points (p - 1) = .ok a ∧
          g.read (INDEX_POINTS 0) p = .ok b ∧
          c.lines[ctx.lines.length + (31 * (point_limit - 1) + (p - 1)).toNat]? = some l1 ∧
          c.lines[ctx.lines.length + (32 * (point_limit - 1) + (p - 1)).toNat]? = some l2 ∧
          l1.p0 = a ∧ l1.p1 = b ∧ l2.p0 = a ∧ l2.p1 = b)) ∧
    (∀ row col : Int, Grid.fresh.cell row col = none) ∧
    (∀ (g : Grid) (row col : Int) (v : GPoint), g.read row col = .ok v →
      0 ≤ row ∧ row ≤ 30 ∧ 0 ≤ col ∧ col ≤ 5 ∧ g.cell row col = some v) ∧
    (∀ (g g1 : Grid) (row col : Int) (v : GPoint), g.write row col v = .ok g1 →
      0 ≤ row ∧ row ≤ 30 ∧ 0 ≤ col ∧ col ≤ 5) ∧
    (∀ (pts : Nat → GPoint) (i : Int) (v : GPoint), readPoint pts i = .ok v →
      0 ≤ i ∧ i ≤ 5) ∧
    (∀ (pbl : Bool) (i : Int) (c : GColor), readColor pbl i = .ok c → 0 ≤ i ∧ i ≤ 4) ∧
    (∀ (a f p : Int) (g g2 : Grid), g.cell a (p - 1) = g2.cell a (p - 1) →
      g.cell f p = g2.cell f p →
      (follow_step a f p g).map (fun t => t.cell a p)
        = (follow_step a f p g2).map (fun t => t.cell a p)) ∧
    (∀ (a u p : Int) (g g2 : Grid), g.cell u (p - 1) = g2.cell u (p - 1) →
      g.cell u p = g2.cell u p →
      (unfollow_step a u p g).map (fun t => t.cell a p)
        = (unfollow_step a u p g2).map (fun t => t.cell a p)) := by
  obtain ⟨c, hc, hl⟩ := draw_lines_and_echoes_eq pbl_color ctx points point_limit h6
  refine ⟨⟨specGrid points point_limit, c, echo_loops_eq points point_limit h6, hc, ?_, ?_,
      ?_, ?_, ?_, ?_⟩, fun _ _ => rfl,
    fun g row col v h => (Grid.read_ok_iff g row col v).mp h,
    fun g g1 row col v h => Grid.write_ok_bounds g g1 row col v h,
    fun pts i v h => readPoint_ok_bounds pts i v h,
    fun pbl i c h => readColor_ok_bounds pbl i c h,
    fun a f p g g2 e1 e2 => follow_step_reads a f p g g2 e1 e2,
    fun a u p g g2 e1 e2 => unfollow_step_reads a u p g g2 e1 e2⟩
  · rw [hl, List.length_append, drawSequence_length_nat]
  · intro i hi1 hi2
    unfold INDEX_POINTS NUM_BEHIND_ECHOES
    omega
  · intro i p hi1 hi2 hp1 hp2
    refine ⟨_, _, _,
      specGrid_read points point_limit (-i) (p - 1) (by omega) (by omega) (by omega),
      specGrid_read points point_limit (-i + 1) p (by omega) (by omega) (by omega),
      get_follow_ok _ _, ?_⟩
    rw [specGrid_read points point_limit (-i) p (by omega) (by omega) (by omega),
      specChain_follow_rec points i p hi1 hp1]
  · intro i p hi1 hi2 hp1 hp2
    refine ⟨_, _, _,
      specGrid_read points point_limit (i - 1) (p - 1) (by omega) (by omega) (by omega),
      specGrid_read points point_limit (i - 1) p (by omega) (by omega) (by omega),
      get_unfollow_ok _ _, ?_⟩
    rw [specGrid_read points point_limit i p (by omega) (by omega) (by omega),
      specChain_unfollow_rec points i p hi1 hp1]
  · intro p i hp1 hp2 hi1 hi2
    refine ⟨_, _, _,
      specGrid_read points point_limit i (p - 1) ⟨hi1, hi2⟩ (by omega) (by omega),
      specGrid_read points point_limit i p ⟨hi1, hi2⟩ (by omega) (by omega),
      readColor_ok pbl_color p (by omega), ?_⟩
    rw [hl, getElem?_after]
    exact drawSequence_echo pbl_color points point_limit p i ⟨hp1, hp2⟩ ⟨hi1, hi2⟩
  · intro p hp1 hp2
    refine ⟨_, _, outlineLine points p, overlayLine pbl_color points p,
      readPoint_ok points (p - 1) (by omega),
      specGrid_read points point_limit 0 p (by omega) (by omega) (by omega), ?_, ?_,
      rfl, ?_, rfl, ?_⟩
    · rw [hl, getElem?_after]
      exact drawSequence_outline pbl_color points point_limit p ⟨hp1, hp2⟩
    · rw [hl, getElem?_after]
      exact drawSequence_overlay pbl_color points point_limit p ⟨hp1, hp2⟩
    · rw [specChain_zero]; rfl
    · rw [specChain_zero]; rfl

/-- Witness of C16: the sample chain with `point_limit` 6 on a colour build: both echo
loops run all five inner iterations for each of the 15 chains, 165 lines are drawn, and
the reads of the last trailing chain at its last point succeed. -/
theorem accesses_in_range_and_initialised_witness :
    (6 : Int) ≤ 6 ∧
    ∃ g c, echo_loops samplePoints 6 = .ok g ∧
      draw_lines_and_echoes true sampleCtx samplePoints 6 = .ok c ∧
      c.lines.length = sampleCtx.lines.length + 33 * ((6 : Int) - 1).toNat ∧
      (∃ a b r, g.read (INDEX_POINTS (-15)) (5 - 1) = .ok a ∧
        g.read (INDEX_POINTS (-15 + 1)) 5 = .ok b ∧
        get_follow a b = .ok r ∧ g.read (INDEX_POINTS (-15)) 5 = .ok r) ∧
      (∃ a b col, g.read (INDEX_POINTS 15) (5 - 1) = .ok a ∧
        g.read (INDEX_POINTS 15) 5 = .ok b ∧
        readColor true (5 - 1) = .ok col ∧
        c.lines[sampleCtx.lines.length + (31 * ((5 : Int) - 1) + (15 + 15)).toNat]?
          = some ⟨a, b, 1, col⟩) := by
  refine ⟨by decide, ?_⟩
  obtain ⟨⟨g, c, h1, h2, h3, -, h5, -, h7, -⟩, -⟩ :=
    accesses_in_range_and_initialised true sampleCtx samplePoints 6 (by decide)
  exact ⟨g, c, h1, h2, h3, h5 15 5 (by decide) (by decide) (by decide) (by decide),
    h7 5 15 (by decide) (by decide) (by decide) (by decide)⟩
/-- C11 (end-to-end scenario): with bounds 144x168, `tm_yday = 0`, `time_sec = 0` and 6
active points, for trig lookups that return 0 and plus or minus `TRIG_MAX_RATIO` at the
quarter turns `16384` and `-16384`, `draw_update_proc` builds the base chain
`(72,444), (72,132), (72,84), (72,48), (72,24), (72,6)`: `points[2] = (72, 84)` and
`points[3] = (72, 48)`, the point at radius `144/4 = 36` and hour angle `-16384` from
`points[2]`.  It ends without fault and appends to the context exactly the draw sequence
of that chain, 165 lines: the echo line of segment `p` and offset `i` joins points `p-1`
and `p` of chain `i` of the echo set, and the outline of segment 3 joins `(72,84)` and
`(72,48)`.  The 31 chains of the echo set are pairwise distinct (any two differ at point
1); and for every `i` in 1..15 point 3 of trailing chain `-i` is the `get_follow` result
towards point 3 of chain `-i+1` and lies at squared distance `FOLLOW_DISTANCE^2 = 64`,
that is distance exactly 8, from it. -/
theorem midnight_scenario (pbl_color : Bool) (ctx : GContext)
    (cos_lookup sin_lookup : Int → Int) (origin : GPoint)
    (hc1 : cos_lookup 16384 = 0) (hs1 : sin_lookup 16384 = TRIG_MAX_RATIO)
    (hc2 : cos_lookup (-16384) = 0) (hs2 : sin_lookup (-16384) = - TRIG_MAX_RATIO) :
    ∃ pts g c,
      build_points cos_lookup sin_lookup ⟨origin, ⟨144, 168⟩⟩ 0 0 = .ok pts ∧
      pts 2 = ⟨72, 84⟩ ∧ pts 3 = ⟨72, 48⟩ ∧
      pts 0 = ⟨72, 444⟩ ∧ pts 1 = ⟨72, 132⟩ ∧ pts 4 = ⟨72, 24⟩ ∧ pts 5 = ⟨72, 6⟩ ∧
      hour_arg 0 = .ok (-16384) ∧ Int.tdiv 144 4 = 36 ∧
      get_angular_point cos_lookup sin_lookup (pts 2) 36 (-16384) = .ok (pts 3) ∧
      echo_loops pts (point_limit_of true) = .ok g ∧
      draw_update_proc pbl_color cos_lookup sin_lookup ⟨origin, ⟨144, 168⟩⟩ 0 0 true ctx
        = .ok c ∧
      c.lines = ctx.lines ++ drawSequence pbl_color pts 6 ∧
      c.lines.length = ctx.lines.length + 165 ∧
      (∀ p i : Int, 1 ≤ p → p < 6 → -15 ≤ i → i ≤ 15 →
        ∃ a b, g.cell (INDEX_POINTS i) (p - 1) = some a ∧
          g.cell (INDEX_POINTS i) p = some b ∧
          c.lines[ctx.lines.length + (31 * (p - 1) + (i + 15)).toNat]?
            = some ⟨a, b, 1, segmentColor pbl_color p⟩) ∧
      c.lines[ctx.lines.length + 157]? = some ⟨⟨72, 84⟩, ⟨72, 48⟩, 7, GColor.Black⟩ ∧
      (∀ i j : Int, -15 ≤ i → i ≤ 15 → -15 ≤ j → j ≤ 15 → i ≠ j →
        g.cell (INDEX_POINTS i) 1 ≠ g.cell (INDEX_POINTS j) 1) ∧
      (∀ i : Int, 1 ≤ i → i ≤ 15 →
        ∃ prev a b, g.cell (INDEX_POINTS (-i)) 2 = some prev ∧
          g.cell (INDEX_POINTS (-i)) 3 = some a ∧
          g.cell (INDEX_POINTS (-i + 1)) 3 = some b ∧
          get_follow prev b = .ok a ∧
          (a.x - b.x) ^ 2 + (a.y - b.y) ^ 2 = FOLLOW_DISTANCE ^ 2) := by
  have hb := build_points_midnight cos_lookup sin_lookup origin hc1 hs1 hc2 hs2
  have h6 : point_limit_of true = 6 := by decide
  obtain ⟨c, hd, hl⟩ := draw_lines_and_echoes_eq pbl_color ctx midnightPoints 6 (by decide)
  have hcell : ∀ i p : Int, -15 ≤ i → i ≤ 15 → 0 ≤ p → p < 6 →
      (specGrid midnightPoints 6).cell (INDEX_POINTS i) p
        = some (specChain midnightPoints i p.toNat) := by
    intro i p hi1 hi2 hp1 hp2
    exact specGrid_chain_cell midnightPoints 6 i p ⟨hi1, hi2⟩ ⟨hp1, hp2⟩ hp2
  refine ⟨midnightPoints, specGrid midnightPoints 6, c, hb, rfl, rfl, rfl, rfl, rfl, rfl,
    by decide, by decide, ?_, ?_, ?_, hl, ?_, ?_, ?_, ?_, ?_⟩
  · rw [get_angular_point_eq, hc2, hs2]
    rfl
  · rw [h6]
    exact echo_loops_eq midnightPoints 6 (by decide)
  · unfold draw_update_proc
    rw [hb, ok_bind, h6]
    exact hd
  · rw [hl, List.length_append, drawSequence_length_nat]
    rfl
  · intro p i hp1 hp2 hi1 hi2
    refine ⟨_, _, hcell i (p - 1) hi1 hi2 (by omega) (by omega), hcell i p hi1 hi2 (by omega)
      hp2, ?_⟩
    rw [hl, getElem?_after]
    exact drawSequence_echo pbl_color midnightPoints 6 p i ⟨hp1, hp2⟩ ⟨hi1, hi2⟩
  · rw [hl, getElem?_after]
    exact drawSequence_outline pbl_color midnightPoints 6 3 (by decide)
  · intro i j hi1 hi2 hj1 hj2 hij
    rw [hcell i 1 hi1 hi2 (by decide) (by decide), hcell j 1 hj1 hj2 (by decide) (by decide)]
    have e1 : (1 : Int).toNat = 1 := rfl
    rw [e1, (specChain_midnight i ⟨hi1, hi2⟩).1, (specChain_midnight j ⟨hj1, hj2⟩).1]
    intro h
    have h2 := congrArg GPoint.y (Option.some.inj h)
    dsimp only at h2
    omega
  · intro i hi1 hi2
    have e2 : (2 : Int).toNat = 2 := rfl
    have e3 : (3 : Int).toNat = 3 := rfl
    have c2 := hcell (-i) 2 (by omega) (by omega) (by decide) (by decide)
    have c3 := hcell (-i) 3 (by omega) (by omega) (by decide) (by decide)
    have c3b := hcell (-i + 1) 3 (by omega) (by omega) (by decide) (by decide)
    rw [e2, (specChain_midnight (-i) (by omega)).2.1] at c2
    rw [e3, (specChain_midnight (-i) (by omega)).2.2] at c3
    rw [e3, (specChain_midnight (-i + 1) (by omega)).2.2] at c3b
    refine ⟨_, _, _, c2, c3, c3b, ?_, ?_⟩
    · rw [get_follow_ok]
      exact congrArg Except.ok (vertical_followVal 72 _ _ _ (by decide) (by omega) (by omega)
        (by omega) (by omega))
    · dsimp only
      unfold FOLLOW_DISTANCE
      have e : 48 - 8 * -i - (48 - 8 * (-i + 1)) = 8 := by ring
      rw [e]
      norm_num

/-- Witness of C11: the scenario with lookups that are exact at the quarter turns, on a
colour build with nothing drawn before: the base chain is built, the echo set exists and
the 165 lines of the draw sequence are what the context holds afterwards. -/
theorem midnight_scenario_witness :
    quarterCos 16384 = 0 ∧ quarterSin 16384 = TRIG_MAX_RATIO ∧
    quarterCos (-16384) = 0 ∧ quarterSin (-16384) = - TRIG_MAX_RATIO ∧
    ∃ pts g c,
      build_points quarterCos quarterSin ⟨⟨0, 0⟩, ⟨144, 168⟩⟩ 0 0 = .ok pts ∧
      pts 2 = ⟨72, 84⟩ ∧ pts 3 = ⟨72, 48⟩ ∧
      echo_loops pts (point_limit_of true) = .ok g ∧
      draw_update_proc true quarterCos quarterSin ⟨⟨0, 0⟩, ⟨144, 168⟩⟩ 0 0 true sampleCtx
        = .ok c ∧
      c.lines = sampleCtx.lines ++ drawSequence true pts 6 ∧
      c.lines.length = sampleCtx.lines.length + 165 ∧
      c.lines[sampleCtx.lines.length + 157]? = some ⟨⟨72, 84⟩, ⟨72, 48⟩, 7, GColor.Black⟩ := by
  refine ⟨by decide, by decide, by decide, by decide, ?_⟩
  obtain ⟨pts, g, c, h1, h2, h3, -, -, -, -, -, -, -, h4, h5, h6, h7, -, h8, -⟩ :=
    midnight_scenario true sampleCtx quarterCos quarterSin ⟨0, 0⟩ (by decide) (by decide)
      (by decide) (by decide)
  exact ⟨pts, g, c, h1, h2, h3, h4, h5, h6, h7, h8⟩

end StackedCurves
